import Mathlib

/-! Verification of gosign: signature devices and their signature chains.

A shallow embedding of the Go packages `domain`, `persistence` and `service`
of `GiacomoCortesi/gosign`, followed by theorems about them.

Conventions of the embedding

* A Go `string` and a Go `[]byte` are both sequences of bytes: `List Byte`.
  A nil slice and an empty slice are identified (`len`, `append` and indexing
  do not tell them apart).
* A Go result pair `(T, error)` is a Lean pair `T × Option Error`; `none` is
  the nil error.  The zero value of a struct is its `Inhabited` default.
* A Go `map[string]V` is a finite map with pairwise distinct keys,
  `AList (fun _ : GoString => V)`.
* `int64` values are integers in `[-2^63, 2^63)`; arithmetic on them wraps
  explicitly (`wrapInt64`).
* The mutex of the in-memory repository is not modelled: every method is one
  sequential step on the repository value.
-/

namespace Gosign

/-! ## Bytes, strings and the two standard-library text encoders -/

/-- One byte. -/
abbrev Byte := Fin 256

/-- A Go `string` (equally a `[]byte`): an arbitrary sequence of bytes. -/
abbrev GoString := List Byte

/-- The bytes of a Lean string literal made of ASCII characters; used to write
Go string literals. -/
def ascii (s : String) : GoString :=
  s.data.map (fun c => Fin.ofNat c.toNat)

/-- The byte `_` that separates the three fields of the signed payload. -/
def underscore : Byte := 95

/-- The `n`-th character of the standard base64 alphabet
`A-Z a-z 0-9 + /` (RFC 4648, table 1), for `n < 64`. -/
def base64Char (n : Nat) : Byte :=
  if n < 26 then Fin.ofNat (65 + n)
  else if n < 52 then Fin.ofNat (97 + (n - 26))
  else if n < 62 then Fin.ofNat (48 + (n - 52))
  else if n = 62 then 43
  else 47

/-- The padding character `=` of the standard encoding. -/
def base64Pad : Byte := 61

/-- Go `base64.StdEncoding.EncodeToString`: every group of three bytes
becomes four alphabet characters; a trailing group of one or two bytes is
padded with `=` to four characters. -/
def base64Std : List Byte → GoString
  | [] => []
  | [a] =>
      [base64Char (a.val / 4), base64Char (a.val % 4 * 16), base64Pad, base64Pad]
  | [a, b] =>
      [base64Char (a.val / 4), base64Char (a.val % 4 * 16 + b.val / 16),
        base64Char (b.val % 16 * 4), base64Pad]
  | a :: b :: c :: rest =>
      base64Char (a.val / 4) :: base64Char (a.val % 4 * 16 + b.val / 16) ::
        base64Char (b.val % 16 * 4 + c.val / 64) :: base64Char (c.val % 64) ::
          base64Std rest

/-- The ASCII digit of `d < 10`. -/
def digitByte (d : Nat) : Byte := Fin.ofNat (48 + d)

/-- The decimal digits of `n`, most significant first, by repeated division;
`fuel` bounds the number of digits produced. -/
def decimalDigits : Nat → Nat → GoString
  | 0, _ => []
  | fuel + 1, n =>
      if n < 10 then [digitByte n]
      else decimalDigits fuel (n / 10) ++ [digitByte (n % 10)]

/-- The decimal text of a natural number (`n + 1` digits always suffice). -/
def natDecimal (n : Nat) : GoString := decimalDigits (n + 1) n

/-- The text `fmt.Sprintf("%d", c)` prints for an integer: a minus sign for a
negative value, then the decimal digits of the magnitude. -/
def decimal (c : Int) : GoString :=
  if c < 0 then Fin.ofNat 45 :: natDecimal c.natAbs else natDecimal c.natAbs

/-- The text `fmt.Sprintf("%d_%s_%s", counter, data, reference)`. -/
def sprintfSecured (counter : Int) (data reference : GoString) : GoString :=
  decimal counter ++ [underscore] ++ data ++ [underscore] ++ reference

/-! ## Package `crypto`: errors, algorithms, signers -/

/-- Go `error` values.  The three sentinel errors of the repository are
distinct values; every error produced by the standard library (key
generation, key decoding, signing) is some `other` value; `wrapped msg inner`
is an error that wraps `inner` (as `fmt.Errorf` with `%w` builds), which
`errors.Is` looks through. -/
inductive Error where
  | ErrSignatureDeviceNotFound
  | ErrSignatureDeviceAlreadyExist
  | ErrInvalidSignatureAlgorithm
  | other (msg : String)
  | wrapped (msg : String) (inner : Error)
deriving DecidableEq, Repr

/-- Go `errors.Is(err, target)` for a non-nil `err`: `err` equals `target`, or
wraps an error that is `target`. -/
def errorsIs (err target : Error) : Bool :=
  decide (err = target) ||
    match err with
    | Error.wrapped _ inner => errorsIs inner target
    | _ => false

/-- The type `SignatureAlgorithm int`: any Go `int` can be a value. -/
abbrev SignatureAlgorithm := Int

/-- The constant `SignatureAlgorithmRSA` (`iota` = 0). -/
def SignatureAlgorithmRSA : SignatureAlgorithm := 0

/-- The constant `SignatureAlgorithmECC` (`iota` = 1). -/
def SignatureAlgorithmECC : SignatureAlgorithm := 1

/-- A non-nil `crypto.Signer`: its method `Sign(dataToBeSigned) ([]byte, error)`. -/
structure Signer where
  Sign : List Byte → List Byte × Option Error

/-- The interface `crypto.SignerFactory`.  The first component of the result
is the returned `Signer` interface value, `none` when it is nil. -/
structure SignerFactory where
  CreateSigner : SignatureAlgorithm → List Byte → Option Signer × Option Error

/-! ## Package `domain` -/

/-- The least `int64` is `-2^63`; the greatest is `2^63 - 1`. -/
def int64Modulus : Int := 18446744073709551616

/-- Half of `int64Modulus`, that is `2^63`. -/
def int64Half : Int := 9223372036854775808

/-- Two's-complement reduction of an integer to the `int64` range. -/
def wrapInt64 (x : Int) : Int := (x + int64Half) % int64Modulus - int64Half

/-- The type `SignatureCounter int64`. -/
structure SignatureCounter where
  val : Int
  lower : -int64Half ≤ val
  upper : val < int64Half
deriving DecidableEq

/-- The counter literal `0`, also the zero value of the type. -/
def SignatureCounter.zero : SignatureCounter :=
  ⟨0, by decide, by decide⟩

/-- Method `Increment`: `atomic.AddInt64(c, 1)`, which wraps around on overflow.
The updated counter is returned instead of being written through the
pointer receiver. -/
def SignatureCounter.Increment (c : SignatureCounter) : SignatureCounter :=
  ⟨wrapInt64 (c.val + 1),
    by unfold wrapInt64 int64Half int64Modulus; omega,
    by unfold wrapInt64 int64Half int64Modulus; omega⟩

/-- Method `Value`: `atomic.LoadInt64(c)`. -/
def SignatureCounter.Value (c : SignatureCounter) : Int := c.val

/-- The struct `SignatureDeviceRequest`. -/
structure SignatureDeviceRequest where
  ID : GoString
  Algorithm : SignatureAlgorithm
  Label : GoString
  PrivateKey : List Byte
  PublicKey : List Byte
deriving DecidableEq

/-- The struct `SignatureDeviceResponse`. -/
structure SignatureDeviceResponse where
  ID : GoString
  Algorithm : SignatureAlgorithm
  Label : GoString
  SignatureCounter : SignatureCounter
  PrivateKey : List Byte
  PublicKey : List Byte
deriving DecidableEq

/-- The zero value `domain.SignatureDeviceResponse{}`. -/
def SignatureDeviceResponse.zero : SignatureDeviceResponse :=
  { ID := [], Algorithm := 0, Label := [], SignatureCounter := SignatureCounter.zero,
    PrivateKey := [], PublicKey := [] }

/-- The struct `SignatureResponse`: one link of a device's signature chain. -/
structure SignatureResponse where
  Signature : GoString
  SignedData : GoString
deriving DecidableEq

/-- The zero value `domain.SignatureResponse{}`. -/
def SignatureResponse.zero : SignatureResponse :=
  { Signature := [], SignedData := [] }

/-- The interface `SignatureDeviceRepository`, over a repository value of type
`σ`.  Every method takes the repository before the call and returns the
repository after the call together with its Go results. -/
structure SignatureDeviceRepository (σ : Type) where
  Create : σ → SignatureDeviceRequest → σ × SignatureDeviceResponse × Option Error
  GetAll : σ → σ × List SignatureDeviceResponse × Option Error
  Get : σ → GoString → σ × SignatureDeviceResponse × Option Error
  AddSignature : σ → GoString → SignatureResponse →
    σ × SignatureDeviceResponse × Option Error
  GetAllSignature : σ → GoString → σ × List SignatureResponse × Option Error

/-! ## Package `persistence` -/

/-- A Go `map[string]V`. -/
abbrev GoMap (V : Type) := AList (fun _ : GoString => V)

/-- The struct `inMemorySignatureDeviceRepository` (without its mutex). -/
structure inMemorySignatureDeviceRepository where
  signatureDevice : GoMap SignatureDeviceResponse
  deviceSignatures : GoMap (List SignatureResponse)
deriving DecidableEq

/-- The constructor `NewInMemorySignatureDeviceRepository`: two empty maps. -/
def NewInMemorySignatureDeviceRepository : inMemorySignatureDeviceRepository :=
  { signatureDevice := ∅, deviceSignatures := ∅ }

namespace inMemorySignatureDeviceRepository

/-- Method `Create`. -/
def Create (r : inMemorySignatureDeviceRepository) (sdreq : SignatureDeviceRequest) :
    inMemorySignatureDeviceRepository × SignatureDeviceResponse × Option Error :=
  match r.signatureDevice.lookup sdreq.ID with
  | some _ => (r, SignatureDeviceResponse.zero, some Error.ErrSignatureDeviceAlreadyExist)
  | none =>
      let sdres : SignatureDeviceResponse :=
        { ID := sdreq.ID, Algorithm := sdreq.Algorithm, Label := sdreq.Label,
          SignatureCounter := SignatureCounter.zero,
          PrivateKey := sdreq.PrivateKey, PublicKey := sdreq.PublicKey }
      ({ signatureDevice := r.signatureDevice.insert sdreq.ID sdres,
         deviceSignatures := r.deviceSignatures.insert sdreq.ID [] }, sdres, none)

/-- Method `Get`. -/
def Get (r : inMemorySignatureDeviceRepository) (deviceId : GoString) :
    inMemorySignatureDeviceRepository × SignatureDeviceResponse × Option Error :=
  match r.signatureDevice.lookup deviceId with
  | some sdres => (r, sdres, none)
  | none => (r, SignatureDeviceResponse.zero, some Error.ErrSignatureDeviceNotFound)

/-- Method `AddSignature`: `Get`, then the increment of the copy, the store of
the copy and the append.  `r.deviceSignatures[deviceId]` of a missing key is
the nil slice. -/
def AddSignature (r : inMemorySignatureDeviceRepository) (deviceId : GoString)
    (sres : SignatureResponse) :
    inMemorySignatureDeviceRepository × SignatureDeviceResponse × Option Error :=
  match r.Get deviceId with
  | (r1, sdres, some err) => (r1, sdres, some err)
  | (r1, sdres, none) =>
      let sdres1 : SignatureDeviceResponse :=
        { sdres with SignatureCounter := sdres.SignatureCounter.Increment }
      ({ signatureDevice := r1.signatureDevice.insert deviceId sdres1,
         deviceSignatures :=
           r1.deviceSignatures.insert deviceId
             ((r1.deviceSignatures.lookup deviceId).getD [] ++ [sres]) }, sdres1, none)

/-- Method `GetAllSignature`. -/
def GetAllSignature (r : inMemorySignatureDeviceRepository) (deviceId : GoString) :
    inMemorySignatureDeviceRepository × List SignatureResponse × Option Error :=
  match r.deviceSignatures.lookup deviceId with
  | some sres => (r, sres, none)
  | none => (r, [], some Error.ErrSignatureDeviceNotFound)

/-- Method `GetAll`.  Go iterates a map in an unspecified order; the order of
the entries of the finite map is one such order. -/
def GetAll (r : inMemorySignatureDeviceRepository) :
    inMemorySignatureDeviceRepository × List SignatureDeviceResponse × Option Error :=
  (r, r.signatureDevice.entries.map (fun e => e.2), none)

/-- The in-memory repository as an implementation of the repository interface. -/
def repository : SignatureDeviceRepository inMemorySignatureDeviceRepository :=
  { Create := Create, GetAll := GetAll, Get := Get, AddSignature := AddSignature,
    GetAllSignature := GetAllSignature }

end inMemorySignatureDeviceRepository

/-! ## Package `service` -/

/-- How a call of a service method ends: it returns its Go results, or the
goroutine panics (a run-time error such as an index out of range). -/
inductive Outcome (α : Type) where
  | returned (value : α) (err : Option Error)
  | panicked (reason : String)
deriving DecidableEq

/-- The results of the key generators and marshalers of package `crypto`
that `generateKeyPair` calls (their code is not part of the sources at hand):
the error of `Generate()` and the results `(public, private, err)` of
marshaling the generated pair, for RSA and for ECC. -/
structure KeyMaterial where
  rsaGenerate : Option Error
  rsaMarshal : List Byte × List Byte × Option Error
  eccGenerate : Option Error
  eccEncode : List Byte × List Byte × Option Error

/-- The function `generateKeyPair`, results `(public, private, err)`.  When
marshaling fails the two byte slices are returned in swapped order; for an
algorithm that is neither RSA nor ECC no case of the `switch` runs and the
named results are returned as they are: nil, nil, nil. -/
def generateKeyPair (k : KeyMaterial) (a : SignatureAlgorithm) :
    List Byte × List Byte × Option Error :=
  if a = SignatureAlgorithmRSA then
    match k.rsaGenerate with
    | some err => ([], [], some err)
    | none =>
        match k.rsaMarshal with
        | (pub, priv, some err) => (priv, pub, some err)
        | (pub, priv, none) => (pub, priv, none)
  else if a = SignatureAlgorithmECC then
    match k.eccGenerate with
    | some err => ([], [], some err)
    | none =>
        match k.eccEncode with
        | (pub, priv, some err) => (priv, pub, some err)
        | (pub, priv, none) => (pub, priv, none)
  else ([], [], none)

/-- The struct `signatureDeviceService`. -/
structure signatureDeviceService (σ : Type) where
  signatureDeviceRepository : SignatureDeviceRepository σ
  signerFactory : SignerFactory

namespace signatureDeviceService

variable {σ : Type}

/-- Method `Create`.  `newID` is the string `uuid.NewString()` returns and `k`
the results of the key generators for this call. -/
def Create (s : signatureDeviceService σ) (k : KeyMaterial) (newID : GoString)
    (st : σ) (sdreq : SignatureDeviceRequest) :
    σ × SignatureDeviceResponse × Option Error :=
  let sdreq1 : SignatureDeviceRequest :=
    if sdreq.ID = [] then { sdreq with ID := newID } else sdreq
  match generateKeyPair k sdreq1.Algorithm with
  | (_, _, some err) => (st, SignatureDeviceResponse.zero, some err)
  | (pub, priv, none) =>
      s.signatureDeviceRepository.Create st
        { sdreq1 with PublicKey := pub, PrivateKey := priv }

/-- Method `Get`. -/
def Get (s : signatureDeviceService σ) (st : σ) (deviceId : GoString) :
    σ × SignatureDeviceResponse × Option Error :=
  s.signatureDeviceRepository.Get st deviceId

/-- Method `GetAll`. -/
def GetAll (s : signatureDeviceService σ) (st : σ) :
    σ × List SignatureDeviceResponse × Option Error :=
  s.signatureDeviceRepository.GetAll st

/-- Method `GetAllSignature`. -/
def GetAllSignature (s : signatureDeviceService σ) (st : σ) (deviceId : GoString) :
    σ × List SignatureResponse × Option Error :=
  s.signatureDeviceRepository.GetAllSignature st deviceId

/-- The second half of `SignTransaction`, from the base64 encoding of the
chain reference `lastSignature` to the end: build the payload from the counter
of `sdr`, sign it, store the link. -/
def signAndStore (s : signatureDeviceService σ) (st : σ) (deviceId data : GoString)
    (sdr : SignatureDeviceResponse) (signer : Option Signer) (lastSignature : GoString) :
    σ × Outcome SignatureResponse :=
  let lastSignature1 := base64Std lastSignature
  let securedDataToBeSigned := sprintfSecured sdr.SignatureCounter.val data lastSignature1
  match signer with
  | none => (st, Outcome.panicked "invalid memory address or nil pointer dereference")
  | some sg =>
      match sg.Sign securedDataToBeSigned with
      | (_, some err) => (st, Outcome.returned SignatureResponse.zero (some err))
      | (signedData, none) =>
          let sres : SignatureResponse :=
            { Signature := base64Std signedData, SignedData := securedDataToBeSigned }
          match s.signatureDeviceRepository.AddSignature st deviceId sres with
          | (st1, _, some err) => (st1, Outcome.returned SignatureResponse.zero (some err))
          | (st1, _, none) => (st1, Outcome.returned sres none)

/-- Method `SignTransaction`. -/
def SignTransaction (s : signatureDeviceService σ) (st : σ) (deviceId data : GoString) :
    σ × Outcome SignatureResponse :=
  match s.signatureDeviceRepository.Get st deviceId with
  | (st1, _, some err) => (st1, Outcome.returned SignatureResponse.zero (some err))
  | (st1, sdr, none) =>
      match s.signerFactory.CreateSigner sdr.Algorithm sdr.PrivateKey with
      | (_, some err) => (st1, Outcome.returned SignatureResponse.zero (some err))
      | (signer, none) =>
          if sdr.SignatureCounter.Value = 0 then
            signAndStore s st1 deviceId data sdr signer sdr.ID
          else
            match s.signatureDeviceRepository.GetAllSignature st1 deviceId with
            | (st2, _, some err) => (st2, Outcome.returned SignatureResponse.zero (some err))
            | (st2, signatures, none) =>
                match signatures.getLast? with
                | none => (st2, Outcome.panicked "index out of range [-1]")
                | some last => signAndStore s st2 deviceId data sdr signer last.Signature

end signatureDeviceService

/-- The service of `NewSignatureDeviceService` over the in-memory repository,
with the signer factory `f`. -/
def inMemoryService (f : SignerFactory) :
    signatureDeviceService inMemorySignatureDeviceRepository :=
  { signatureDeviceRepository := inMemorySignatureDeviceRepository.repository,
    signerFactory := f }

/-! ## Sequences of calls

The states "reached from the empty store" are the values of the repository
after a finite sequence of calls, made one after the other on
`NewInMemorySignatureDeviceRepository`.  What "was created", "was appended"
and "was signed" is read off the results the calls returned. -/

/-- One call of a method of the in-memory repository, with its arguments. -/
inductive RepositoryCall where
  | Create (sdreq : SignatureDeviceRequest)
  | GetAll
  | Get (deviceId : GoString)
  | AddSignature (deviceId : GoString) (sres : SignatureResponse)
  | GetAllSignature (deviceId : GoString)

/-- The repository after the call `c` on `r`. -/
def RepositoryCall.after (r : inMemorySignatureDeviceRepository) :
    RepositoryCall → inMemorySignatureDeviceRepository
  | .Create sdreq => (r.Create sdreq).1
  | .GetAll => r.GetAll.1
  | .Get deviceId => (r.Get deviceId).1
  | .AddSignature deviceId sres => (r.AddSignature deviceId sres).1
  | .GetAllSignature deviceId => (r.GetAllSignature deviceId).1

/-- The id the call `c` on `r` created: the request's ID when `c` is a
`Create` that returned a nil error, nothing otherwise. -/
def RepositoryCall.created (r : inMemorySignatureDeviceRepository) :
    RepositoryCall → List GoString
  | .Create sdreq => if (r.Create sdreq).2.2 = none then [sdreq.ID] else []
  | _ => []

/-- The link the call `c` on `r` appended for the device `id`: the link passed
when `c` is an `AddSignature` for `id` that returned a nil error, nothing
otherwise. -/
def RepositoryCall.appended (r : inMemorySignatureDeviceRepository) (id : GoString) :
    RepositoryCall → List SignatureResponse
  | .AddSignature deviceId sres =>
      if deviceId = id ∧ (r.AddSignature deviceId sres).2.2 = none then [sres] else []
  | _ => []

/-- The repository after the calls `cs`, made in order starting on `r`. -/
def runRepository (r : inMemorySignatureDeviceRepository) :
    List RepositoryCall → inMemorySignatureDeviceRepository
  | [] => r
  | c :: cs => runRepository (c.after r) cs

/-- The ids created by the calls `cs` made in order starting on `r`. -/
def createdIDs (r : inMemorySignatureDeviceRepository) : List RepositoryCall → List GoString
  | [] => []
  | c :: cs => c.created r ++ createdIDs (c.after r) cs

/-- The links appended for the device `id` by the calls `cs` made in order
starting on `r`, in the order of the calls. -/
def appendedLinks (r : inMemorySignatureDeviceRepository) (id : GoString) :
    List RepositoryCall → List SignatureResponse
  | [] => []
  | c :: cs => c.appended r id ++ appendedLinks (c.after r) id cs

/-- One call of a method of the service over the in-memory repository.  A call
of `Create` comes with the results of the key generators and of
`uuid.NewString()` for that call, a call of `SignTransaction` with the signer
factory in force for that call (so the signer may answer differently, or fail,
from one call to the next). -/
inductive ServiceCall where
  | Create (sdreq : SignatureDeviceRequest) (k : KeyMaterial) (newID : GoString)
  | GetAll
  | Get (deviceId : GoString)
  | GetAllSignature (deviceId : GoString)
  | SignTransaction (deviceId data : GoString) (f : SignerFactory)

/-- Whether a call returned with a nil error. -/
def Outcome.succeeded {α : Type} : Outcome α → Bool
  | .returned _ none => true
  | _ => false

/-- The service used for the calls that need no signer. -/
def nilSignerFactory : SignerFactory :=
  { CreateSigner := fun _ _ => (none, some Error.ErrInvalidSignatureAlgorithm) }

/-- The repository after the service call `c` on `r`. -/
def ServiceCall.after (r : inMemorySignatureDeviceRepository) :
    ServiceCall → inMemorySignatureDeviceRepository
  | .Create sdreq k newID => ((inMemoryService nilSignerFactory).Create k newID r sdreq).1
  | .GetAll => ((inMemoryService nilSignerFactory).GetAll r).1
  | .Get deviceId => ((inMemoryService nilSignerFactory).Get r deviceId).1
  | .GetAllSignature deviceId =>
      ((inMemoryService nilSignerFactory).GetAllSignature r deviceId).1
  | .SignTransaction deviceId data f =>
      ((inMemoryService f).SignTransaction r deviceId data).1

/-- The data the call `c` on `r` signed for the device `id`: the data passed
when `c` is a `SignTransaction` for `id` that returned a nil error, nothing
otherwise. -/
def ServiceCall.signed (r : inMemorySignatureDeviceRepository) (id : GoString) :
    ServiceCall → List GoString
  | .SignTransaction deviceId data f =>
      if deviceId = id ∧
          ((inMemoryService f).SignTransaction r deviceId data).2.succeeded = true then
        [data]
      else []
  | _ => []

/-- The repository after the service calls `cs`, made in order starting on `r`. -/
def runService (r : inMemorySignatureDeviceRepository) :
    List ServiceCall → inMemorySignatureDeviceRepository
  | [] => r
  | c :: cs => runService (c.after r) cs

/-- The data of the successful `SignTransaction` calls for the device `id`
among the service calls `cs` made in order starting on `r`, in the order of
the calls. -/
def signedData (r : inMemorySignatureDeviceRepository) (id : GoString) :
    List ServiceCall → List GoString
  | [] => []
  | c :: cs => c.signed r id ++ signedData (c.after r) id cs

/-- The two maps of the repository have the same keys. -/
def SameKeys (r : inMemorySignatureDeviceRepository) : Prop :=
  ∀ id : GoString, id ∈ r.signatureDevice ↔ id ∈ r.deviceSignatures

/-- The chain rule of the specification: the reference of the link at
position `n` (counted from 0) of the chain `l` of the device `id` is the
device id for the first link and the `Signature` string of the link before it
otherwise. -/
def chainReference (id : GoString) (l : List SignatureResponse) : Nat → GoString
  | 0 => id
  | m + 1 => ((l[m]?).map (fun prev => prev.Signature)).getD []

/-- The invariant of the service over the in-memory repository, relative to
the data `hist id` signed so far for every device `id`: the two maps have the
same keys, nothing was signed for an id without a device, every device is
stored under its own ID, its counter is the length of its chain (as an
`int64`), the chain is as long as the list of signed data, and every link at a
position below `2^63` follows the chain rule. -/
def ServiceInvariant (r : inMemorySignatureDeviceRepository)
    (hist : GoString → List GoString) : Prop :=
  SameKeys r ∧
  (∀ id : GoString, r.signatureDevice.lookup id = none → hist id = []) ∧
  ∀ (id : GoString) (d : SignatureDeviceResponse), r.signatureDevice.lookup id = some d →
    d.ID = id ∧
    ∃ l : List SignatureResponse, r.deviceSignatures.lookup id = some l ∧
      d.SignatureCounter.val = wrapInt64 l.length ∧
      l.length = (hist id).length ∧
      ∀ (n : Nat) (link : SignatureResponse) (dat : GoString),
        l[n]? = some link → (hist id)[n]? = some dat → n < 9223372036854775808 →
          link.SignedData = sprintfSecured n dat (base64Std (chainReference id l n))

/-! ## Fixtures of `service/device_test.go` -/

/-- The `MockSigner` of the service tests: `Sign` returns `"thesignature"`. -/
def mockSigner : Signer :=
  { Sign := fun _ => (ascii "thesignature", none) }

/-- The `MockSignerFactory` of the service tests: always `mockSigner`. -/
def mockSignerFactory : SignerFactory :=
  { CreateSigner := fun _ _ => (some mockSigner, none) }

/-- The device `{ID: "someid", Algorithm: RSA, SignatureCounter: n}` the mocked
repository of the service tests hands out, for `n` = 0, 1, 2. -/
def mockDevice (n : Nat) : SignatureDeviceResponse :=
  { ID := ascii "someid", Algorithm := SignatureAlgorithmRSA, Label := [],
    SignatureCounter := n.repeat SignatureCounter.Increment SignatureCounter.zero,
    PrivateKey := [], PublicKey := [] }

/-- The single stored link of `Test_..._SignTransaction_LastSignature`. -/
def mockHistory : List SignatureResponse :=
  [{ Signature := ascii "cHJldmlvdXNzaWduYXR1cmUK",
     SignedData := ascii "0_somepreviouslysigneddata_c29tZWlk" }]

/-- The `MockSignatureDeviceRepository` as the two service tests program it:
`Get` returns the device with counter `n`, `AddSignature` the device with
counter `n + 1`, `GetAllSignature` the list `history`.  The mock has no state
of its own. -/
def mockRepository (n : Nat) (history : List SignatureResponse) :
    SignatureDeviceRepository Unit :=
  { Create := fun u _ => (u, SignatureDeviceResponse.zero, none)
    GetAll := fun u => (u, [], none)
    Get := fun u _ => (u, mockDevice n, none)
    AddSignature := fun u _ _ => (u, mockDevice (n + 1), none)
    GetAllSignature := fun u _ => (u, history, none) }

/-- The service under test in `service/device_test.go`. -/
def mockService (n : Nat) (history : List SignatureResponse) :
    signatureDeviceService Unit :=
  { signatureDeviceRepository := mockRepository n history,
    signerFactory := mockSignerFactory }

/-! ## Fixtures of `persistence/inmemory_test.go` -/

/-- The device `{ID: "someid", Label: "some label", Algorithm: RSA}` with the
given counter, as the repository tests store it. -/
def testDevice (counter : SignatureCounter) : SignatureDeviceResponse :=
  { ID := ascii "someid", Algorithm := SignatureAlgorithmRSA, Label := ascii "some label",
    SignatureCounter := counter, PrivateKey := [], PublicKey := [] }

/-- The request `{ID: "someid", Label: "some label", Algorithm: RSA}` of the
`Create` tests. -/
def testRequest : SignatureDeviceRequest :=
  { ID := ascii "someid", Algorithm := SignatureAlgorithmRSA, Label := ascii "some label",
    PrivateKey := [], PublicKey := [] }

/-- The link `{Signature: "thesignature", SignedData: "thesigneddata"}` of the
`AddSignature` test. -/
def testLink : SignatureResponse :=
  { Signature := ascii "thesignature", SignedData := ascii "thesigneddata" }

/-- A repository holding `testDevice counter` under the key `"someid"` and an
empty `deviceSignatures` map, as the tests of `Get` and `AddSignature` build it. -/
def testRepository (counter : SignatureCounter) : inMemorySignatureDeviceRepository :=
  { signatureDevice := AList.singleton (ascii "someid") (testDevice counter),
    deviceSignatures := ∅ }

/-- The greatest `int64`, `2^63 - 1`, as a counter value. -/
def maxCounter : SignatureCounter :=
  ⟨9223372036854775807, by decide, by decide⟩

/-! ## The example scenario of the specification -/

/-- Key generators that succeed with the public key bytes `[1]` and the
private key bytes `[2]`. -/
def exampleKeys : KeyMaterial :=
  { rsaGenerate := none, rsaMarshal := ([1], [2], none),
    eccGenerate := none, eccEncode := ([1], [2], none) }

/-- Create device `{id: "d1", algorithm: RSA}`, sign `"hello"`, sign `"world"`;
the signer is the one of the service tests. -/
def exampleCalls : List ServiceCall :=
  [ ServiceCall.Create
      { ID := ascii "d1", Algorithm := SignatureAlgorithmRSA, Label := [],
        PrivateKey := [], PublicKey := [] } exampleKeys (ascii "generated-id"),
    ServiceCall.SignTransaction (ascii "d1") (ascii "hello") mockSignerFactory,
    ServiceCall.SignTransaction (ascii "d1") (ascii "world") mockSignerFactory ]

/-- The chain of `"d1"` after `exampleCalls`. -/
def exampleChain : List SignatureResponse :=
  [ { Signature := ascii "dGhlc2lnbmF0dXJl", SignedData := ascii "0_hello_ZDE=" },
    { Signature := ascii "dGhlc2lnbmF0dXJl",
      SignedData := ascii "1_world_ZEdobGMybG5ibUYwZFhKbA==" } ]

/-- The device `"d1"` after `exampleCalls`: counter 2. -/
def exampleDevice : SignatureDeviceResponse :=
  { ID := ascii "d1", Algorithm := SignatureAlgorithmRSA, Label := [],
    SignatureCounter := SignatureCounter.zero.Increment.Increment,
    PrivateKey := [2], PublicKey := [1] }

/-! ## Nil and non-nil slices; the `range` loop of `GetAll` -/

/-- A Go slice value where nil matters: `none` is the nil slice, `some l` a
non-nil slice with the elements `l` (`some []` is `[]T{}`). -/
abbrev GoSlice (α : Type) := Option (List α)

/-- Go `append(s, x)`: the elements of `s` followed by `x`; the result is never
nil. -/
def GoSlice.append {α : Type} (s : GoSlice α) (x : α) : GoSlice α :=
  some (s.getD [] ++ [x])

/-- The body of method `GetAll`, statement by statement, with nil slices told
apart from empty ones: `sdresList := []T{}`, then one `append` per entry the
`range` loop visits, then `return sdresList, nil`.  Go visits the entries of a
map in an unspecified order, each entry once: `order` is the sequence of
entries visited, a permutation of the entries of `r.signatureDevice`. -/
def GetAllRange (order : List (Sigma fun _ : GoString => SignatureDeviceResponse)) :
    GoSlice SignatureDeviceResponse × Option Error :=
  (order.foldl (fun sdresList e => GoSlice.append sdresList e.2) (some []), none)

/-! ## Fixtures for the service `Create` -/

/-- Key generators whose RSA generator fails. -/
def failingKeys : KeyMaterial :=
  { rsaGenerate := some (Error.other "rsa: key generation failed"),
    rsaMarshal := ([], [], none), eccGenerate := none, eccEncode := ([], [], none) }

/-- The request `{algorithm: RSA}` without an id. -/
def anonymousRequest : SignatureDeviceRequest :=
  { ID := [], Algorithm := SignatureAlgorithmRSA, Label := [], PrivateKey := [],
    PublicKey := [] }

/-- The string `uuid.NewString()` returns (package `github.com/google/uuid`,
not part of the sources at hand): the canonical text form of a UUID, which has
36 characters. -/
structure UUIDText where
  text : GoString
  length_eq : text.length = 36

/-- A UUID text for the examples. -/
def exampleUUID : UUIDText :=
  { text := ascii "123e4567-e89b-12d3-a456-426614174000", length_eq := by decide }

/-- Key generators that succeed with the keys `[1]` (public) and `[2]`
(private) for RSA, and `[3]` (public) and `[4]` (private) for ECC. -/
def distinctKeys : KeyMaterial :=
  { rsaGenerate := none, rsaMarshal := ([1], [2], none),
    eccGenerate := none, eccEncode := ([3], [4], none) }

/-- Key generators whose ECC generator fails and whose RSA marshaler fails. -/
def failingEccKeys : KeyMaterial :=
  { rsaGenerate := none,
    rsaMarshal := ([1], [2], some (Error.other "x509: unsupported key")),
    eccGenerate := some (Error.other "ecdsa: key generation failed"),
    eccEncode := ([3], [4], none) }

/-- The request `{algorithm: ECC}` without an id. -/
def anonymousEccRequest : SignatureDeviceRequest :=
  { ID := [], Algorithm := SignatureAlgorithmECC, Label := [], PrivateKey := [],
    PublicKey := [] }

/-- A store state built by a struct literal, as `persistence/inmemory_test.go`
builds its own: the device `testDevice`, whose `ID` is `"someid"`, under the
key `"otherid"`. -/
def mislabelledRepository : inMemorySignatureDeviceRepository :=
  { signatureDevice := AList.singleton (ascii "otherid") (testDevice SignatureCounter.zero),
    deviceSignatures := ∅ }

/-! ## Package `crypto`: the signer factory -/

/-- The results of the key marshalers of package `crypto` that `CreateSigner`
calls (their code is not part of the sources at hand), as functions of the
private key bytes: the private key `*kp.Private` and the error of
`NewRSAMarshaler().Unmarshal(pk)` and of `NewECCMarshaler().Decode(pk)`. -/
structure KeyDecoders (RSAKey ECCKey : Type) where
  rsaUnmarshal : List Byte → RSAKey × Option Error
  eccDecode : List Byte → ECCKey × Option Error

/-- The dynamic value of the `Signer` interface `CreateSigner` returns: nil, a
`*RSASigner` holding a private key, or a `*ECCSigner` holding a private key. -/
inductive SignerValue (RSAKey ECCKey : Type) where
  | nil
  | RSASigner (pk : RSAKey)
  | ECCSigner (pk : ECCKey)
deriving DecidableEq

/-- Method `signerFactory.CreateSigner`: the `switch` on the algorithm, with
`NewECCSigner` and `NewRSASigner`, which wrap the key and return a nil error. -/
def signerFactory.CreateSigner {RSAKey ECCKey : Type} (dec : KeyDecoders RSAKey ECCKey)
    (a : SignatureAlgorithm) (pk : List Byte) :
    SignerValue RSAKey ECCKey × Option Error :=
  if a = SignatureAlgorithmECC then
    match dec.eccDecode pk with
    | (_, some err) => (SignerValue.nil, some err)
    | (key, none) => (SignerValue.ECCSigner key, none)
  else if a = SignatureAlgorithmRSA then
    match dec.rsaUnmarshal pk with
    | (_, some err) => (SignerValue.nil, some err)
    | (key, none) => (SignerValue.RSASigner key, none)
  else (SignerValue.nil, some Error.ErrInvalidSignatureAlgorithm)

/-- Decoders for the examples: a key is its bytes, and the empty byte string
does not decode. -/
def exampleDecoders : KeyDecoders (List Byte) (List Byte) :=
  { rsaUnmarshal := fun pk =>
      if pk = [] then ([], some (Error.other "x509: failed to parse private key"))
      else (pk, none)
    eccDecode := fun pk =>
      if pk = [] then ([], some (Error.other "x509: failed to parse EC private key"))
      else (pk, none) }

/-! ## Package `crypto`: the text form of an algorithm -/

/-- The string table `[]string{"RSA", "ECC"}` of method `String`. -/
def algorithmNames : List GoString := [ascii "RSA", ascii "ECC"]

/-- Method `SignatureAlgorithm.String`: the index expression
`[]string{"RSA", "ECC"}[s]`, which panics when `s` is negative or at least 2.
A returned string comes with a nil error component (the method has a single
result). -/
def SignatureAlgorithm.String (s : SignatureAlgorithm) : Outcome GoString :=
  if s < 0 then Outcome.panicked "index out of range"
  else
    match algorithmNames[s.toNat]? with
    | some name => Outcome.returned name none
    | none => Outcome.panicked "index out of range"

/-- The byte `"`. -/
def doubleQuote : Byte := 34

/-- Go `json.Marshal` of a string made of ASCII letters, the only strings
`MarshalJSON` passes to it: the letters between double quotes, nil error. -/
def jsonMarshalString (s : GoString) : List Byte × Option Error :=
  ([doubleQuote] ++ s ++ [doubleQuote], none)

/-- Method `SignatureAlgorithm.MarshalJSON`: `json.Marshal(sa.String())`. -/
def SignatureAlgorithm.MarshalJSON (sa : SignatureAlgorithm) : Outcome (List Byte) :=
  match SignatureAlgorithm.String sa with
  | Outcome.panicked reason => Outcome.panicked reason
  | Outcome.returned name _ =>
      Outcome.returned (jsonMarshalString name).1 (jsonMarshalString name).2

/-- Method `SignatureAlgorithm.UnmarshalJSON`.  `unmarshal data` stands for
`json.Unmarshal(data, &s)` on a fresh string variable: the value of `s`
afterwards and the error.  The result is the value of `*sa` afterwards and
the returned error. -/
def SignatureAlgorithm.UnmarshalJSON (unmarshal : List Byte → GoString × Option Error)
    (sa : SignatureAlgorithm) (data : List Byte) : SignatureAlgorithm × Option Error :=
  match unmarshal data with
  | (_, some err) => (sa, some err)
  | (s, none) =>
      if s = ascii "RSA" then (SignatureAlgorithmRSA, none)
      else if s = ascii "ECC" then (SignatureAlgorithmECC, none)
      else (sa, some Error.ErrInvalidSignatureAlgorithm)

/-- A decoder for the examples: it decodes a JSON string literal without
escape sequences (a double quote, bytes from `0x20` up other than `"` and `\`,
a double quote) to the bytes between the quotes, and reports an error for any
other text. -/
def exampleUnmarshal (data : List Byte) : GoString × Option Error :=
  match data with
  | [] => ([], some (Error.other "unexpected end of JSON input"))
  | first :: rest =>
      if first = doubleQuote ∧ rest.getLast? = some doubleQuote ∧
          rest.dropLast.all (fun b => decide (32 ≤ b.val ∧ b ≠ 34 ∧ b ≠ 92)) = true then
        (rest.dropLast, none)
      else ([], some (Error.other "json: cannot unmarshal into Go value of type string"))

/-! ## The ID field and the key -/

/-- Every device of the repository is stored under its own `ID`. -/
def IdIsKey (r : inMemorySignatureDeviceRepository) : Prop :=
  ∀ (id : GoString) (d : SignatureDeviceResponse),
    r.signatureDevice.lookup id = some d → d.ID = id

/-! ## Package `api` -/

/-- A JSON document as `encoding/json` builds it from a Go value, before it is
laid out as text: `raw` holds the text a `MarshalJSON` method returned. -/
inductive JSON where
  | null
  | string (s : GoString)
  | number (n : Int)
  | raw (text : List Byte)
  | array (items : List JSON)
  | object (fields : List (GoString × JSON))

/-- The interface `domain.SignatureDeviceService` the server calls, over a
service state of type `σ`.  A call returns its Go results or panics. -/
structure SignatureDeviceService (σ : Type) where
  Create : σ → SignatureDeviceRequest → σ × Outcome SignatureDeviceResponse
  GetAll : σ → σ × Outcome (GoSlice SignatureDeviceResponse)
  Get : σ → GoString → σ × Outcome SignatureDeviceResponse
  SignTransaction : σ → GoString → GoString → σ × Outcome SignatureResponse
  GetAllSignature : σ → GoString → σ × Outcome (GoSlice SignatureResponse)

/-- The status codes of `net/http` the handlers use. -/
def StatusOK : Nat := 200

/-- Status `201 Created`. -/
def StatusCreated : Nat := 201

/-- Status `400 Bad Request`. -/
def StatusBadRequest : Nat := 400

/-- Status `404 Not Found`. -/
def StatusNotFound : Nat := 404

/-- Status `409 Conflict`. -/
def StatusConflict : Nat := 409

/-- Status `503 Service Unavailable`. -/
def StatusServiceUnavailable : Nat := 503

/-- Go `http.StatusText` for the codes above. -/
def StatusText (code : Nat) : GoString :=
  if code = 200 then ascii "OK"
  else if code = 201 then ascii "Created"
  else if code = 400 then ascii "Bad Request"
  else if code = 404 then ascii "Not Found"
  else if code = 409 then ascii "Conflict"
  else if code = 503 then ascii "Service Unavailable"
  else []

/-- What is written to the `http.ResponseWriter`: the status code of the first
`WriteHeader` and the body, a JSON document (laid out by `json.Marshal` or
`json.MarshalIndent`) or, after `WriteInternalError`, a plain text. -/
inductive ResponseBody where
  | json (doc : JSON)
  | text (bytes : List Byte)

/-- The response of a handler. -/
structure HTTPResponse where
  status : Nat
  body : ResponseBody

/-- How a handler ends: it has written a response, or it panics. -/
inductive Handled where
  | responded (resp : HTTPResponse)
  | panicked (reason : String)

/-- `encoding/json` on a `SignatureDeviceResponse`, from the struct tags: `id`,
`algorithm` (through `MarshalJSON`), `label` (left out when empty, `omitempty`),
`signature_counter` (a number); `PrivateKey` and `PublicKey` are tagged
`json:"-"` and left out. -/
def SignatureDeviceResponse.toJSON (d : SignatureDeviceResponse) : Outcome JSON :=
  match SignatureAlgorithm.MarshalJSON d.Algorithm with
  | Outcome.panicked reason => Outcome.panicked reason
  | Outcome.returned _ (some err) => Outcome.returned JSON.null (some err)
  | Outcome.returned text none =>
      Outcome.returned
        (JSON.object
          ([(ascii "id", JSON.string d.ID), (ascii "algorithm", JSON.raw text)] ++
            (if d.Label = [] then [] else [(ascii "label", JSON.string d.Label)]) ++
            [(ascii "signature_counter", JSON.number d.SignatureCounter.val)]))
        none

/-- `encoding/json` on a `SignatureResponse`: `signature` and `signed_data`. -/
def SignatureResponse.toJSON (sres : SignatureResponse) : JSON :=
  JSON.object
    [(ascii "signature", JSON.string sres.Signature),
      (ascii "signed_data", JSON.string sres.SignedData)]

/-- `encoding/json` on the elements of a slice of devices, in order; the first
element that fails or panics ends the encoding. -/
def devicesToJSON : List SignatureDeviceResponse → Outcome (List JSON)
  | [] => Outcome.returned [] none
  | d :: rest =>
      match d.toJSON with
      | Outcome.panicked reason => Outcome.panicked reason
      | Outcome.returned _ (some err) => Outcome.returned [] (some err)
      | Outcome.returned doc none =>
          match devicesToJSON rest with
          | Outcome.panicked reason => Outcome.panicked reason
          | Outcome.returned _ (some err) => Outcome.returned [] (some err)
          | Outcome.returned docs none => Outcome.returned (doc :: docs) none

/-- The values the handlers pass as `data interface{}` to `WriteAPIResponse`. -/
inductive ResponseData where
  | device (d : SignatureDeviceResponse)
  | devices (l : GoSlice SignatureDeviceResponse)
  | signature (sres : SignatureResponse)
  | signatures (l : GoSlice SignatureResponse)

/-- `encoding/json` on the `data` of a response; a nil slice is `null`. -/
def ResponseData.toJSON : ResponseData → Outcome JSON
  | .device d => d.toJSON
  | .devices none => Outcome.returned JSON.null none
  | .devices (some l) =>
      match devicesToJSON l with
      | Outcome.panicked reason => Outcome.panicked reason
      | Outcome.returned _ (some err) => Outcome.returned JSON.null (some err)
      | Outcome.returned docs none => Outcome.returned (JSON.array docs) none
  | .signature sres => Outcome.returned sres.toJSON none
  | .signatures none => Outcome.returned JSON.null none
  | .signatures (some l) =>
      Outcome.returned (JSON.array (l.map SignatureResponse.toJSON)) none

/-- Function `WriteErrorResponse`: the status `code` and the document
`{"errors": [...]}`. -/
def WriteErrorResponse (code : Nat) (errors : List GoString) : Handled :=
  Handled.responded
    { status := code,
      body := ResponseBody.json
        (JSON.object [(ascii "errors", JSON.array (errors.map JSON.string))]) }

/-- Function `WriteAPIResponse`: `WriteHeader(code)`, then the document
`{"data": ...}`; when marshaling fails, `WriteInternalError` (whose
`WriteHeader` comes second and is ignored) writes the text of status 500. -/
def WriteAPIResponse (code : Nat) (data : ResponseData) : Handled :=
  match data.toJSON with
  | Outcome.panicked reason => Handled.panicked reason
  | Outcome.returned _ (some _) =>
      Handled.responded
        { status := code, body := ResponseBody.text (ascii "Internal Server Error") }
  | Outcome.returned doc none =>
      Handled.responded
        { status := code, body := ResponseBody.json (JSON.object [(ascii "data", doc)]) }

/-- The struct `Server` (without its listen address). -/
structure Server (σ : Type) where
  signatureDeviceService : SignatureDeviceService σ

namespace Server

variable {σ : Type}

/-- Handler `CreateSignatureDevice`.  `decoded` is the result of
`json.NewDecoder(request.Body).Decode(&sdreq)`: the request and the error. -/
def CreateSignatureDevice (s : Server σ) (st : σ)
    (decoded : SignatureDeviceRequest × Option Error) : σ × Handled :=
  match decoded with
  | (_, some _) => (st, WriteErrorResponse StatusBadRequest [StatusText StatusBadRequest])
  | (sdreq, none) =>
      match s.signatureDeviceService.Create st sdreq with
      | (st1, Outcome.panicked reason) => (st1, Handled.panicked reason)
      | (st1, Outcome.returned _ (some err)) =>
          if errorsIs err Error.ErrSignatureDeviceAlreadyExist = true then
            (st1, WriteErrorResponse StatusConflict [StatusText StatusConflict])
          else
            (st1, WriteErrorResponse StatusServiceUnavailable
              [StatusText StatusServiceUnavailable])
      | (st1, Outcome.returned sdres none) =>
          (st1, WriteAPIResponse StatusCreated (ResponseData.device sdres))

/-- Handler `GetSignatureDevice`.  `deviceId` is `request.PathValue("id")`. -/
def GetSignatureDevice (s : Server σ) (st : σ) (deviceId : GoString) : σ × Handled :=
  match s.signatureDeviceService.Get st deviceId with
  | (st1, Outcome.panicked reason) => (st1, Handled.panicked reason)
  | (st1, Outcome.returned _ (some err)) =>
      if errorsIs err Error.ErrSignatureDeviceNotFound = true then
        (st1, WriteErrorResponse StatusNotFound [StatusText StatusNotFound])
      else
        (st1, WriteErrorResponse StatusServiceUnavailable
          [StatusText StatusServiceUnavailable])
  | (st1, Outcome.returned sdres none) =>
      (st1, WriteAPIResponse StatusOK (ResponseData.device sdres))

/-- Handler `SignTransaction`.  `decoded` is the result of decoding the request
body into a `SignatureRequest`: its `Data` and the error. -/
def SignTransaction (s : Server σ) (st : σ) (deviceId : GoString)
    (decoded : GoString × Option Error) : σ × Handled :=
  match decoded with
  | (_, some _) => (st, WriteErrorResponse StatusBadRequest [StatusText StatusBadRequest])
  | (data, none) =>
      match s.signatureDeviceService.SignTransaction st deviceId data with
      | (st1, Outcome.panicked reason) => (st1, Handled.panicked reason)
      | (st1, Outcome.returned _ (some err)) =>
          if errorsIs err Error.ErrSignatureDeviceNotFound = true then
            (st1, WriteErrorResponse StatusNotFound [StatusText StatusNotFound])
          else
            (st1, WriteErrorResponse StatusServiceUnavailable
              [StatusText StatusServiceUnavailable])
      | (st1, Outcome.returned sres none) =>
          (st1, WriteAPIResponse StatusOK (ResponseData.signature sres))

/-- Handler `GetDeviceSignatures`. -/
def GetDeviceSignatures (s : Server σ) (st : σ) (deviceId : GoString) : σ × Handled :=
  match s.signatureDeviceService.GetAllSignature st deviceId with
  | (st1, Outcome.panicked reason) => (st1, Handled.panicked reason)
  | (st1, Outcome.returned _ (some err)) =>
      if errorsIs err Error.ErrSignatureDeviceNotFound = true then
        (st1, WriteErrorResponse StatusNotFound [StatusText StatusNotFound])
      else
        (st1, WriteErrorResponse StatusServiceUnavailable
          [StatusText StatusServiceUnavailable])
  | (st1, Outcome.returned sres none) =>
      (st1, WriteAPIResponse StatusOK (ResponseData.signatures sres))

end Server

/-- The status of a handler's response, when it responded. -/
def Handled.status : Handled → Option Nat
  | .responded resp => some resp.status
  | .panicked _ => none

/-- The mapping of the specification for the handlers that take a device id:
success is 200, not found is 404, any other failure is 503. -/
def expectedStatusById (err : Option Error) : Nat :=
  match err with
  | none => 200
  | some e => if errorsIs e Error.ErrSignatureDeviceNotFound = true then 404 else 503

/-- The mapping of the specification for the creation handler: success is 201,
already exists is 409, any other failure is 503. -/
def expectedStatusCreate (err : Option Error) : Nat :=
  match err with
  | none => 201
  | some e => if errorsIs e Error.ErrSignatureDeviceAlreadyExist = true then 409 else 503

/-! ## Fixtures of `api/device_test.go` -/

/-- The device `{ID: "someid", Label: "somelabel", Algorithm: RSA,
SignatureCounter: 5}` of the handler tests. -/
def apiTestDevice : SignatureDeviceResponse :=
  { ID := ascii "someid", Algorithm := SignatureAlgorithmRSA, Label := ascii "somelabel",
    SignatureCounter := ⟨5, by decide, by decide⟩, PrivateKey := [], PublicKey := [] }

/-- A `MockSignatureDeviceService` as the handler tests program it: every
method returns `err` when it is not nil, and otherwise the test device, no
devices, the test link or no links. -/
def mockAPIService (err : Option Error) : SignatureDeviceService Unit :=
  { Create := fun u _ =>
      (u, Outcome.returned
        (if err = none then apiTestDevice else SignatureDeviceResponse.zero) err)
    GetAll := fun u => (u, Outcome.returned (some []) err)
    Get := fun u _ =>
      (u, Outcome.returned
        (if err = none then apiTestDevice else SignatureDeviceResponse.zero) err)
    SignTransaction := fun u _ _ =>
      (u, Outcome.returned (if err = none then testLink else SignatureResponse.zero) err)
    GetAllSignature := fun u _ => (u, Outcome.returned (some []) err) }

/-- The device of the handler tests with the algorithm value 5, the invalid
algorithm of `TestCreateSigner`. -/
def invalidAlgorithmDevice : SignatureDeviceResponse :=
  { apiTestDevice with Algorithm := 5 }

/-- A service whose `Get` and `Create` succeed with `invalidAlgorithmDevice`. -/
def invalidAlgorithmService : SignatureDeviceService Unit :=
  { mockAPIService none with
    Create := fun u _ => (u, Outcome.returned invalidAlgorithmDevice none)
    Get := fun u _ => (u, Outcome.returned invalidAlgorithmDevice none) }

/-- Where one call of `SignTransaction` stands, with the values of its local
variables that are still needed. -/
inductive SignStage where
  | start
  | readHistory (sdr : SignatureDeviceResponse) (signer : Option Signer)
  | addSignatureGet (sres : SignatureResponse)
  | addSignatureUpdate (sres : SignatureResponse) (sdres : SignatureDeviceResponse)
  | finished (out : Outcome SignatureResponse)

/-- One goroutine running `SignTransaction(deviceId, data)` on the service with
the signer factory `factory`. -/
structure SignCall where
  deviceId : GoString
  data : GoString
  factory : SignerFactory
  stage : SignStage

/-- The part of `SignTransaction` between the chain reference and the call of
`AddSignature`: encode the reference, build the payload from the counter of
`sdr`, sign it.  No repository access. -/
def signLocally (data : GoString) (sdr : SignatureDeviceResponse) (signer : Option Signer)
    (lastSignature : GoString) : SignStage :=
  match signer with
  | none => SignStage.finished
      (Outcome.panicked "invalid memory address or nil pointer dereference")
  | some sg =>
      match sg.Sign (sprintfSecured sdr.SignatureCounter.val data (base64Std lastSignature)) with
      | (_, some err) => SignStage.finished (Outcome.returned SignatureResponse.zero (some err))
      | (signedData, none) =>
          SignStage.addSignatureGet
            { Signature := base64Std signedData,
              SignedData :=
                sprintfSecured sdr.SignatureCounter.val data (base64Std lastSignature) }

/-- The next locked region of the call `t` on the repository `r`, together
with the local work that follows it. -/
def SignCall.step (r : inMemorySignatureDeviceRepository) (t : SignCall) :
    inMemorySignatureDeviceRepository × SignCall :=
  match t.stage with
  | .start =>
      match r.Get t.deviceId with
      | (r1, _, some err) =>
          (r1, { t with stage := .finished (Outcome.returned SignatureResponse.zero (some err)) })
      | (r1, sdr, none) =>
          match t.factory.CreateSigner sdr.Algorithm sdr.PrivateKey with
          | (_, some err) =>
              (r1, { t with
                stage := .finished (Outcome.returned SignatureResponse.zero (some err)) })
          | (signer, none) =>
              if sdr.SignatureCounter.Value = 0 then
                (r1, { t with stage := signLocally t.data sdr signer sdr.ID })
              else (r1, { t with stage := .readHistory sdr signer })
  | .readHistory sdr signer =>
      match r.GetAllSignature t.deviceId with
      | (r1, _, some err) =>
          (r1, { t with stage := .finished (Outcome.returned SignatureResponse.zero (some err)) })
      | (r1, signatures, none) =>
          match signatures.getLast? with
          | none => (r1, { t with stage := .finished (Outcome.panicked "index out of range [-1]") })
          | some last => (r1, { t with stage := signLocally t.data sdr signer last.Signature })
  | .addSignatureGet sres =>
      match r.Get t.deviceId with
      | (r1, _, some err) =>
          (r1, { t with stage := .finished (Outcome.returned SignatureResponse.zero (some err)) })
      | (r1, sdres, none) => (r1, { t with stage := .addSignatureUpdate sres sdres })
  | .addSignatureUpdate sres sdres =>
      ({ signatureDevice := r.signatureDevice.insert t.deviceId
           { sdres with SignatureCounter := sdres.SignatureCounter.Increment },
         deviceSignatures := r.deviceSignatures.insert t.deviceId
           ((r.deviceSignatures.lookup t.deviceId).getD [] ++ [sres]) },
        { t with stage := .finished (Outcome.returned sres none) })
  | .finished _ => (r, t)

/-- The call `t` run alone for `n` locked regions. -/
def SignCall.runAlone (r : inMemorySignatureDeviceRepository) (t : SignCall) :
    Nat → inMemorySignatureDeviceRepository × SignCall
  | 0 => (r, t)
  | n + 1 => SignCall.runAlone (t.step r).1 (t.step r).2 n

/-- The repository and the calls after the interleaving `schedule`: each entry
is the index of the call that runs its next locked region. -/
def runSchedule (r : inMemorySignatureDeviceRepository) (calls : List SignCall) :
    List Nat → inMemorySignatureDeviceRepository × List SignCall
  | [] => (r, calls)
  | i :: rest =>
      match calls[i]? with
      | none => runSchedule r calls rest
      | some t => runSchedule (t.step r).1 (calls.set i (t.step r).2) rest

/-- The outcome of a call that has finished. -/
def SignCall.outcome (t : SignCall) : Option (Outcome SignatureResponse) :=
  match t.stage with
  | .finished out => some out
  | _ => none

/-- The repository with the fresh device `"d1"` of the example scenario. -/
def freshDeviceRepository : inMemorySignatureDeviceRepository :=
  runService NewInMemorySignatureDeviceRepository (exampleCalls.take 1)

/-- Two concurrent calls on `"d1"`: `SignTransaction("d1", "a")` and
`SignTransaction("d1", "b")`, with the signer of the service tests. -/
def twoConcurrentCalls : List SignCall :=
  [ { deviceId := ascii "d1", data := ascii "a", factory := mockSignerFactory,
      stage := SignStage.start },
    { deviceId := ascii "d1", data := ascii "b", factory := mockSignerFactory,
      stage := SignStage.start } ]

/-! ## Concurrent calls of `AddSignature`

Method `AddSignature` has two locked regions: the call `r.Get(deviceId)`, which
locks and unlocks the mutex itself, and the region from `r.mu.Lock()` to the
return, which increments the copy `sdres` read by `Get`, stores it and appends
the link.  Between the two regions the mutex is free. -/

/-- Where one call of `AddSignature` stands: before its `Get`, before its
update with the device `sdres` read by `Get`, or returned. -/
inductive AddStage where
  | get
  | update (sdres : SignatureDeviceResponse)
  | finished (sdres : SignatureDeviceResponse) (err : Option Error)
deriving DecidableEq

/-- One goroutine running `AddSignature(deviceId, sres)`. -/
structure AddCall where
  deviceId : GoString
  sres : SignatureResponse
  stage : AddStage
deriving DecidableEq

/-- The next locked region of the call `t` on the repository `r`. -/
def AddCall.step (r : inMemorySignatureDeviceRepository) (t : AddCall) :
    inMemorySignatureDeviceRepository × AddCall :=
  match t.stage with
  | .get =>
      match r.Get t.deviceId with
      | (r1, sdres, some err) => (r1, { t with stage := .finished sdres (some err) })
      | (r1, sdres, none) => (r1, { t with stage := .update sdres })
  | .update sdres =>
      ({ signatureDevice := r.signatureDevice.insert t.deviceId
           { sdres with SignatureCounter := sdres.SignatureCounter.Increment },
         deviceSignatures := r.deviceSignatures.insert t.deviceId
           ((r.deviceSignatures.lookup t.deviceId).getD [] ++ [t.sres]) },
        { t with
          stage := .finished
            { sdres with SignatureCounter := sdres.SignatureCounter.Increment } none })
  | .finished _ _ => (r, t)

/-- The repository and the calls after the interleaving `schedule`: each entry
is the index of the call that runs its next locked region. -/
def runAddSchedule (r : inMemorySignatureDeviceRepository) (calls : List AddCall) :
    List Nat → inMemorySignatureDeviceRepository × List AddCall
  | [] => (r, calls)
  | i :: rest =>
      match calls[i]? with
      | none => runAddSchedule r calls rest
      | some t => runAddSchedule (t.step r).1 (calls.set i (t.step r).2) rest

/-- A second link for the examples. -/
def otherLink : SignatureResponse :=
  { Signature := ascii "othersignature", SignedData := ascii "othersigneddata" }

/-- Two concurrent calls `AddSignature("someid", testLink)` and
`AddSignature("someid", otherLink)`. -/
def twoAddCalls : List AddCall :=
  [ { deviceId := ascii "someid", sres := testLink, stage := AddStage.get },
    { deviceId := ascii "someid", sres := otherLink, stage := AddStage.get } ]

/-! ## Fixtures for an unsupported algorithm -/

/-- The request `{ID: "d5", Algorithm: SignatureAlgorithm(5)}`; 5 is the invalid
algorithm value of `TestCreateSigner`. -/
def invalidAlgorithmRequest : SignatureDeviceRequest :=
  { ID := ascii "d5", Algorithm := 5, Label := [], PrivateKey := [], PublicKey := [] }

/-- A signer factory that, like `signerFactory.CreateSigner`, refuses every
algorithm other than RSA and ECC with `ErrInvalidSignatureAlgorithm`, and
otherwise hands out the signer of the service tests. -/
def strictSignerFactory : SignerFactory :=
  { CreateSigner := fun a _ =>
      if a = SignatureAlgorithmECC ∨ a = SignatureAlgorithmRSA then (some mockSigner, none)
      else (none, some Error.ErrInvalidSignatureAlgorithm) }

/-! ## Left inverses of the two text encoders

These functions are not part of the program; they read back what `decimal`
and `base64Std` wrote, to show that the two encoders lose nothing. -/

/-- The number written by a sequence of ASCII digits. -/
def decimalValue (l : GoString) : Nat :=
  l.foldl (fun acc b => acc * 10 + (b.val - 48)) 0

/-- The position in the base64 alphabet of the character `b`. -/
def base64Index (b : Byte) : Nat :=
  if 65 ≤ b.val ∧ b.val ≤ 90 then b.val - 65
  else if 97 ≤ b.val ∧ b.val ≤ 122 then b.val - 71
  else if 48 ≤ b.val ∧ b.val ≤ 57 then b.val + 4
  else if b.val = 43 then 62
  else 63

/-- The bytes a text of `base64Std` stands for: every group of four characters
gives three bytes, or one or two bytes when it ends in padding. -/
def base64Unpack : GoString → List Byte
  | a :: b :: c :: d :: rest =>
      if c = base64Pad then
        [Fin.ofNat (base64Index a * 4 + base64Index b / 16)]
      else if d = base64Pad then
        [Fin.ofNat (base64Index a * 4 + base64Index b / 16),
          Fin.ofNat (base64Index b % 16 * 16 + base64Index c / 4)]
      else
        Fin.ofNat (base64Index a * 4 + base64Index b / 16) ::
          Fin.ofNat (base64Index b % 16 * 16 + base64Index c / 4) ::
            Fin.ofNat (base64Index c % 4 * 64 + base64Index d) :: base64Unpack rest
  | _ => []

/-! ## Package `crypto`: the two `Sign` methods -/

/-- The value `crypto.SHA256` of Go's `crypto.Hash` enumeration. -/
def cryptoSHA256 : Nat := 5

/-- The functions of Go's standard library that the two `Sign` methods and
their tests call (not code of the repository), as parameters.  `Rand` is the
state of `rand.Reader` at the call.  `sha256Sum256 data` is the digest
`sha256.Sum256(data)` together with the bytes the slice `data` holds after the
call.  The other fields are `rsa.SignPKCS1v15(rand.Reader, priv, hash, hashed)`,
`rsa.VerifyPKCS1v15(pub, hash, hashed, sig)`, where a nil error means that the
signature is accepted, `ecdsa.SignASN1(rand.Reader, priv, hash)` and
`ecdsa.VerifyASN1(pub, hash, sig)`. -/
structure SigningLibrary (Rand RSAPrivateKey RSAPublicKey ECPrivateKey ECPublicKey : Type)
    where
  sha256Sum256 : List Byte → List Byte × List Byte
  rsaSignPKCS1v15 : Rand → RSAPrivateKey → Nat → List Byte → List Byte × Option Error
  rsaVerifyPKCS1v15 : RSAPublicKey → Nat → List Byte → List Byte → Option Error
  ecdsaSignASN1 : Rand → ECPrivateKey → List Byte → List Byte × Option Error
  ecdsaVerifyASN1 : ECPublicKey → List Byte → List Byte → Bool

/-- The struct `RSASigner`. -/
structure RSASigner (RSAPrivateKey : Type) where
  pk : RSAPrivateKey

/-- The struct `ECCSigner`. -/
structure ECCSigner (ECPrivateKey : Type) where
  pk : ECPrivateKey

/-- Method `RSASigner.Sign`: the results `(signature, err)`, and the bytes the
caller's slice `dataToBeSigned` holds when the method returns.  The slice is
handed to `sha256.Sum256` only; the signing function gets the digest and the
hash identifier `crypto.SHA256`. -/
def RSASigner.Sign {Rand RSAPrivateKey RSAPublicKey ECPrivateKey ECPublicKey : Type}
    (lib : SigningLibrary Rand RSAPrivateKey RSAPublicKey ECPrivateKey ECPublicKey)
    (rnd : Rand) (s : RSASigner RSAPrivateKey) (dataToBeSigned : List Byte) :
    (List Byte × Option Error) × List Byte :=
  let hashedDataToBeSigned := lib.sha256Sum256 dataToBeSigned
  (lib.rsaSignPKCS1v15 rnd s.pk cryptoSHA256 hashedDataToBeSigned.1, hashedDataToBeSigned.2)

/-- Method `ECCSigner.Sign`: the results `(signature, err)`, and the bytes the
caller's slice `dataToBeSigned` holds when the method returns. -/
def ECCSigner.Sign {Rand RSAPrivateKey RSAPublicKey ECPrivateKey ECPublicKey : Type}
    (lib : SigningLibrary Rand RSAPrivateKey RSAPublicKey ECPrivateKey ECPublicKey)
    (rnd : Rand) (s : ECCSigner ECPrivateKey) (dataToBeSigned : List Byte) :
    (List Byte × Option Error) × List Byte :=
  let hashedDataToBeSigned := lib.sha256Sum256 dataToBeSigned
  (lib.ecdsaSignASN1 rnd s.pk hashedDataToBeSigned.1, hashedDataToBeSigned.2)

/-- A stand-in for the library in the examples (it is not cryptography).  The
digest of a message is its first 32 bytes, filled up with zero bytes.  A
signature is the key bytes followed by the digest, and it is accepted when it
has that form for the given key and digest; the RSA functions insist on the
hash `crypto.SHA256`, and RSA signing on a digest of 32 bytes. -/
def exampleLibrary : SigningLibrary Unit (List Byte) (List Byte) (List Byte) (List Byte) :=
  { sha256Sum256 := fun data => ((data ++ List.replicate 32 0).take 32, data)
    rsaSignPKCS1v15 := fun _ priv hash hashed =>
      if hash = cryptoSHA256 ∧ hashed.length = 32 then (priv ++ hashed, none)
      else ([], some (Error.other "crypto/rsa: input must be hashed message"))
    rsaVerifyPKCS1v15 := fun pub hash hashed sig =>
      if hash = cryptoSHA256 ∧ sig = pub ++ hashed then none
      else some (Error.other "crypto/rsa: verification error")
    ecdsaSignASN1 := fun _ priv hash => (priv ++ hash, none)
    ecdsaVerifyASN1 := fun pub hash sig => decide (sig = pub ++ hash) }

/-! ## Theorems -/

/-- The expectation of `Test_signatureDeviceService_SignTransaction_DeviceID`. -/
theorem test_SignTransaction_DeviceID :
    (mockService 0 []).SignTransaction () (ascii "someid") (ascii "somedata") =
      ((), Outcome.returned
        { Signature := ascii "dGhlc2lnbmF0dXJl", SignedData := ascii "0_somedata_c29tZWlk" }
        none) := by
  decide

/-- The expectation of `Test_signatureDeviceService_SignTransaction_LastSignature`. -/
theorem test_SignTransaction_LastSignature :
    (mockService 1 mockHistory).SignTransaction () (ascii "someid") (ascii "somedata") =
      ((), Outcome.returned
        { Signature := ascii "dGhlc2lnbmF0dXJl",
          SignedData := ascii "1_somedata_Y0hKbGRtbHZkWE56YVdkdVlYUjFjbVVL" }
        none) := by
  decide


/-- When `signAndStore` returns without error: the signer is not nil, it signs
the payload and `AddSignature` stores the link that is returned. -/
theorem signAndStore_returned_iff {σ : Type} (s : signatureDeviceService σ) (st st3 : σ)
    (deviceId data : GoString) (sdr : SignatureDeviceResponse) (signer : Option Signer)
    (ref : GoString) (resp : SignatureResponse) :
    s.signAndStore st deviceId data sdr signer ref = (st3, Outcome.returned resp none) ↔
      ∃ (sg : Signer) (sig : List Byte) (sdr1 : SignatureDeviceResponse),
        signer = some sg ∧
        sg.Sign (sprintfSecured sdr.SignatureCounter.val data (base64Std ref)) = (sig, none) ∧
        s.signatureDeviceRepository.AddSignature st deviceId
            { Signature := base64Std sig,
              SignedData := sprintfSecured sdr.SignatureCounter.val data (base64Std ref) } =
          (st3, sdr1, none) ∧
        resp =
          { Signature := base64Std sig,
            SignedData := sprintfSecured sdr.SignatureCounter.val data (base64Std ref) } := by
  simp only [signatureDeviceService.signAndStore]
  generalize sprintfSecured sdr.SignatureCounter.val data (base64Std ref) = payload
  cases signer with
  | none => simp
  | some sg =>
      rcases hS : sg.Sign payload with ⟨sig, es⟩
      cases es with
      | some e => simp [hS]
      | none =>
          rcases hA : s.signatureDeviceRepository.AddSignature st deviceId
            { Signature := base64Std sig, SignedData := payload } with ⟨st4, sdr4, ea⟩
          cases ea with
          | some e => simp [hS, hA]
          | none =>
              simp only [hS, hA]
              constructor
              · intro h
                simp only [Prod.mk.injEq, Outcome.returned.injEq, and_true] at h
                exact ⟨sg, sig, sdr4, rfl, hS, by rw [hA, h.1], h.2.symm⟩
              · rintro ⟨sg1, sig1, sdr1, h1, h2, h3, h4⟩
                simp only [Option.some.injEq] at h1
                subst h1
                rw [hS] at h2
                simp only [Prod.mk.injEq, and_true] at h2
                subst h2
                rw [hA] at h3
                simp only [Prod.mk.injEq, and_true] at h3
                rw [h3.1, h4]

/-- C2 (later links).  Let `Get` return a device `sdr` whose counter `c` is
not 0 and let `GetAllSignature` return a non-empty history `L`.  Then
`SignTransaction` succeeds with the response `resp` exactly when the signer
factory yields a signer, that signer returns some bytes `sig` for the payload
`decimal(c) ++ "_" ++ data ++ "_" ++ base64Std(Signature of the last element of
L)` and `AddSignature` stores the link; and then `resp` has that payload as
`SignedData` and `base64Std(sig)` as `Signature`.  The counter in the payload
is the one `Get` returned, whatever device `AddSignature` returns. -/
theorem SignTransaction_later_link {σ : Type} (s : signatureDeviceService σ)
    (st st1 st2 : σ) (deviceId data : GoString) (sdr : SignatureDeviceResponse)
    (L : List SignatureResponse)
    (hGet : s.signatureDeviceRepository.Get st deviceId = (st1, sdr, none))
    (hCounter : sdr.SignatureCounter.Value ≠ 0)
    (hAll : s.signatureDeviceRepository.GetAllSignature st1 deviceId = (st2, L, none))
    (hL : L ≠ []) (st3 : σ) (resp : SignatureResponse) :
    s.SignTransaction st deviceId data = (st3, Outcome.returned resp none) ↔
      ∃ (sg : Signer) (sig : List Byte) (sdr1 : SignatureDeviceResponse),
        s.signerFactory.CreateSigner sdr.Algorithm sdr.PrivateKey = (some sg, none) ∧
        sg.Sign (decimal sdr.SignatureCounter.Value ++ ascii "_" ++ data ++ ascii "_" ++
            base64Std (L.getLast hL).Signature) = (sig, none) ∧
        s.signatureDeviceRepository.AddSignature st2 deviceId
            { Signature := base64Std sig,
              SignedData := decimal sdr.SignatureCounter.Value ++ ascii "_" ++ data ++
                ascii "_" ++ base64Std (L.getLast hL).Signature } = (st3, sdr1, none) ∧
        resp =
          { Signature := base64Std sig,
            SignedData := decimal sdr.SignatureCounter.Value ++ ascii "_" ++ data ++
              ascii "_" ++ base64Std (L.getLast hL).Signature } := by
  have hlast : L.getLast? = some (L.getLast hL) := List.getLast?_eq_getLast L hL
  have hpay : decimal sdr.SignatureCounter.Value ++ ascii "_" ++ data ++ ascii "_" ++
      base64Std (L.getLast hL).Signature =
        sprintfSecured sdr.SignatureCounter.val data (base64Std (L.getLast hL).Signature) :=
    rfl
  rw [hpay]
  rcases hF : s.signerFactory.CreateSigner sdr.Algorithm sdr.PrivateKey with ⟨sgo, eo⟩
  cases eo with
  | some e =>
      simp [signatureDeviceService.SignTransaction, hGet, hF]
  | none =>
      have hrun : s.SignTransaction st deviceId data =
          s.signAndStore st2 deviceId data sdr sgo (L.getLast hL).Signature := by
        simp only [signatureDeviceService.SignTransaction, hGet, hF, hCounter, hAll, hlast,
          if_false]
      rw [hrun, signAndStore_returned_iff]
      constructor
      · rintro ⟨sg, sig, sdr1, h1, h2, h3, h4⟩
        exact ⟨sg, sig, sdr1, by rw [h1], h2, h3, h4⟩
      · rintro ⟨sg, sig, sdr1, h1, h2, h3, h4⟩
        simp only [Prod.mk.injEq, and_true] at h1
        exact ⟨sg, sig, sdr1, h1, h2, h3, h4⟩

/-- Witness of C2: the scenario of
`Test_signatureDeviceService_SignTransaction_LastSignature`, counter 1 and a
history of one link. -/
theorem SignTransaction_later_link_witness :
    (mockService 1 mockHistory).SignTransaction () (ascii "someid") (ascii "somedata") =
        ((), Outcome.returned
          { Signature := ascii "dGhlc2lnbmF0dXJl",
            SignedData := ascii "1_somedata_Y0hKbGRtbHZkWE56YVdkdVlYUjFjbVVL" } none) ↔
      ∃ (sg : Signer) (sig : List Byte) (sdr1 : SignatureDeviceResponse),
        (mockService 1 mockHistory).signerFactory.CreateSigner (mockDevice 1).Algorithm
            (mockDevice 1).PrivateKey = (some sg, none) ∧
        sg.Sign (decimal (mockDevice 1).SignatureCounter.Value ++ ascii "_" ++
            ascii "somedata" ++ ascii "_" ++
            base64Std (mockHistory.getLast (by decide)).Signature) = (sig, none) ∧
        (mockService 1 mockHistory).signatureDeviceRepository.AddSignature ()
            (ascii "someid")
            { Signature := base64Std sig,
              SignedData := decimal (mockDevice 1).SignatureCounter.Value ++ ascii "_" ++
                ascii "somedata" ++ ascii "_" ++
                base64Std (mockHistory.getLast (by decide)).Signature } = ((), sdr1, none) ∧
        ({ Signature := ascii "dGhlc2lnbmF0dXJl",
           SignedData := ascii "1_somedata_Y0hKbGRtbHZkWE56YVdkdVlYUjFjbVVL" } :
            SignatureResponse) =
          { Signature := base64Std sig,
            SignedData := decimal (mockDevice 1).SignatureCounter.Value ++ ascii "_" ++
              ascii "somedata" ++ ascii "_" ++
              base64Std (mockHistory.getLast (by decide)).Signature } :=
  SignTransaction_later_link (mockService 1 mockHistory) () () () (ascii "someid")
    (ascii "somedata") (mockDevice 1) mockHistory rfl (by decide) rfl (by decide) ()
    { Signature := ascii "dGhlc2lnbmF0dXJl",
      SignedData := ascii "1_somedata_Y0hKbGRtbHZkWE56YVdkdVlYUjFjbVVL" }

/-- C6 (duplicate create).  When the request's ID is already a key of
`signatureDevice`, `Create` returns the zero-value device with
`ErrSignatureDeviceAlreadyExist` and the repository it leaves is the one it
found: in particular the entry of that ID in either map is as before. -/
theorem Create_duplicate (r : inMemorySignatureDeviceRepository)
    (sdreq : SignatureDeviceRequest) (hdup : sdreq.ID ∈ r.signatureDevice) :
    r.Create sdreq =
        (r, SignatureDeviceResponse.zero, some Error.ErrSignatureDeviceAlreadyExist) ∧
      (r.Create sdreq).1.signatureDevice.lookup sdreq.ID =
        r.signatureDevice.lookup sdreq.ID ∧
      (r.Create sdreq).1.deviceSignatures.lookup sdreq.ID =
        r.deviceSignatures.lookup sdreq.ID := by
  obtain ⟨d, hd⟩ := Option.isSome_iff_exists.mp (AList.lookup_isSome.mpr hdup)
  have h : r.Create sdreq =
      (r, SignatureDeviceResponse.zero, some Error.ErrSignatureDeviceAlreadyExist) := by
    simp only [inMemorySignatureDeviceRepository.Create, hd]
  rw [h]
  exact ⟨rfl, rfl, rfl⟩

/-- Witness of C6: the test case "create signature device already exist". -/
theorem Create_duplicate_witness :
    (testRepository SignatureCounter.zero).Create testRequest =
        (testRepository SignatureCounter.zero, SignatureDeviceResponse.zero,
          some Error.ErrSignatureDeviceAlreadyExist) ∧
      ((testRepository SignatureCounter.zero).Create testRequest).1.signatureDevice.lookup
          testRequest.ID =
        (testRepository SignatureCounter.zero).signatureDevice.lookup testRequest.ID ∧
      ((testRepository SignatureCounter.zero).Create testRequest).1.deviceSignatures.lookup
          testRequest.ID =
        (testRepository SignatureCounter.zero).deviceSignatures.lookup testRequest.ID :=
  Create_duplicate (testRepository SignatureCounter.zero) testRequest (by decide)

/-- C7 (successful create).  When the request's ID is not a key of
`signatureDevice`, `Create` returns, with a nil error, the device that copies
ID, Algorithm, Label, PublicKey and PrivateKey from the request and has counter
0.  In the repository it leaves, `Get` of that ID returns the same device,
`GetAllSignature` of that ID returns the empty list with a nil error, and the
entries of every other ID in both maps are as before. -/
theorem Create_fresh (r : inMemorySignatureDeviceRepository)
    (sdreq : SignatureDeviceRequest) (hfresh : sdreq.ID ∉ r.signatureDevice) :
    (r.Create sdreq).2 =
        ({ ID := sdreq.ID, Algorithm := sdreq.Algorithm, Label := sdreq.Label,
           SignatureCounter := SignatureCounter.zero,
           PrivateKey := sdreq.PrivateKey, PublicKey := sdreq.PublicKey }, none) ∧
      (r.Create sdreq).1.Get sdreq.ID =
        ((r.Create sdreq).1,
          { ID := sdreq.ID, Algorithm := sdreq.Algorithm, Label := sdreq.Label,
            SignatureCounter := SignatureCounter.zero,
            PrivateKey := sdreq.PrivateKey, PublicKey := sdreq.PublicKey }, none) ∧
      (r.Create sdreq).1.GetAllSignature sdreq.ID = ((r.Create sdreq).1, [], none) ∧
      ∀ other : GoString, other ≠ sdreq.ID →
        (r.Create sdreq).1.signatureDevice.lookup other = r.signatureDevice.lookup other ∧
        (r.Create sdreq).1.deviceSignatures.lookup other =
          r.deviceSignatures.lookup other := by
  have hn : r.signatureDevice.lookup sdreq.ID = none := AList.lookup_eq_none.mpr hfresh
  have h : r.Create sdreq =
      ({ signatureDevice := r.signatureDevice.insert sdreq.ID
            { ID := sdreq.ID, Algorithm := sdreq.Algorithm, Label := sdreq.Label,
              SignatureCounter := SignatureCounter.zero,
              PrivateKey := sdreq.PrivateKey, PublicKey := sdreq.PublicKey },
         deviceSignatures := r.deviceSignatures.insert sdreq.ID [] },
        { ID := sdreq.ID, Algorithm := sdreq.Algorithm, Label := sdreq.Label,
          SignatureCounter := SignatureCounter.zero,
          PrivateKey := sdreq.PrivateKey, PublicKey := sdreq.PublicKey }, none) := by
    simp only [inMemorySignatureDeviceRepository.Create, hn]
  rw [h]
  refine ⟨rfl, ?_, ?_, ?_⟩
  · simp only [inMemorySignatureDeviceRepository.Get, AList.lookup_insert]
  · simp only [inMemorySignatureDeviceRepository.GetAllSignature, AList.lookup_insert]
  · intro other hne
    exact ⟨AList.lookup_insert_ne hne, AList.lookup_insert_ne hne⟩

/-- Witness of C7: the test case "create signature device success", on the
empty repository. -/
theorem Create_fresh_witness :
    (NewInMemorySignatureDeviceRepository.Create testRequest).2 =
        ({ ID := testRequest.ID, Algorithm := testRequest.Algorithm,
           Label := testRequest.Label, SignatureCounter := SignatureCounter.zero,
           PrivateKey := testRequest.PrivateKey, PublicKey := testRequest.PublicKey },
          none) ∧
      (NewInMemorySignatureDeviceRepository.Create testRequest).1.Get testRequest.ID =
        ((NewInMemorySignatureDeviceRepository.Create testRequest).1,
          { ID := testRequest.ID, Algorithm := testRequest.Algorithm,
            Label := testRequest.Label, SignatureCounter := SignatureCounter.zero,
            PrivateKey := testRequest.PrivateKey, PublicKey := testRequest.PublicKey },
          none) ∧
      (NewInMemorySignatureDeviceRepository.Create testRequest).1.GetAllSignature
          testRequest.ID =
        ((NewInMemorySignatureDeviceRepository.Create testRequest).1, [], none) ∧
      ∀ other : GoString, other ≠ testRequest.ID →
        (NewInMemorySignatureDeviceRepository.Create testRequest).1.signatureDevice.lookup
            other =
          NewInMemorySignatureDeviceRepository.signatureDevice.lookup other ∧
        (NewInMemorySignatureDeviceRepository.Create testRequest).1.deviceSignatures.lookup
            other =
          NewInMemorySignatureDeviceRepository.deviceSignatures.lookup other :=
  Create_fresh NewInMemorySignatureDeviceRepository testRequest (by decide)

/-- The expectation of the test case "add signature to device success": the
counter goes from 1 to 2. -/
theorem test_AddSignature_success :
    ((testRepository SignatureCounter.zero.Increment).AddSignature (ascii "someid")
        testLink).2 =
      (testDevice SignatureCounter.zero.Increment.Increment, none) := by
  decide

/-- C8, counterexample.  In the repository whose device `"someid"` has the
counter `2^63 - 1`, `AddSignature` succeeds and the stored counter becomes
`-2^63`, which is not the old counter plus 1. -/
theorem AddSignature_counter_overflow :
    (testRepository maxCounter).signatureDevice.lookup (ascii "someid") =
        some (testDevice maxCounter) ∧
      ((testRepository maxCounter).AddSignature (ascii "someid") testLink).2.2 = none ∧
      (((testRepository maxCounter).AddSignature (ascii "someid")
          testLink).1.signatureDevice.lookup (ascii "someid")).map
          (fun d => d.SignatureCounter.Value) = some (-9223372036854775808) ∧
      (((testRepository maxCounter).AddSignature (ascii "someid")
          testLink).1.signatureDevice.lookup (ascii "someid")).map
          (fun d => d.SignatureCounter.Value) ≠ some (maxCounter.Value + 1) := by
  decide

/-- C8, amended.  If the id is not a key of `signatureDevice`, `AddSignature`
returns `ErrSignatureDeviceNotFound` (with the zero-value device) and leaves
the repository as it found it.  If the id has the device `old`, `AddSignature`
succeeds; the returned device is `old` with its counter incremented in `int64`
arithmetic, which is the old counter plus 1 unless the old counter is
`2^63 - 1` (then it is `-2^63`); that device is the one stored and the one `Get`
returns afterwards; the signature list of the id is the previous list (empty
when there was none) followed by the link. -/
theorem AddSignature_spec (r : inMemorySignatureDeviceRepository) (deviceId : GoString)
    (sres : SignatureResponse) :
    (deviceId ∉ r.signatureDevice →
      r.AddSignature deviceId sres =
        (r, SignatureDeviceResponse.zero, some Error.ErrSignatureDeviceNotFound)) ∧
    (∀ old : SignatureDeviceResponse, r.signatureDevice.lookup deviceId = some old →
      ∃ (r1 : inMemorySignatureDeviceRepository) (sdres1 : SignatureDeviceResponse),
        r.AddSignature deviceId sres = (r1, sdres1, none) ∧
        sdres1 = { old with SignatureCounter := old.SignatureCounter.Increment } ∧
        sdres1.SignatureCounter.Value = wrapInt64 (old.SignatureCounter.Value + 1) ∧
        (old.SignatureCounter.Value ≠ 9223372036854775807 →
          sdres1.SignatureCounter.Value = old.SignatureCounter.Value + 1) ∧
        (old.SignatureCounter.Value = 9223372036854775807 →
          sdres1.SignatureCounter.Value = -9223372036854775808) ∧
        r1.signatureDevice.lookup deviceId = some sdres1 ∧
        r1.deviceSignatures.lookup deviceId =
          some ((r.deviceSignatures.lookup deviceId).getD [] ++ [sres]) ∧
        r1.Get deviceId = (r1, sdres1, none)) := by
  constructor
  · intro habsent
    have hn : r.signatureDevice.lookup deviceId = none := AList.lookup_eq_none.mpr habsent
    simp only [inMemorySignatureDeviceRepository.AddSignature,
      inMemorySignatureDeviceRepository.Get, hn]
  · intro old hold
    have h : r.AddSignature deviceId sres =
        ({ signatureDevice := r.signatureDevice.insert deviceId
              { old with SignatureCounter := old.SignatureCounter.Increment },
           deviceSignatures := r.deviceSignatures.insert deviceId
              ((r.deviceSignatures.lookup deviceId).getD [] ++ [sres]) },
          { old with SignatureCounter := old.SignatureCounter.Increment }, none) := by
      simp only [inMemorySignatureDeviceRepository.AddSignature,
        inMemorySignatureDeviceRepository.Get, hold]
    refine ⟨_, _, h, rfl, rfl, ?_, ?_, ?_, ?_, ?_⟩
    · intro hne
      have hlo := old.SignatureCounter.lower
      have hhi := old.SignatureCounter.upper
      simp only [SignatureCounter.Value, SignatureCounter.Increment, wrapInt64, int64Half,
        int64Modulus] at *
      omega
    · intro heq
      simp only [SignatureCounter.Value, SignatureCounter.Increment, wrapInt64, int64Half,
        int64Modulus] at *
      omega
    · exact AList.lookup_insert _
    · exact AList.lookup_insert _
    · simp only [inMemorySignatureDeviceRepository.Get, AList.lookup_insert]

/-- Witness of C8 (amended): the absent case on the empty repository and the
present case on the repository of the `AddSignature` test. -/
theorem AddSignature_spec_witness :
    NewInMemorySignatureDeviceRepository.AddSignature (ascii "someid") testLink =
        (NewInMemorySignatureDeviceRepository, SignatureDeviceResponse.zero,
          some Error.ErrSignatureDeviceNotFound) ∧
      ∃ (r1 : inMemorySignatureDeviceRepository) (sdres1 : SignatureDeviceResponse),
        (testRepository SignatureCounter.zero.Increment).AddSignature (ascii "someid")
            testLink = (r1, sdres1, none) ∧
        sdres1 = { testDevice SignatureCounter.zero.Increment with
          SignatureCounter :=
            (testDevice SignatureCounter.zero.Increment).SignatureCounter.Increment } ∧
        sdres1.SignatureCounter.Value =
          wrapInt64 ((testDevice SignatureCounter.zero.Increment).SignatureCounter.Value + 1) ∧
        ((testDevice SignatureCounter.zero.Increment).SignatureCounter.Value ≠
            9223372036854775807 →
          sdres1.SignatureCounter.Value =
            (testDevice SignatureCounter.zero.Increment).SignatureCounter.Value + 1) ∧
        ((testDevice SignatureCounter.zero.Increment).SignatureCounter.Value =
            9223372036854775807 →
          sdres1.SignatureCounter.Value = -9223372036854775808) ∧
        r1.signatureDevice.lookup (ascii "someid") = some sdres1 ∧
        r1.deviceSignatures.lookup (ascii "someid") =
          some (((testRepository SignatureCounter.zero.Increment).deviceSignatures.lookup
            (ascii "someid")).getD [] ++ [testLink]) ∧
        r1.Get (ascii "someid") = (r1, sdres1, none) :=
  ⟨(AddSignature_spec NewInMemorySignatureDeviceRepository (ascii "someid") testLink).1
      (by decide),
    (AddSignature_spec (testRepository SignatureCounter.zero.Increment) (ascii "someid")
      testLink).2 (testDevice SignatureCounter.zero.Increment) (by decide)⟩

/-- Over the in-memory repository, when the device id has a stored device,
`signAndStore` returns an error only from the signer's `Sign`, and then with
the zero-value response and the repository it was given. -/
theorem inMemory_signAndStore_error_iff (f : SignerFactory)
    (r r1 : inMemorySignatureDeviceRepository) (deviceId data : GoString)
    (stored sdr : SignatureDeviceResponse) (signer : Option Signer) (ref : GoString)
    (resp : SignatureResponse) (e : Error)
    (hstored : r.signatureDevice.lookup deviceId = some stored) :
    (inMemoryService f).signAndStore r deviceId data sdr signer ref =
        (r1, Outcome.returned resp (some e)) ↔
      r1 = r ∧ resp = SignatureResponse.zero ∧
        ∃ sg : Signer, signer = some sg ∧
          (sg.Sign (sprintfSecured sdr.SignatureCounter.val data (base64Std ref))).2 =
            some e := by
  simp only [signatureDeviceService.signAndStore]
  generalize sprintfSecured sdr.SignatureCounter.val data (base64Std ref) = payload
  cases signer with
  | none => simp
  | some sg =>
      rcases hS : sg.Sign payload with ⟨sig, es⟩
      cases es with
      | some e1 =>
          simp only [hS, Prod.mk.injEq, Outcome.returned.injEq, Option.some.injEq,
            exists_eq_left']
          constructor
          · rintro ⟨h1, h2, h3⟩
            exact ⟨h1.symm, h2.symm, h3⟩
          · rintro ⟨h1, h2, h3⟩
            exact ⟨h1.symm, h2.symm, h3⟩
      | none =>
          simp [hS, inMemoryService, inMemorySignatureDeviceRepository.repository,
            inMemorySignatureDeviceRepository.AddSignature,
            inMemorySignatureDeviceRepository.Get, hstored]

/-- C5 (failure atomicity of signing), over the in-memory repository and any
signer factory.  `SignTransaction` returns the error `e` exactly in four
situations, and always with the zero-value response and with the repository
it was given: (1) `Get` fails with `e`; (2) `Get` succeeds and the signer
factory fails with `e`; (3) the counter is not 0 and `GetAllSignature` fails
with `e`; (4) the chain reference is found and the signer's `Sign` fails with
`e` on the payload. -/
theorem SignTransaction_error_atomic (f : SignerFactory)
    (r r1 : inMemorySignatureDeviceRepository) (deviceId data : GoString)
    (resp : SignatureResponse) (e : Error) :
    (inMemoryService f).SignTransaction r deviceId data =
        (r1, Outcome.returned resp (some e)) ↔
      r1 = r ∧ resp = SignatureResponse.zero ∧
        ((r.Get deviceId).2.2 = some e ∨
          ∃ sdr : SignatureDeviceResponse, r.Get deviceId = (r, sdr, none) ∧
            ((f.CreateSigner sdr.Algorithm sdr.PrivateKey).2 = some e ∨
              ∃ signer : Option Signer,
                f.CreateSigner sdr.Algorithm sdr.PrivateKey = (signer, none) ∧
                ((sdr.SignatureCounter.Value ≠ 0 ∧
                    (r.GetAllSignature deviceId).2.2 = some e) ∨
                  ∃ (sg : Signer) (ref : GoString), signer = some sg ∧
                    ((sdr.SignatureCounter.Value = 0 ∧ ref = sdr.ID) ∨
                      (sdr.SignatureCounter.Value ≠ 0 ∧
                        ∃ (l : List SignatureResponse) (last : SignatureResponse),
                          r.GetAllSignature deviceId = (r, l, none) ∧
                          l.getLast? = some last ∧ ref = last.Signature)) ∧
                    (sg.Sign (sprintfSecured sdr.SignatureCounter.val data
                      (base64Std ref))).2 = some e))) := by
  cases hG : r.signatureDevice.lookup deviceId with
  | none =>
      simp [signatureDeviceService.SignTransaction, inMemoryService,
        inMemorySignatureDeviceRepository.repository,
        inMemorySignatureDeviceRepository.Get, hG]
      constructor <;> rintro ⟨h1, h2, h3⟩ <;> exact ⟨h1.symm, h2.symm, h3⟩
  | some sdr =>
      rcases hF : f.CreateSigner sdr.Algorithm sdr.PrivateKey with ⟨signer, ef⟩
      cases ef with
      | some e1 =>
          simp [signatureDeviceService.SignTransaction, inMemoryService,
            inMemorySignatureDeviceRepository.repository,
            inMemorySignatureDeviceRepository.Get, hG, hF]
          constructor <;> rintro ⟨h1, h2, h3⟩ <;> exact ⟨h1.symm, h2.symm, h3⟩
      | none =>
          by_cases hc : sdr.SignatureCounter.Value = 0
          · have hrun : (inMemoryService f).SignTransaction r deviceId data =
                (inMemoryService f).signAndStore r deviceId data sdr signer sdr.ID := by
              simp [signatureDeviceService.SignTransaction, inMemoryService,
                inMemorySignatureDeviceRepository.repository,
                inMemorySignatureDeviceRepository.Get, hG, hF, hc]
            rw [hrun, inMemory_signAndStore_error_iff f r r1 deviceId data sdr sdr signer
              sdr.ID resp e hG]
            simp [inMemorySignatureDeviceRepository.Get, hG, hF, hc]
          · cases hS : r.deviceSignatures.lookup deviceId with
            | none =>
                simp [signatureDeviceService.SignTransaction, inMemoryService,
                  inMemorySignatureDeviceRepository.repository,
                  inMemorySignatureDeviceRepository.Get,
                  inMemorySignatureDeviceRepository.GetAllSignature, hG, hF, hc, hS]
                constructor <;> rintro ⟨h1, h2, h3⟩ <;> exact ⟨h1.symm, h2.symm, h3⟩
            | some l =>
                cases hlast : l.getLast? with
                | none =>
                    simp [signatureDeviceService.SignTransaction, inMemoryService,
                      inMemorySignatureDeviceRepository.repository,
                      inMemorySignatureDeviceRepository.Get,
                      inMemorySignatureDeviceRepository.GetAllSignature, hG, hF, hc, hS,
                      hlast]
                | some last =>
                    have hrun : (inMemoryService f).SignTransaction r deviceId data =
                        (inMemoryService f).signAndStore r deviceId data sdr signer
                          last.Signature := by
                      simp [signatureDeviceService.SignTransaction, inMemoryService,
                        inMemorySignatureDeviceRepository.repository,
                        inMemorySignatureDeviceRepository.Get,
                        inMemorySignatureDeviceRepository.GetAllSignature, hG, hF, hc, hS,
                        hlast]
                    rw [hrun, inMemory_signAndStore_error_iff f r r1 deviceId data sdr sdr
                      signer last.Signature resp e hG]
                    simp [inMemorySignatureDeviceRepository.Get,
                      inMemorySignatureDeviceRepository.GetAllSignature, hG, hF, hc, hS,
                      hlast]

/-! ### States reached by calls of the repository -/

/-- The empty repository has the same (no) keys in both maps. -/
theorem sameKeys_new : SameKeys NewInMemorySignatureDeviceRepository := by
  intro id
  simp [NewInMemorySignatureDeviceRepository]

/-- Every repository call keeps the keys of the two maps equal. -/
theorem RepositoryCall.after_sameKeys (r : inMemorySignatureDeviceRepository)
    (c : RepositoryCall) (h : SameKeys r) : SameKeys (c.after r) := by
  intro id
  cases c with
  | Create sdreq =>
      cases hl : r.signatureDevice.lookup sdreq.ID with
      | some d =>
          simpa [RepositoryCall.after, inMemorySignatureDeviceRepository.Create, hl] using h id
      | none =>
          simp [RepositoryCall.after, inMemorySignatureDeviceRepository.Create, hl,
            AList.mem_insert, h id]
  | GetAll => exact h id
  | Get deviceId =>
      cases hl : r.signatureDevice.lookup deviceId <;>
        simpa [RepositoryCall.after, inMemorySignatureDeviceRepository.Get, hl] using h id
  | AddSignature deviceId sres =>
      cases hl : r.signatureDevice.lookup deviceId with
      | none =>
          simpa [RepositoryCall.after, inMemorySignatureDeviceRepository.AddSignature,
            inMemorySignatureDeviceRepository.Get, hl] using h id
      | some d =>
          simp [RepositoryCall.after, inMemorySignatureDeviceRepository.AddSignature,
            inMemorySignatureDeviceRepository.Get, hl, AList.mem_insert, h id]
  | GetAllSignature deviceId =>
      cases hl : r.deviceSignatures.lookup deviceId <;>
        simpa [RepositoryCall.after, inMemorySignatureDeviceRepository.GetAllSignature, hl]
          using h id

/-- The devices after a repository call: those before, and the one it created. -/
theorem RepositoryCall.after_mem (r : inMemorySignatureDeviceRepository)
    (c : RepositoryCall) (id : GoString) :
    id ∈ (c.after r).signatureDevice ↔ id ∈ r.signatureDevice ∨ id ∈ c.created r := by
  cases c with
  | Create sdreq =>
      cases hl : r.signatureDevice.lookup sdreq.ID with
      | some d =>
          simp [RepositoryCall.after, RepositoryCall.created,
            inMemorySignatureDeviceRepository.Create, hl]
      | none =>
          simp [RepositoryCall.after, RepositoryCall.created,
            inMemorySignatureDeviceRepository.Create, hl, AList.mem_insert, or_comm]
  | GetAll => simp [RepositoryCall.after, RepositoryCall.created,
      inMemorySignatureDeviceRepository.GetAll]
  | Get deviceId =>
      cases hl : r.signatureDevice.lookup deviceId <;>
        simp [RepositoryCall.after, RepositoryCall.created,
          inMemorySignatureDeviceRepository.Get, hl]
  | AddSignature deviceId sres =>
      cases hl : r.signatureDevice.lookup deviceId with
      | none =>
          simp [RepositoryCall.after, RepositoryCall.created,
            inMemorySignatureDeviceRepository.AddSignature,
            inMemorySignatureDeviceRepository.Get, hl]
      | some d =>
          have hmem : deviceId ∈ r.signatureDevice := by
            rw [← AList.lookup_isSome, hl]; rfl
          simp only [RepositoryCall.after, RepositoryCall.created,
            inMemorySignatureDeviceRepository.AddSignature,
            inMemorySignatureDeviceRepository.Get, hl, AList.mem_insert, List.not_mem_nil,
            or_false]
          constructor
          · rintro (h | h)
            · rw [h]; exact hmem
            · exact h
          · intro h; exact Or.inr h
  | GetAllSignature deviceId =>
      cases hl : r.deviceSignatures.lookup deviceId <;>
        simp [RepositoryCall.after, RepositoryCall.created,
          inMemorySignatureDeviceRepository.GetAllSignature, hl]

/-- The chain of a device after a repository call: the chain before, followed by
the link the call appended. -/
theorem RepositoryCall.after_links (r : inMemorySignatureDeviceRepository)
    (c : RepositoryCall) (id : GoString) (h : SameKeys r) :
    ((c.after r).deviceSignatures.lookup id).getD [] =
      (r.deviceSignatures.lookup id).getD [] ++ c.appended r id := by
  cases c with
  | Create sdreq =>
      cases hl : r.signatureDevice.lookup sdreq.ID with
      | some d =>
          simp [RepositoryCall.after, RepositoryCall.appended,
            inMemorySignatureDeviceRepository.Create, hl]
      | none =>
          have hno : r.deviceSignatures.lookup sdreq.ID = none := by
            rw [AList.lookup_eq_none, ← h sdreq.ID, ← AList.lookup_eq_none]; exact hl
          by_cases hid : id = sdreq.ID
          · subst hid
            simp [RepositoryCall.after, RepositoryCall.appended,
              inMemorySignatureDeviceRepository.Create, hl, hno]
          · simp [RepositoryCall.after, RepositoryCall.appended,
              inMemorySignatureDeviceRepository.Create, hl, AList.lookup_insert_ne hid]
  | GetAll => simp [RepositoryCall.after, RepositoryCall.appended,
      inMemorySignatureDeviceRepository.GetAll]
  | Get deviceId =>
      cases hl : r.signatureDevice.lookup deviceId <;>
        simp [RepositoryCall.after, RepositoryCall.appended,
          inMemorySignatureDeviceRepository.Get, hl]
  | AddSignature deviceId sres =>
      cases hl : r.signatureDevice.lookup deviceId with
      | none =>
          simp [RepositoryCall.after, RepositoryCall.appended,
            inMemorySignatureDeviceRepository.AddSignature,
            inMemorySignatureDeviceRepository.Get, hl]
      | some d =>
          by_cases hid : id = deviceId
          · subst hid
            simp [RepositoryCall.after, RepositoryCall.appended,
              inMemorySignatureDeviceRepository.AddSignature,
              inMemorySignatureDeviceRepository.Get, hl]
          · have hid1 : ¬ deviceId = id := fun h1 => hid h1.symm
            simp [RepositoryCall.after, RepositoryCall.appended,
              inMemorySignatureDeviceRepository.AddSignature,
              inMemorySignatureDeviceRepository.Get, hl, AList.lookup_insert_ne hid, hid1]
  | GetAllSignature deviceId =>
      cases hl : r.deviceSignatures.lookup deviceId <;>
        simp [RepositoryCall.after, RepositoryCall.appended,
          inMemorySignatureDeviceRepository.GetAllSignature, hl]

/-- Sequences of repository calls keep the keys of the two maps equal. -/
theorem runRepository_sameKeys (cs : List RepositoryCall) :
    ∀ r : inMemorySignatureDeviceRepository, SameKeys r → SameKeys (runRepository r cs) := by
  induction cs with
  | nil => intro r h; exact h
  | cons c cs ih => intro r h; exact ih _ (RepositoryCall.after_sameKeys r c h)

/-- The devices after a sequence of repository calls: those before and those
created. -/
theorem runRepository_mem (cs : List RepositoryCall) (id : GoString) :
    ∀ r : inMemorySignatureDeviceRepository,
      id ∈ (runRepository r cs).signatureDevice ↔
        id ∈ r.signatureDevice ∨ id ∈ createdIDs r cs := by
  induction cs with
  | nil => intro r; simp [runRepository, createdIDs]
  | cons c cs ih =>
      intro r
      simp only [runRepository, createdIDs, List.mem_append]
      rw [ih, RepositoryCall.after_mem, or_assoc]

/-- The chain of a device after a sequence of repository calls: the chain before,
followed by the links appended. -/
theorem runRepository_links (cs : List RepositoryCall) (id : GoString) :
    ∀ r : inMemorySignatureDeviceRepository, SameKeys r →
      ((runRepository r cs).deviceSignatures.lookup id).getD [] =
        (r.deviceSignatures.lookup id).getD [] ++ appendedLinks r id cs := by
  induction cs with
  | nil => intro r _; simp [runRepository, appendedLinks]
  | cons c cs ih =>
      intro r h
      simp only [runRepository, appendedLinks]
      rw [ih _ (RepositoryCall.after_sameKeys r c h), RepositoryCall.after_links r c id h,
        List.append_assoc]

/-- A sequence without `AddSignature` for `id` appends nothing for `id`. -/
theorem appendedLinks_nil (cs : List RepositoryCall) (id : GoString) :
    ∀ r : inMemorySignatureDeviceRepository,
      (∀ sres : SignatureResponse, ∀ c ∈ cs, c ≠ RepositoryCall.AddSignature id sres) →
        appendedLinks r id cs = [] := by
  induction cs with
  | nil => intro r _; rfl
  | cons c cs ih =>
      intro r h
      have htail : appendedLinks (c.after r) id cs = [] :=
        ih _ (fun sres c1 hc1 => h sres c1 (List.mem_cons_of_mem _ hc1))
      have hhead : c.appended r id = [] := by
        cases c with
        | AddSignature deviceId sres =>
            have hne : deviceId ≠ id := by
              intro heq
              exact h sres _ (List.mem_cons_self _ _) (by rw [heq])
            simp [RepositoryCall.appended, hne]
        | Create sdreq => rfl
        | GetAll => rfl
        | Get deviceId => rfl
        | GetAllSignature deviceId => rfl
      simp only [appendedLinks, htail, hhead, List.append_nil]

/-- C9 (not found).  Let `r` be the repository after any sequence of
repository calls on the empty repository.  For an id that no successful
`Create` of the sequence created, `Get` and `GetAllSignature` fail with
`ErrSignatureDeviceNotFound`, and so does the service's `SignTransaction`,
for every data and whatever the signer factory is (it is not consulted), all
leaving `r` as it is.  For an id that was created, `Get` succeeds and returns
the device stored under that id. -/
theorem notFound_iff_never_created (cs : List RepositoryCall) (id : GoString) :
    (id ∉ createdIDs NewInMemorySignatureDeviceRepository cs →
      (runRepository NewInMemorySignatureDeviceRepository cs).Get id =
          (runRepository NewInMemorySignatureDeviceRepository cs,
            SignatureDeviceResponse.zero, some Error.ErrSignatureDeviceNotFound) ∧
        (runRepository NewInMemorySignatureDeviceRepository cs).GetAllSignature id =
          (runRepository NewInMemorySignatureDeviceRepository cs, [],
            some Error.ErrSignatureDeviceNotFound) ∧
        ∀ (f : SignerFactory) (data : GoString),
          (inMemoryService f).SignTransaction
              (runRepository NewInMemorySignatureDeviceRepository cs) id data =
            (runRepository NewInMemorySignatureDeviceRepository cs,
              Outcome.returned SignatureResponse.zero
                (some Error.ErrSignatureDeviceNotFound))) ∧
    (id ∈ createdIDs NewInMemorySignatureDeviceRepository cs →
      ∃ d : SignatureDeviceResponse,
        (runRepository NewInMemorySignatureDeviceRepository cs).signatureDevice.lookup id =
          some d ∧
        (runRepository NewInMemorySignatureDeviceRepository cs).Get id =
          (runRepository NewInMemorySignatureDeviceRepository cs, d, none)) := by
  have hmem := runRepository_mem cs id NewInMemorySignatureDeviceRepository
  have hkeys := runRepository_sameKeys cs NewInMemorySignatureDeviceRepository sameKeys_new id
  have hempty : id ∉ NewInMemorySignatureDeviceRepository.signatureDevice := by
    simp [NewInMemorySignatureDeviceRepository]
  constructor
  · intro hnot
    have h1 : id ∉ (runRepository NewInMemorySignatureDeviceRepository cs).signatureDevice := by
      rw [hmem]; exact fun h => h.elim hempty hnot
    have h2 : id ∉ (runRepository NewInMemorySignatureDeviceRepository cs).deviceSignatures :=
      fun h => h1 (hkeys.mpr h)
    have l1 := AList.lookup_eq_none.mpr h1
    have l2 := AList.lookup_eq_none.mpr h2
    refine ⟨?_, ?_, ?_⟩
    · simp only [inMemorySignatureDeviceRepository.Get, l1]
    · simp only [inMemorySignatureDeviceRepository.GetAllSignature, l2]
    · intro f data
      simp only [signatureDeviceService.SignTransaction, inMemoryService,
        inMemorySignatureDeviceRepository.repository,
        inMemorySignatureDeviceRepository.Get, l1]
  · intro hin
    have h1 : id ∈ (runRepository NewInMemorySignatureDeviceRepository cs).signatureDevice := by
      rw [hmem]; exact Or.inr hin
    obtain ⟨d, hd⟩ := Option.isSome_iff_exists.mp (AList.lookup_isSome.mpr h1)
    exact ⟨d, hd, by simp only [inMemorySignatureDeviceRepository.Get, hd]⟩

/-- Witness of C9: after `Create` of `"someid"` and one `AddSignature`, the id
`"otherid"` was never created and the id `"someid"` was. -/
theorem notFound_iff_never_created_witness :
    ((runRepository NewInMemorySignatureDeviceRepository
          [RepositoryCall.Create testRequest,
            RepositoryCall.AddSignature (ascii "someid") testLink]).Get (ascii "otherid") =
        (runRepository NewInMemorySignatureDeviceRepository
            [RepositoryCall.Create testRequest,
              RepositoryCall.AddSignature (ascii "someid") testLink],
          SignatureDeviceResponse.zero, some Error.ErrSignatureDeviceNotFound) ∧
      (runRepository NewInMemorySignatureDeviceRepository
          [RepositoryCall.Create testRequest,
            RepositoryCall.AddSignature (ascii "someid") testLink]).GetAllSignature
          (ascii "otherid") =
        (runRepository NewInMemorySignatureDeviceRepository
            [RepositoryCall.Create testRequest,
              RepositoryCall.AddSignature (ascii "someid") testLink], [],
          some Error.ErrSignatureDeviceNotFound) ∧
      ∀ (f : SignerFactory) (data : GoString),
        (inMemoryService f).SignTransaction
            (runRepository NewInMemorySignatureDeviceRepository
              [RepositoryCall.Create testRequest,
                RepositoryCall.AddSignature (ascii "someid") testLink])
            (ascii "otherid") data =
          (runRepository NewInMemorySignatureDeviceRepository
              [RepositoryCall.Create testRequest,
                RepositoryCall.AddSignature (ascii "someid") testLink],
            Outcome.returned SignatureResponse.zero
              (some Error.ErrSignatureDeviceNotFound))) ∧
    ∃ d : SignatureDeviceResponse,
      (runRepository NewInMemorySignatureDeviceRepository
          [RepositoryCall.Create testRequest,
            RepositoryCall.AddSignature (ascii "someid") testLink]).signatureDevice.lookup
          (ascii "someid") = some d ∧
      (runRepository NewInMemorySignatureDeviceRepository
          [RepositoryCall.Create testRequest,
            RepositoryCall.AddSignature (ascii "someid") testLink]).Get (ascii "someid") =
        (runRepository NewInMemorySignatureDeviceRepository
            [RepositoryCall.Create testRequest,
              RepositoryCall.AddSignature (ascii "someid") testLink], d, none) :=
  ⟨(notFound_iff_never_created
      [RepositoryCall.Create testRequest,
        RepositoryCall.AddSignature (ascii "someid") testLink] (ascii "otherid")).1
      (by decide),
    (notFound_iff_never_created
      [RepositoryCall.Create testRequest,
        RepositoryCall.AddSignature (ascii "someid") testLink] (ascii "someid")).2
      (by decide)⟩

/-- C10 (never created against created without signatures).  Let `r` be the
repository after any sequence of repository calls on the empty repository.
`GetAllSignature(id)` on `r` fails with `ErrSignatureDeviceNotFound` exactly
when no successful `Create` of the sequence created `id`.  For a created id it
returns, with a nil error, exactly the links the successful `AddSignature`
calls for `id` appended, in the order of the calls; that is the empty list
when the sequence has no `AddSignature` for `id`. -/
theorem GetAllSignature_reached (cs : List RepositoryCall) (id : GoString) :
    (((runRepository NewInMemorySignatureDeviceRepository cs).GetAllSignature id).2.2 =
        some Error.ErrSignatureDeviceNotFound ↔
      id ∉ createdIDs NewInMemorySignatureDeviceRepository cs) ∧
    (id ∈ createdIDs NewInMemorySignatureDeviceRepository cs →
      (runRepository NewInMemorySignatureDeviceRepository cs).GetAllSignature id =
          (runRepository NewInMemorySignatureDeviceRepository cs,
            appendedLinks NewInMemorySignatureDeviceRepository id cs, none) ∧
        ((∀ sres : SignatureResponse, ∀ c ∈ cs, c ≠ RepositoryCall.AddSignature id sres) →
          (runRepository NewInMemorySignatureDeviceRepository cs).GetAllSignature id =
            (runRepository NewInMemorySignatureDeviceRepository cs, [], none))) := by
  have hmem := runRepository_mem cs id NewInMemorySignatureDeviceRepository
  have hkeys := runRepository_sameKeys cs NewInMemorySignatureDeviceRepository sameKeys_new id
  have hlinks := runRepository_links cs id NewInMemorySignatureDeviceRepository sameKeys_new
  have hempty : id ∉ NewInMemorySignatureDeviceRepository.signatureDevice := by
    simp [NewInMemorySignatureDeviceRepository]
  have hcreated : id ∈ createdIDs NewInMemorySignatureDeviceRepository cs →
      (runRepository NewInMemorySignatureDeviceRepository cs).deviceSignatures.lookup id =
        some (appendedLinks NewInMemorySignatureDeviceRepository id cs) := by
    intro hin
    have h1 : id ∈ (runRepository NewInMemorySignatureDeviceRepository cs).deviceSignatures :=
      hkeys.mp (hmem.mpr (Or.inr hin))
    obtain ⟨l, hl⟩ := Option.isSome_iff_exists.mp (AList.lookup_isSome.mpr h1)
    rw [hl] at hlinks
    simp only [Option.getD_some, NewInMemorySignatureDeviceRepository, AList.lookup_empty,
      Option.getD_none, List.nil_append] at hlinks
    rw [hl, hlinks]
    rfl
  refine ⟨?_, ?_⟩
  · constructor
    · intro herr hin
      simp [inMemorySignatureDeviceRepository.GetAllSignature, hcreated hin] at herr
    · intro hnot
      have h1 : id ∉ (runRepository NewInMemorySignatureDeviceRepository cs).deviceSignatures :=
        fun h => (hmem.mp (hkeys.mpr h)).elim hempty hnot
      simp only [inMemorySignatureDeviceRepository.GetAllSignature,
        AList.lookup_eq_none.mpr h1]
  · intro hin
    refine ⟨?_, ?_⟩
    · simp only [inMemorySignatureDeviceRepository.GetAllSignature, hcreated hin]
    · intro hno
      simp only [inMemorySignatureDeviceRepository.GetAllSignature, hcreated hin,
        appendedLinks_nil cs id _ hno]

/-- Witness of C10: after `Create` of `"someid"` and one `AddSignature` the
history of `"someid"` is the appended link; after the `Create` alone it is
the empty list, returned without error. -/
theorem GetAllSignature_reached_witness :
    ((runRepository NewInMemorySignatureDeviceRepository
          [RepositoryCall.Create testRequest,
            RepositoryCall.AddSignature (ascii "someid") testLink]).GetAllSignature
          (ascii "someid") =
        (runRepository NewInMemorySignatureDeviceRepository
            [RepositoryCall.Create testRequest,
              RepositoryCall.AddSignature (ascii "someid") testLink],
          appendedLinks NewInMemorySignatureDeviceRepository (ascii "someid")
            [RepositoryCall.Create testRequest,
              RepositoryCall.AddSignature (ascii "someid") testLink], none)) ∧
      appendedLinks NewInMemorySignatureDeviceRepository (ascii "someid")
          [RepositoryCall.Create testRequest,
            RepositoryCall.AddSignature (ascii "someid") testLink] = [testLink] ∧
      (runRepository NewInMemorySignatureDeviceRepository
          [RepositoryCall.Create testRequest]).GetAllSignature (ascii "someid") =
        (runRepository NewInMemorySignatureDeviceRepository
          [RepositoryCall.Create testRequest], [], none) :=
  ⟨((GetAllSignature_reached
      [RepositoryCall.Create testRequest,
        RepositoryCall.AddSignature (ascii "someid") testLink] (ascii "someid")).2
      (by decide)).1,
    by decide,
    ((GetAllSignature_reached [RepositoryCall.Create testRequest] (ascii "someid")).2
      (by decide)).2
      (by
        intro sres c hc
        rw [List.mem_singleton.mp hc]
        exact fun h => RepositoryCall.noConfusion h)⟩

/-! ### States reached by calls of the service -/

/-- The two ways a `SignTransaction` over the in-memory repository ends:
without success and with the repository it was given, or with success, after
storing the incremented device and appending the link built from the counter
read by `Get` and from the chain reference. -/
theorem inMemory_SignTransaction_cases (f : SignerFactory)
    (r : inMemorySignatureDeviceRepository) (deviceId data : GoString) :
    (((inMemoryService f).SignTransaction r deviceId data).2.succeeded = false ∧
        ((inMemoryService f).SignTransaction r deviceId data).1 = r) ∨
      ∃ (d : SignatureDeviceResponse) (sig : List Byte) (ref : GoString),
        r.signatureDevice.lookup deviceId = some d ∧
        ((d.SignatureCounter.Value = 0 ∧ ref = d.ID) ∨
          (d.SignatureCounter.Value ≠ 0 ∧
            ∃ (l : List SignatureResponse) (last : SignatureResponse),
              r.deviceSignatures.lookup deviceId = some l ∧ l.getLast? = some last ∧
                ref = last.Signature)) ∧
        ((inMemoryService f).SignTransaction r deviceId data).2.succeeded = true ∧
        ((inMemoryService f).SignTransaction r deviceId data).1 =
          { signatureDevice := r.signatureDevice.insert deviceId
              { d with SignatureCounter := d.SignatureCounter.Increment },
            deviceSignatures := r.deviceSignatures.insert deviceId
              ((r.deviceSignatures.lookup deviceId).getD [] ++
                [{ Signature := base64Std sig,
                   SignedData := sprintfSecured d.SignatureCounter.val data
                     (base64Std ref) }]) } := by
  have key : ∀ (d : SignatureDeviceResponse) (signer : Option Signer) (ref : GoString),
      r.signatureDevice.lookup deviceId = some d →
      (((inMemoryService f).signAndStore r deviceId data d signer ref).2.succeeded = false ∧
          ((inMemoryService f).signAndStore r deviceId data d signer ref).1 = r) ∨
        ∃ sig : List Byte,
          ((inMemoryService f).signAndStore r deviceId data d signer ref).2.succeeded = true ∧
          ((inMemoryService f).signAndStore r deviceId data d signer ref).1 =
            { signatureDevice := r.signatureDevice.insert deviceId
                { d with SignatureCounter := d.SignatureCounter.Increment },
              deviceSignatures := r.deviceSignatures.insert deviceId
                ((r.deviceSignatures.lookup deviceId).getD [] ++
                  [{ Signature := base64Std sig,
                     SignedData := sprintfSecured d.SignatureCounter.val data
                       (base64Std ref) }]) } := by
    intro d signer ref hd
    simp only [signatureDeviceService.signAndStore]
    generalize sprintfSecured d.SignatureCounter.val data (base64Std ref) = payload
    cases signer with
    | none => left; exact ⟨rfl, rfl⟩
    | some sg =>
        rcases hS : sg.Sign payload with ⟨sig, es⟩
        cases es with
        | some e1 => left; simp [hS, Outcome.succeeded]
        | none =>
            right
            refine ⟨sig, ?_, ?_⟩ <;>
              simp [hS, inMemoryService, inMemorySignatureDeviceRepository.repository,
                inMemorySignatureDeviceRepository.AddSignature,
                inMemorySignatureDeviceRepository.Get, hd, Outcome.succeeded]
  cases hG : r.signatureDevice.lookup deviceId with
  | none =>
      left
      simp [signatureDeviceService.SignTransaction, inMemoryService,
        inMemorySignatureDeviceRepository.repository,
        inMemorySignatureDeviceRepository.Get, hG, Outcome.succeeded]
  | some d =>
      rcases hF : f.CreateSigner d.Algorithm d.PrivateKey with ⟨signer, ef⟩
      cases ef with
      | some e1 =>
          left
          simp [signatureDeviceService.SignTransaction, inMemoryService,
            inMemorySignatureDeviceRepository.repository,
            inMemorySignatureDeviceRepository.Get, hG, hF, Outcome.succeeded]
      | none =>
          by_cases hc : d.SignatureCounter.Value = 0
          · have hrun : (inMemoryService f).SignTransaction r deviceId data =
                (inMemoryService f).signAndStore r deviceId data d signer d.ID := by
              simp [signatureDeviceService.SignTransaction, inMemoryService,
                inMemorySignatureDeviceRepository.repository,
                inMemorySignatureDeviceRepository.Get, hG, hF, hc]
            rw [hrun]
            rcases key d signer d.ID hG with h | ⟨sig, h1, h2⟩
            · exact Or.inl h
            · exact Or.inr ⟨d, sig, d.ID, rfl, Or.inl ⟨hc, rfl⟩, h1, h2⟩
          · cases hS : r.deviceSignatures.lookup deviceId with
            | none =>
                left
                simp [signatureDeviceService.SignTransaction, inMemoryService,
                  inMemorySignatureDeviceRepository.repository,
                  inMemorySignatureDeviceRepository.Get,
                  inMemorySignatureDeviceRepository.GetAllSignature, hG, hF, hc, hS,
                  Outcome.succeeded]
            | some l =>
                cases hlast : l.getLast? with
                | none =>
                    left
                    simp [signatureDeviceService.SignTransaction, inMemoryService,
                      inMemorySignatureDeviceRepository.repository,
                      inMemorySignatureDeviceRepository.Get,
                      inMemorySignatureDeviceRepository.GetAllSignature, hG, hF, hc, hS,
                      hlast, Outcome.succeeded]
                | some last =>
                    have hrun : (inMemoryService f).SignTransaction r deviceId data =
                        (inMemoryService f).signAndStore r deviceId data d signer
                          last.Signature := by
                      simp [signatureDeviceService.SignTransaction, inMemoryService,
                        inMemorySignatureDeviceRepository.repository,
                        inMemorySignatureDeviceRepository.Get,
                        inMemorySignatureDeviceRepository.GetAllSignature, hG, hF, hc, hS,
                        hlast]
                    rw [hrun]
                    rcases key d signer last.Signature hG with h | ⟨sig, h1, h2⟩
                    · exact Or.inl h
                    · refine Or.inr ⟨d, sig, last.Signature, rfl, Or.inr ⟨hc, l, last, ?_, hlast, rfl⟩, h1, ?_⟩
                      · rfl
                      · rw [h2, hS]

/-- A natural number below `2^63` is its own `int64`. -/
theorem wrapInt64_of_lt (n : Nat) (h : n < 9223372036854775808) :
    wrapInt64 (n : Int) = (n : Int) := by
  unfold wrapInt64 int64Half int64Modulus
  omega

/-- Incrementing after wrapping is wrapping after incrementing. -/
theorem wrapInt64_succ (x : Int) : wrapInt64 (wrapInt64 x + 1) = wrapInt64 (x + 1) := by
  unfold wrapInt64 int64Half int64Modulus
  omega

/-- Storing a new device with counter 0 and an empty chain keeps the invariant. -/
theorem ServiceInvariant.create (r : inMemorySignatureDeviceRepository)
    (hist : GoString → List GoString) (id0 : GoString) (d0 : SignatureDeviceResponse)
    (h : ServiceInvariant r hist) (hnew : r.signatureDevice.lookup id0 = none)
    (hid : d0.ID = id0) (hc : d0.SignatureCounter = SignatureCounter.zero) :
    ServiceInvariant
      { signatureDevice := r.signatureDevice.insert id0 d0,
        deviceSignatures := r.deviceSignatures.insert id0 [] } hist := by
  obtain ⟨hk, hnone, hdev⟩ := h
  refine ⟨?_, ?_, ?_⟩
  · intro id
    simp only [AList.mem_insert, hk id]
  · intro id hlook
    rw [AList.lookup_insert_eq_none] at hlook
    exact hnone id hlook.2
  · intro id dd hdd
    by_cases hne : id = id0
    · subst hne
      rw [AList.lookup_insert] at hdd
      have hdd1 : d0 = dd := Option.some.inj hdd
      subst hdd1
      refine ⟨hid, [], AList.lookup_insert _, ?_, ?_, ?_⟩
      · rw [hc]; rfl
      · rw [hnone id hnew]; rfl
      · intro n link dat hn
        simp at hn
    · rw [AList.lookup_insert_ne hne] at hdd
      obtain ⟨h1, l1, hl1, h2, h3, h4⟩ := hdev id dd hdd
      exact ⟨h1, l1, by rw [AList.lookup_insert_ne hne]; exact hl1, h2, h3, h4⟩

/-- Storing the incremented device and appending the link that `SignTransaction`
builds keeps the invariant, with the signed data added to the history. -/
theorem ServiceInvariant.sign (r : inMemorySignatureDeviceRepository)
    (hist : GoString → List GoString) (deviceId data : GoString)
    (d : SignatureDeviceResponse) (sig : List Byte) (ref : GoString)
    (h : ServiceInvariant r hist) (hd : r.signatureDevice.lookup deviceId = some d)
    (href : (d.SignatureCounter.Value = 0 ∧ ref = d.ID) ∨
      (d.SignatureCounter.Value ≠ 0 ∧
        ∃ (l : List SignatureResponse) (last : SignatureResponse),
          r.deviceSignatures.lookup deviceId = some l ∧ l.getLast? = some last ∧
            ref = last.Signature)) :
    ServiceInvariant
      { signatureDevice := r.signatureDevice.insert deviceId
          { d with SignatureCounter := d.SignatureCounter.Increment },
        deviceSignatures := r.deviceSignatures.insert deviceId
          ((r.deviceSignatures.lookup deviceId).getD [] ++
            [{ Signature := base64Std sig,
               SignedData := sprintfSecured d.SignatureCounter.val data (base64Std ref) }]) }
      (fun id => hist id ++ if deviceId = id then [data] else []) := by
  obtain ⟨hk, hnone, hdev⟩ := h
  obtain ⟨hID, l, hl, hcnt, hlen, hchain⟩ := hdev deviceId d hd
  have hmem : deviceId ∈ r.signatureDevice := by
    rw [← AList.lookup_isSome, hd]; rfl
  refine ⟨?_, ?_, ?_⟩
  · intro id
    simp only [AList.mem_insert, hk id]
  · intro id hlook
    rw [AList.lookup_insert_eq_none] at hlook
    have hne : ¬ deviceId = id := fun h1 => hlook.1 h1.symm
    simp only [hnone id hlook.2, hne, if_false, List.append_nil]
  · intro id dd hdd
    by_cases hne : id = deviceId
    · subst hne
      rw [AList.lookup_insert] at hdd
      have hdd1 := Option.some.inj hdd
      subst hdd1
      refine ⟨hID, _, AList.lookup_insert _, ?_, ?_, ?_⟩
      · simp only [hl, Option.getD_some, List.length_append, List.length_singleton,
          SignatureCounter.Increment, hcnt, Nat.cast_add, Nat.cast_one]
        exact wrapInt64_succ _
      · simp only [hl, Option.getD_some, List.length_append, List.length_singleton, hlen,
          if_true]
      · intro n link dat hlink hdat hn
        simp only [hl, Option.getD_some, if_true] at hlink hdat ⊢
        generalize hnew : (⟨base64Std sig,
          sprintfSecured d.SignatureCounter.val data (base64Std ref)⟩ : SignatureResponse) =
          newLink at hlink ⊢
        rcases Nat.lt_trichotomy n l.length with hlt | heq | hgt
        · rw [List.getElem?_append_left hlt] at hlink
          rw [List.getElem?_append_left (hlen ▸ hlt)] at hdat
          have hrefEq : chainReference id (l ++ [newLink]) n = chainReference id l n := by
            cases n with
            | zero => rfl
            | succ m =>
                simp only [chainReference]
                rw [List.getElem?_append_left (Nat.lt_of_succ_lt hlt)]
          rw [hrefEq]
          exact hchain n link dat hlink hdat hn
        · subst heq
          have hlink1 : link = newLink := by
            simpa using hlink.symm
          have hdat1 : dat = data := by
            rw [hlen] at hdat
            simpa using hdat.symm
          have hval : d.SignatureCounter.val = (l.length : Int) := by
            rw [hcnt]; exact wrapInt64_of_lt _ hn
          have hrefEq : chainReference id (l ++ [newLink]) l.length = ref := by
            rcases href with ⟨h0, hr⟩ | ⟨h0, l2, last, hl2, hlast, hr⟩
            · have hzero : l.length = 0 := by
                have h1 : d.SignatureCounter.val = 0 := h0
                omega
              rw [hzero, hr, hID]
              rfl
            · have hl3 : l = l2 := Option.some.inj (hl.symm.trans hl2)
              subst hl3
              have hpos : l.length ≠ 0 := by
                intro hz
                apply h0
                show d.SignatureCounter.val = 0
                rw [hval, hz]
                rfl
              obtain ⟨m, hm⟩ := Nat.exists_eq_succ_of_ne_zero hpos
              rw [List.getLast?_eq_getElem?] at hlast
              have hm1 : l.length - 1 = m := by omega
              rw [hm1] at hlast
              rw [hm]
              simp only [chainReference]
              rw [List.getElem?_append_left (by omega), hlast, hr]
              rfl
          rw [hrefEq, hlink1, ← hnew, hdat1, hval]
        · have : (l ++ [newLink]).length ≤ n := by
            simp only [List.length_append, List.length_singleton]; omega
          rw [List.getElem?_eq_none this] at hlink
          cases hlink
    · rw [AList.lookup_insert_ne hne] at hdd
      obtain ⟨h1, l1, hl1, h2, h3, h4⟩ := hdev id dd hdd
      have hne1 : ¬ deviceId = id := fun h5 => hne h5.symm
      refine ⟨h1, l1, by rw [AList.lookup_insert_ne hne]; exact hl1, h2, ?_, ?_⟩
      · simp only [hne1, if_false, List.append_nil]; exact h3
      · simp only [hne1, if_false, List.append_nil]; exact h4

/-- Every service call keeps the invariant, with the history extended by what
the call signed. -/
theorem ServiceCall.after_invariant (r : inMemorySignatureDeviceRepository)
    (hist : GoString → List GoString) (c : ServiceCall) (h : ServiceInvariant r hist) :
    ServiceInvariant (c.after r) (fun id => hist id ++ c.signed r id) := by
  cases c with
  | Create sdreq k newID =>
      have e : (fun id => hist id ++ (ServiceCall.Create sdreq k newID).signed r id) = hist := by
        funext id; simp [ServiceCall.signed]
      rw [e]
      simp only [ServiceCall.after, signatureDeviceService.Create]
      generalize (if sdreq.ID = [] then { sdreq with ID := newID } else sdreq) = sdreq1
      rcases hg : generateKeyPair k sdreq1.Algorithm with ⟨pub, priv, eg⟩
      cases eg with
      | some e1 => exact h
      | none =>
          simp only [inMemoryService, inMemorySignatureDeviceRepository.repository,
            inMemorySignatureDeviceRepository.Create]
          cases hlook : r.signatureDevice.lookup sdreq1.ID with
          | some d0 => exact h
          | none => exact ServiceInvariant.create r hist _ _ h hlook rfl rfl
  | GetAll =>
      have e : (fun id => hist id ++ ServiceCall.GetAll.signed r id) = hist := by
        funext id; simp [ServiceCall.signed]
      rw [e]
      exact h
  | Get deviceId =>
      have e : (fun id => hist id ++ (ServiceCall.Get deviceId).signed r id) = hist := by
        funext id; simp [ServiceCall.signed]
      rw [e]
      simp only [ServiceCall.after, signatureDeviceService.Get, inMemoryService,
        inMemorySignatureDeviceRepository.repository, inMemorySignatureDeviceRepository.Get]
      split <;> exact h
  | GetAllSignature deviceId =>
      have e : (fun id => hist id ++ (ServiceCall.GetAllSignature deviceId).signed r id) =
          hist := by
        funext id; simp [ServiceCall.signed]
      rw [e]
      simp only [ServiceCall.after, signatureDeviceService.GetAllSignature, inMemoryService,
        inMemorySignatureDeviceRepository.repository,
        inMemorySignatureDeviceRepository.GetAllSignature]
      split <;> exact h
  | SignTransaction deviceId data f =>
      rcases inMemory_SignTransaction_cases f r deviceId data with
        ⟨hfail, hsame⟩ | ⟨d, sig, ref, hd, href, hok, hnew⟩
      · have e : (fun id => hist id ++
            (ServiceCall.SignTransaction deviceId data f).signed r id) = hist := by
          funext id; simp [ServiceCall.signed, hfail]
        rw [e]
        simp only [ServiceCall.after, hsame]
        exact h
      · have e : (fun id => hist id ++
            (ServiceCall.SignTransaction deviceId data f).signed r id) =
            (fun id => hist id ++ if deviceId = id then [data] else []) := by
          funext id; simp [ServiceCall.signed, hok]
        rw [e]
        simp only [ServiceCall.after, hnew]
        exact ServiceInvariant.sign r hist deviceId data d sig ref h hd href

/-- Sequences of service calls keep the invariant. -/
theorem runService_invariant (cs : List ServiceCall) :
    ∀ (r : inMemorySignatureDeviceRepository) (hist : GoString → List GoString),
      ServiceInvariant r hist →
        ServiceInvariant (runService r cs) (fun id => hist id ++ signedData r id cs) := by
  induction cs with
  | nil =>
      intro r hist h
      have e : (fun id => hist id ++ signedData r id []) = hist := by
        funext id; simp [signedData]
      rw [e]
      exact h
  | cons c cs ih =>
      intro r hist h
      have h1 := ih (c.after r) _ (ServiceCall.after_invariant r hist c h)
      have e : (fun id => hist id ++ signedData r id (c :: cs)) =
          (fun id => (hist id ++ c.signed r id) ++ signedData (c.after r) id cs) := by
        funext id; simp [signedData]
      rw [e]
      exact h1

/-- The empty repository satisfies the invariant with the empty history. -/
theorem serviceInvariant_new :
    ServiceInvariant NewInMemorySignatureDeviceRepository (fun _ => []) := by
  refine ⟨sameKeys_new, fun _ _ => rfl, ?_⟩
  intro id d hd
  simp [NewInMemorySignatureDeviceRepository] at hd

/-- The invariant holds after any sequence of service calls on the empty
repository. -/
theorem runService_invariant_new (cs : List ServiceCall) :
    ServiceInvariant (runService NewInMemorySignatureDeviceRepository cs)
      (fun id => signedData NewInMemorySignatureDeviceRepository id cs) := by
  have h := runService_invariant cs _ _ serviceInvariant_new
  simpa using h

/-- The example scenario of the specification, evaluated. -/
theorem example_scenario :
    (runService NewInMemorySignatureDeviceRepository exampleCalls).signatureDevice.lookup
        (ascii "d1") = some exampleDevice ∧
      (runService NewInMemorySignatureDeviceRepository exampleCalls).deviceSignatures.lookup
        (ascii "d1") = some exampleChain ∧
      signedData NewInMemorySignatureDeviceRepository (ascii "d1") exampleCalls =
        [ascii "hello", ascii "world"] := by
  decide

/-- C3 (chain-form invariant).  Let `l` be the signature list stored for the
device `id` after any sequence `cs` of service calls on the empty in-memory
repository, whatever the signers returned, and let `signedData` be the data
of the successful `SignTransaction` calls for `id`, in order.  Then `l` has
one link per successful sign; the first link's `SignedData` is
`"0_" ++ d ++ "_" ++ base64Std(id)` for the first signed data `d`; and the link
at every later position `m + 1` (counted from 0, below `2^63`, the bound of an
`int64` counter and of a slice length) has
`SignedData = decimal(m + 1) ++ "_" ++ d ++ "_" ++ base64Std(Signature of the
link at position m)` for the data `d` of the sign at that position. -/
theorem chain_form_reached (cs : List ServiceCall) (id : GoString)
    (l : List SignatureResponse)
    (hl : (runService NewInMemorySignatureDeviceRepository cs).deviceSignatures.lookup id =
      some l) :
    l.length = (signedData NewInMemorySignatureDeviceRepository id cs).length ∧
    (∀ (link : SignatureResponse) (d : GoString),
      l[0]? = some link →
      (signedData NewInMemorySignatureDeviceRepository id cs)[0]? = some d →
        link.SignedData = ascii "0_" ++ d ++ ascii "_" ++ base64Std id) ∧
    (∀ (m : Nat) (prev link : SignatureResponse) (d : GoString),
      l[m]? = some prev → l[m + 1]? = some link →
      (signedData NewInMemorySignatureDeviceRepository id cs)[m + 1]? = some d →
      m + 1 < 9223372036854775808 →
        link.SignedData =
          decimal ((m + 1 : Nat) : Int) ++ ascii "_" ++ d ++ ascii "_" ++
            base64Std prev.Signature) := by
  obtain ⟨hk, _, hdev⟩ := runService_invariant_new cs
  have hmem : id ∈ (runService NewInMemorySignatureDeviceRepository cs).signatureDevice := by
    rw [hk id, ← AList.lookup_isSome, hl]; rfl
  obtain ⟨dev, hdev1⟩ := Option.isSome_iff_exists.mp (AList.lookup_isSome.mpr hmem)
  obtain ⟨_, l1, hl1, _, hlen, hchain⟩ := hdev id dev hdev1
  have hl2 : l1 = l := Option.some.inj (hl1.symm.trans hl)
  subst hl2
  refine ⟨hlen, ?_, ?_⟩
  · intro link d hlink hd
    rw [hchain 0 link d hlink hd (by decide)]
    rfl
  · intro m prev link d hprev hlink hd hm
    rw [hchain (m + 1) link d hlink hd hm]
    simp only [chainReference, hprev, Option.map_some', Option.getD_some]
    rfl

/-- Witness of C3: the example scenario of the specification, two links. -/
theorem chain_form_reached_witness :
    exampleChain.length =
        (signedData NewInMemorySignatureDeviceRepository (ascii "d1") exampleCalls).length ∧
    (∀ (link : SignatureResponse) (d : GoString),
      exampleChain[0]? = some link →
      (signedData NewInMemorySignatureDeviceRepository (ascii "d1") exampleCalls)[0]? =
        some d →
        link.SignedData = ascii "0_" ++ d ++ ascii "_" ++ base64Std (ascii "d1")) ∧
    (∀ (m : Nat) (prev link : SignatureResponse) (d : GoString),
      exampleChain[m]? = some prev → exampleChain[m + 1]? = some link →
      (signedData NewInMemorySignatureDeviceRepository (ascii "d1") exampleCalls)[m + 1]? =
        some d →
      m + 1 < 9223372036854775808 →
        link.SignedData =
          decimal ((m + 1 : Nat) : Int) ++ ascii "_" ++ d ++ ascii "_" ++
            base64Std prev.Signature) :=
  chain_form_reached exampleCalls (ascii "d1") exampleChain (by decide)

/-- C4 (counter equals chain length).  After any sequence `cs` of service
calls on the empty in-memory repository, for every stored device,
`GetAllSignature` of its id succeeds with a list whose length is the number of
successful `SignTransaction` calls made for that id, and the stored counter is
that length as an `int64`: equal to it whenever the length is below `2^63`,
which the length of a Go slice always is. -/
theorem counter_eq_chain_length (cs : List ServiceCall) (id : GoString)
    (d : SignatureDeviceResponse)
    (hd : (runService NewInMemorySignatureDeviceRepository cs).signatureDevice.lookup id =
      some d) :
    ∃ l : List SignatureResponse,
      (runService NewInMemorySignatureDeviceRepository cs).GetAllSignature id =
        (runService NewInMemorySignatureDeviceRepository cs, l, none) ∧
      l.length = (signedData NewInMemorySignatureDeviceRepository id cs).length ∧
      d.SignatureCounter.Value = wrapInt64 (l.length : Int) ∧
      (l.length < 9223372036854775808 → d.SignatureCounter.Value = (l.length : Int)) := by
  obtain ⟨_, _, hdev⟩ := runService_invariant_new cs
  obtain ⟨_, l, hl, hcnt, hlen, _⟩ := hdev id d hd
  refine ⟨l, ?_, hlen, hcnt, ?_⟩
  · simp only [inMemorySignatureDeviceRepository.GetAllSignature, hl]
  · intro hlt
    show d.SignatureCounter.val = (l.length : Int)
    rw [hcnt]
    exact wrapInt64_of_lt _ hlt

/-- Witness of C4: the example scenario of the specification; after two
successful signs the device `"d1"` has counter 2 and a chain of 2 links. -/
theorem counter_eq_chain_length_witness :
    ∃ l : List SignatureResponse,
      (runService NewInMemorySignatureDeviceRepository exampleCalls).GetAllSignature
          (ascii "d1") =
        (runService NewInMemorySignatureDeviceRepository exampleCalls, l, none) ∧
      l.length =
        (signedData NewInMemorySignatureDeviceRepository (ascii "d1") exampleCalls).length ∧
      exampleDevice.SignatureCounter.Value = wrapInt64 (l.length : Int) ∧
      (l.length < 9223372036854775808 →
        exampleDevice.SignatureCounter.Value = (l.length : Int)) :=
  counter_eq_chain_length exampleCalls (ascii "d1") exampleDevice (by decide)

/-- Witness of C5: signing for a device that does not exist returns the
repository's `ErrSignatureDeviceNotFound`, the zero-value response and the
repository unchanged. -/
theorem SignTransaction_error_atomic_witness :
    (inMemoryService mockSignerFactory).SignTransaction NewInMemorySignatureDeviceRepository
        (ascii "someid") (ascii "somedata") =
      (NewInMemorySignatureDeviceRepository,
        Outcome.returned SignatureResponse.zero (some Error.ErrSignatureDeviceNotFound)) :=
  (SignTransaction_error_atomic mockSignerFactory NewInMemorySignatureDeviceRepository
    NewInMemorySignatureDeviceRepository (ascii "someid") (ascii "somedata")
    SignatureResponse.zero Error.ErrSignatureDeviceNotFound).mpr
    ⟨rfl, rfl, Or.inl (by decide)⟩

/-! ### GetAll -/

/-- The `range` loop of `GetAll` appends the visited devices, in the order of
the visit, to what it started with. -/
theorem foldl_append_devices
    (order : List (Sigma fun _ : GoString => SignatureDeviceResponse)) :
    ∀ acc : List SignatureDeviceResponse,
      order.foldl (fun sdresList e => GoSlice.append sdresList e.2) (some acc) =
        some (acc ++ order.map (fun e => e.2)) := by
  induction order with
  | nil => intro acc; simp
  | cons e rest ih =>
      intro acc
      have h := ih (acc ++ [e.2])
      simp only [List.foldl_cons, List.map_cons]
      show List.foldl _ (some (acc ++ [e.2])) rest = _
      rw [h, List.append_assoc, List.singleton_append]

/-- C11 (GetAll).  For every repository value and every order in which the
`range` loop may visit the entries of `signatureDevice`, `GetAll` returns a nil
error and a non-nil slice `l` holding the visited devices: `l` is a
permutation of the values of the map, its length is the number of keys, a
device is in `l` exactly when it is stored under some id, and for a map with
no entry `l` is the empty, non-nil slice.  The list-valued `GetAll` of the
repository interface is the case where the entries are visited in the order
of the finite map. -/
theorem GetAll_permutation (r : inMemorySignatureDeviceRepository)
    (order : List (Sigma fun _ : GoString => SignatureDeviceResponse))
    (horder : order.Perm r.signatureDevice.entries) :
    ∃ l : List SignatureDeviceResponse,
      GetAllRange order = (some l, none) ∧
      l = order.map (fun e => e.2) ∧
      l.Perm (r.signatureDevice.entries.map (fun e => e.2)) ∧
      l.length = r.signatureDevice.keys.length ∧
      (∀ d : SignatureDeviceResponse,
        d ∈ l ↔ ∃ id : GoString, r.signatureDevice.lookup id = some d) ∧
      (r.signatureDevice.entries = [] → l = []) ∧
      r.GetAll = (r, (GetAllRange r.signatureDevice.entries).1.getD [], none) := by
  refine ⟨order.map (fun e => e.2), ?_, rfl, horder.map _, ?_, ?_, ?_, ?_⟩
  · simp only [GetAllRange, foldl_append_devices, List.nil_append]
  · rw [List.length_map, horder.length_eq, AList.keys, List.keys, List.length_map]
  · intro d
    constructor
    · intro hd
      obtain ⟨e, he, hed⟩ := List.mem_map.mp hd
      refine ⟨e.1, ?_⟩
      have hmem : Sigma.mk e.1 e.2 ∈ r.signatureDevice.entries := horder.subset he
      rw [← hed]
      exact AList.mem_lookup_iff.mpr hmem
    · rintro ⟨id, hid⟩
      have hmem : Sigma.mk id d ∈ r.signatureDevice.entries := AList.mem_lookup_iff.mp hid
      exact List.mem_map.mpr ⟨⟨id, d⟩, horder.symm.subset hmem, rfl⟩
  · intro hempty
    rw [hempty] at horder
    rw [List.Perm.eq_nil horder]
    rfl
  · simp only [inMemorySignatureDeviceRepository.GetAll, GetAllRange, foldl_append_devices,
      List.nil_append, Option.getD_some]

/-- Witness of C11: the two cases of the `GetAll` test, the empty repository
and the repository holding the device `"someid"` with counter 2. -/
theorem GetAll_permutation_witness :
    (∃ l : List SignatureDeviceResponse,
      GetAllRange [] = (some l, none) ∧
      l = ([] : List (Sigma fun _ : GoString => SignatureDeviceResponse)).map
        (fun e => e.2) ∧
      l.Perm (NewInMemorySignatureDeviceRepository.signatureDevice.entries.map
        (fun e => e.2)) ∧
      l.length = NewInMemorySignatureDeviceRepository.signatureDevice.keys.length ∧
      (∀ d : SignatureDeviceResponse,
        d ∈ l ↔ ∃ id : GoString,
          NewInMemorySignatureDeviceRepository.signatureDevice.lookup id = some d) ∧
      (NewInMemorySignatureDeviceRepository.signatureDevice.entries = [] → l = []) ∧
      NewInMemorySignatureDeviceRepository.GetAll =
        (NewInMemorySignatureDeviceRepository,
          (GetAllRange
            NewInMemorySignatureDeviceRepository.signatureDevice.entries).1.getD [],
          none)) ∧
    GetAllRange [] = (some [], none) ∧
    GetAllRange
        (testRepository SignatureCounter.zero.Increment.Increment).signatureDevice.entries =
      (some [testDevice SignatureCounter.zero.Increment.Increment], none) :=
  ⟨GetAll_permutation NewInMemorySignatureDeviceRepository [] (List.Perm.refl _),
    by decide, by decide⟩

/-! ### Service Create -/

/-- The results of `generateKeyPair` in terms of the generators and
marshalers, case by case. -/
theorem generateKeyPair_cases (k : KeyMaterial) (a : SignatureAlgorithm) :
    (∀ e : Error,
      (a = SignatureAlgorithmRSA ∧
          (k.rsaGenerate = some e ∨ (k.rsaGenerate = none ∧ k.rsaMarshal.2.2 = some e))) ∨
        (a = SignatureAlgorithmECC ∧
          (k.eccGenerate = some e ∨ (k.eccGenerate = none ∧ k.eccEncode.2.2 = some e))) →
      (generateKeyPair k a).2.2 = some e) ∧
    (∀ pub priv : List Byte,
      (a = SignatureAlgorithmRSA ∧ k.rsaGenerate = none ∧ k.rsaMarshal = (pub, priv, none)) ∨
        (a = SignatureAlgorithmECC ∧ k.eccGenerate = none ∧
          k.eccEncode = (pub, priv, none)) ∨
        (a ≠ SignatureAlgorithmRSA ∧ a ≠ SignatureAlgorithmECC ∧ pub = [] ∧ priv = []) →
      generateKeyPair k a = (pub, priv, none)) := by
  have hne : SignatureAlgorithmECC ≠ SignatureAlgorithmRSA := by decide
  constructor
  · intro e h
    rcases h with ⟨ha, hg | ⟨hg, hm⟩⟩ | ⟨ha, hg | ⟨hg, hm⟩⟩
    · simp [generateKeyPair, ha, hg]
    · rcases hk : k.rsaMarshal with ⟨p, q, o⟩
      rw [hk] at hm
      simp only at hm
      subst hm
      simp [generateKeyPair, ha, hg, hk]
    · simp [generateKeyPair, ha, hg, hne]
    · rcases hk : k.eccEncode with ⟨p, q, o⟩
      rw [hk] at hm
      simp only at hm
      subst hm
      simp [generateKeyPair, ha, hg, hk, hne]
  · intro pub priv h
    rcases h with ⟨ha, hg, hm⟩ | ⟨ha, hg, hm⟩ | ⟨h1, h2, hp, hq⟩
    · simp [generateKeyPair, ha, hg, hm]
    · simp [generateKeyPair, ha, hg, hm, hne]
    · simp [generateKeyPair, h1, h2, hp, hq]

/-- C12 (service Create).  Write `id` for the request's ID when it is not empty
and for the identifier that `uuid.NewString()` returned when it is; `id` is not
empty.  For every service, repository state and results `k` of the key
generators and marshalers of the request's algorithm:
if the generator fails with `e`, or the generator succeeds and the marshaler
fails with `e`, `Create` returns `e` with the zero-value device and the
repository state it was given (the repository's `Create` is not called);
if both succeed with the bytes `pub` and `priv`, `Create` returns exactly what
the repository's `Create` returns for the request with ID `id`, the request's
algorithm and label, public key `pub` and private key `priv` (for an algorithm
that is neither RSA nor ECC nothing is generated and the two keys are nil).
Over the in-memory repository that is: when `id` is new, the device with
counter 0 and these keys is returned with a nil error and is the one stored
under `id`; when `id` has a device, `ErrSignatureDeviceAlreadyExist` with the
repository unchanged. -/
theorem Create_service_spec {σ : Type} (s : signatureDeviceService σ) (f : SignerFactory)
    (k : KeyMaterial) (u : UUIDText) (st : σ) (r : inMemorySignatureDeviceRepository)
    (sdreq : SignatureDeviceRequest) :
    ((sdreq.ID ≠ [] → (if sdreq.ID = [] then u.text else sdreq.ID) = sdreq.ID) ∧
      (sdreq.ID = [] → (if sdreq.ID = [] then u.text else sdreq.ID) = u.text) ∧
      (if sdreq.ID = [] then u.text else sdreq.ID) ≠ []) ∧
    (∀ e : Error,
      (sdreq.Algorithm = SignatureAlgorithmRSA ∧
          (k.rsaGenerate = some e ∨ (k.rsaGenerate = none ∧ k.rsaMarshal.2.2 = some e))) ∨
        (sdreq.Algorithm = SignatureAlgorithmECC ∧
          (k.eccGenerate = some e ∨ (k.eccGenerate = none ∧ k.eccEncode.2.2 = some e))) →
      s.Create k u.text st sdreq = (st, SignatureDeviceResponse.zero, some e)) ∧
    (∀ pub priv : List Byte,
      (sdreq.Algorithm = SignatureAlgorithmRSA ∧ k.rsaGenerate = none ∧
          k.rsaMarshal = (pub, priv, none)) ∨
        (sdreq.Algorithm = SignatureAlgorithmECC ∧ k.eccGenerate = none ∧
          k.eccEncode = (pub, priv, none)) ∨
        (sdreq.Algorithm ≠ SignatureAlgorithmRSA ∧ sdreq.Algorithm ≠ SignatureAlgorithmECC ∧
          pub = [] ∧ priv = []) →
      s.Create k u.text st sdreq =
          s.signatureDeviceRepository.Create st
            { ID := if sdreq.ID = [] then u.text else sdreq.ID,
              Algorithm := sdreq.Algorithm, Label := sdreq.Label,
              PrivateKey := priv, PublicKey := pub } ∧
        ((if sdreq.ID = [] then u.text else sdreq.ID) ∉ r.signatureDevice →
          ((inMemoryService f).Create k u.text r sdreq).2 =
              ({ ID := if sdreq.ID = [] then u.text else sdreq.ID,
                 Algorithm := sdreq.Algorithm, Label := sdreq.Label,
                 SignatureCounter := SignatureCounter.zero,
                 PrivateKey := priv, PublicKey := pub }, none) ∧
            ((inMemoryService f).Create k u.text r sdreq).1.signatureDevice.lookup
                (if sdreq.ID = [] then u.text else sdreq.ID) =
              some { ID := if sdreq.ID = [] then u.text else sdreq.ID,
                     Algorithm := sdreq.Algorithm, Label := sdreq.Label,
                     SignatureCounter := SignatureCounter.zero,
                     PrivateKey := priv, PublicKey := pub }) ∧
        ((if sdreq.ID = [] then u.text else sdreq.ID) ∈ r.signatureDevice →
          (inMemoryService f).Create k u.text r sdreq =
            (r, SignatureDeviceResponse.zero,
              some Error.ErrSignatureDeviceAlreadyExist))) := by
  have hu : u.text ≠ [] := by
    intro h
    have hl := u.length_eq
    rw [h] at hl
    simp at hl
  have hgen : ∀ {τ : Type} (t : signatureDeviceService τ) (x : τ) (pub priv : List Byte),
      generateKeyPair k sdreq.Algorithm = (pub, priv, none) →
        t.Create k u.text x sdreq =
          t.signatureDeviceRepository.Create x
            { ID := if sdreq.ID = [] then u.text else sdreq.ID,
              Algorithm := sdreq.Algorithm, Label := sdreq.Label,
              PrivateKey := priv, PublicKey := pub } := by
    intro τ t x pub priv hk
    by_cases he : sdreq.ID = [] <;> simp [signatureDeviceService.Create, he, hk]
  refine ⟨⟨?_, ?_, ?_⟩, ?_, ?_⟩
  · intro hne
    rw [if_neg hne]
  · intro he
    rw [if_pos he]
  · by_cases he : sdreq.ID = []
    · rw [if_pos he]
      exact hu
    · rw [if_neg he]
      exact he
  · intro e h
    have hk := (generateKeyPair_cases k sdreq.Algorithm).1 e h
    rcases hg : generateKeyPair k sdreq.Algorithm with ⟨p, q, o⟩
    rw [hg] at hk
    simp only at hk
    subst hk
    by_cases he : sdreq.ID = [] <;> simp [signatureDeviceService.Create, he, hg]
  · intro pub priv h
    have hk := (generateKeyPair_cases k sdreq.Algorithm).2 pub priv h
    refine ⟨hgen s st pub priv hk, ?_, ?_⟩
    · intro hnew
      rw [hgen (inMemoryService f) r pub priv hk]
      simp only [inMemoryService, inMemorySignatureDeviceRepository.repository,
        inMemorySignatureDeviceRepository.Create, AList.lookup_eq_none.mpr hnew,
        AList.lookup_insert, and_self]
    · intro hold
      obtain ⟨d, hd⟩ := Option.isSome_iff_exists.mp (AList.lookup_isSome.mpr hold)
      rw [hgen (inMemoryService f) r pub priv hk]
      simp only [inMemoryService, inMemorySignatureDeviceRepository.repository,
        inMemorySignatureDeviceRepository.Create, hd]

/-- Witness of C12 on the in-memory repository.  A request without id gets
the generated identifier.  With a failing RSA generator, a failing RSA
marshaler or a failing ECC generator the error is returned and nothing is
stored.  An RSA request gets the RSA keys and an ECC request the ECC keys, and
the device is stored with them.  A second request for `"someid"` is
refused. -/
theorem Create_service_spec_witness :
    ((if anonymousEccRequest.ID = [] then exampleUUID.text else anonymousEccRequest.ID) =
        exampleUUID.text ∧
      (if anonymousEccRequest.ID = [] then exampleUUID.text else anonymousEccRequest.ID) ≠
        []) ∧
    (inMemoryService mockSignerFactory).Create failingKeys exampleUUID.text
        NewInMemorySignatureDeviceRepository anonymousRequest =
      (NewInMemorySignatureDeviceRepository, SignatureDeviceResponse.zero,
        some (Error.other "rsa: key generation failed")) ∧
    (inMemoryService mockSignerFactory).Create failingEccKeys exampleUUID.text
        NewInMemorySignatureDeviceRepository anonymousRequest =
      (NewInMemorySignatureDeviceRepository, SignatureDeviceResponse.zero,
        some (Error.other "x509: unsupported key")) ∧
    (inMemoryService mockSignerFactory).Create failingEccKeys exampleUUID.text
        NewInMemorySignatureDeviceRepository anonymousEccRequest =
      (NewInMemorySignatureDeviceRepository, SignatureDeviceResponse.zero,
        some (Error.other "ecdsa: key generation failed")) ∧
    (((inMemoryService mockSignerFactory).Create distinctKeys exampleUUID.text
          NewInMemorySignatureDeviceRepository anonymousRequest).2 =
        ({ ID := if anonymousRequest.ID = [] then exampleUUID.text else anonymousRequest.ID,
           Algorithm := anonymousRequest.Algorithm, Label := anonymousRequest.Label,
           SignatureCounter := SignatureCounter.zero,
           PrivateKey := [2], PublicKey := [1] }, none) ∧
      ((inMemoryService mockSignerFactory).Create distinctKeys exampleUUID.text
          NewInMemorySignatureDeviceRepository anonymousRequest).1.signatureDevice.lookup
          (if anonymousRequest.ID = [] then exampleUUID.text else anonymousRequest.ID) =
        some { ID := if anonymousRequest.ID = [] then exampleUUID.text
                 else anonymousRequest.ID,
               Algorithm := anonymousRequest.Algorithm, Label := anonymousRequest.Label,
               SignatureCounter := SignatureCounter.zero,
               PrivateKey := [2], PublicKey := [1] }) ∧
    (((inMemoryService mockSignerFactory).Create distinctKeys exampleUUID.text
          NewInMemorySignatureDeviceRepository anonymousEccRequest).2 =
        ({ ID := if anonymousEccRequest.ID = [] then exampleUUID.text
             else anonymousEccRequest.ID,
           Algorithm := anonymousEccRequest.Algorithm, Label := anonymousEccRequest.Label,
           SignatureCounter := SignatureCounter.zero,
           PrivateKey := [4], PublicKey := [3] }, none) ∧
      ((inMemoryService mockSignerFactory).Create distinctKeys exampleUUID.text
          NewInMemorySignatureDeviceRepository anonymousEccRequest).1.signatureDevice.lookup
          (if anonymousEccRequest.ID = [] then exampleUUID.text
            else anonymousEccRequest.ID) =
        some { ID := if anonymousEccRequest.ID = [] then exampleUUID.text
                 else anonymousEccRequest.ID,
               Algorithm := anonymousEccRequest.Algorithm,
               Label := anonymousEccRequest.Label,
               SignatureCounter := SignatureCounter.zero,
               PrivateKey := [4], PublicKey := [3] }) ∧
    (inMemoryService mockSignerFactory).Create distinctKeys exampleUUID.text
        (testRepository SignatureCounter.zero) testRequest =
      (testRepository SignatureCounter.zero, SignatureDeviceResponse.zero,
        some Error.ErrSignatureDeviceAlreadyExist) :=
  ⟨⟨(Create_service_spec (inMemoryService mockSignerFactory) mockSignerFactory distinctKeys
        exampleUUID NewInMemorySignatureDeviceRepository
        NewInMemorySignatureDeviceRepository anonymousEccRequest).1.2.1 rfl,
      (Create_service_spec (inMemoryService mockSignerFactory) mockSignerFactory distinctKeys
        exampleUUID NewInMemorySignatureDeviceRepository
        NewInMemorySignatureDeviceRepository anonymousEccRequest).1.2.2⟩,
    (Create_service_spec (inMemoryService mockSignerFactory) mockSignerFactory failingKeys
      exampleUUID NewInMemorySignatureDeviceRepository
      NewInMemorySignatureDeviceRepository anonymousRequest).2.1 _
      (Or.inl ⟨rfl, Or.inl rfl⟩),
    (Create_service_spec (inMemoryService mockSignerFactory) mockSignerFactory failingEccKeys
      exampleUUID NewInMemorySignatureDeviceRepository
      NewInMemorySignatureDeviceRepository anonymousRequest).2.1 _
      (Or.inl ⟨rfl, Or.inr ⟨rfl, rfl⟩⟩),
    (Create_service_spec (inMemoryService mockSignerFactory) mockSignerFactory failingEccKeys
      exampleUUID NewInMemorySignatureDeviceRepository
      NewInMemorySignatureDeviceRepository anonymousEccRequest).2.1 _
      (Or.inr ⟨rfl, Or.inl rfl⟩),
    ((Create_service_spec (inMemoryService mockSignerFactory) mockSignerFactory distinctKeys
      exampleUUID NewInMemorySignatureDeviceRepository
      NewInMemorySignatureDeviceRepository anonymousRequest).2.2 [1] [2]
      (Or.inl ⟨rfl, rfl, rfl⟩)).2.1 (by decide),
    ((Create_service_spec (inMemoryService mockSignerFactory) mockSignerFactory distinctKeys
      exampleUUID NewInMemorySignatureDeviceRepository
      NewInMemorySignatureDeviceRepository anonymousEccRequest).2.2 [3] [4]
      (Or.inr (Or.inl ⟨rfl, rfl, rfl⟩))).2.1 (by decide),
    ((Create_service_spec (inMemoryService mockSignerFactory) mockSignerFactory distinctKeys
      exampleUUID NewInMemorySignatureDeviceRepository
      (testRepository SignatureCounter.zero) testRequest).2.2 [1] [2]
      (Or.inl ⟨rfl, rfl, rfl⟩)).2.2 (by decide)⟩

/-! ### The signer factory -/

/-- C13 (CreateSigner).  For every algorithm value other than RSA and ECC and
every private key, `CreateSigner` returns a nil signer and
`ErrInvalidSignatureAlgorithm`.  For RSA it returns an `RSASigner` with a nil
error when the key decodes and a nil signer with the marshaler's error when it
does not; for ECC likewise with an `ECCSigner`. -/
theorem CreateSigner_spec {RSAKey ECCKey : Type} (dec : KeyDecoders RSAKey ECCKey)
    (pk : List Byte) :
    (∀ a : SignatureAlgorithm, a ≠ SignatureAlgorithmRSA → a ≠ SignatureAlgorithmECC →
      signerFactory.CreateSigner dec a pk =
        (SignerValue.nil, some Error.ErrInvalidSignatureAlgorithm)) ∧
    (∀ key : RSAKey, dec.rsaUnmarshal pk = (key, none) →
      signerFactory.CreateSigner dec SignatureAlgorithmRSA pk =
        (SignerValue.RSASigner key, none)) ∧
    (∀ (key : RSAKey) (e : Error), dec.rsaUnmarshal pk = (key, some e) →
      signerFactory.CreateSigner dec SignatureAlgorithmRSA pk = (SignerValue.nil, some e)) ∧
    (∀ key : ECCKey, dec.eccDecode pk = (key, none) →
      signerFactory.CreateSigner dec SignatureAlgorithmECC pk =
        (SignerValue.ECCSigner key, none)) ∧
    (∀ (key : ECCKey) (e : Error), dec.eccDecode pk = (key, some e) →
      signerFactory.CreateSigner dec SignatureAlgorithmECC pk = (SignerValue.nil, some e)) := by
  have hne : SignatureAlgorithmRSA ≠ SignatureAlgorithmECC := by decide
  refine ⟨?_, ?_, ?_, ?_, ?_⟩
  · intro a h1 h2
    simp only [signerFactory.CreateSigner, h1, h2, if_false]
  · intro key h
    simp only [signerFactory.CreateSigner, hne, if_false, if_true, h]
  · intro key e h
    simp only [signerFactory.CreateSigner, hne, if_false, if_true, h]
  · intro key h
    simp only [signerFactory.CreateSigner, if_true, h]
  · intro key e h
    simp only [signerFactory.CreateSigner, if_true, h]

/-- Witness of C13: the cases of `TestCreateSigner` (algorithm 5, ECC, RSA) and
a key that does not decode. -/
theorem CreateSigner_spec_witness :
    signerFactory.CreateSigner exampleDecoders 5 [1, 2] =
        (SignerValue.nil, some Error.ErrInvalidSignatureAlgorithm) ∧
    signerFactory.CreateSigner exampleDecoders SignatureAlgorithmRSA [1, 2] =
        (SignerValue.RSASigner [1, 2], none) ∧
    signerFactory.CreateSigner exampleDecoders SignatureAlgorithmRSA [] =
        (SignerValue.nil, some (Error.other "x509: failed to parse private key")) ∧
    signerFactory.CreateSigner exampleDecoders SignatureAlgorithmECC [1, 2] =
        (SignerValue.ECCSigner [1, 2], none) ∧
    signerFactory.CreateSigner exampleDecoders SignatureAlgorithmECC [] =
        (SignerValue.nil, some (Error.other "x509: failed to parse EC private key")) :=
  ⟨(CreateSigner_spec exampleDecoders [1, 2]).1 5 (by decide) (by decide),
    (CreateSigner_spec exampleDecoders [1, 2]).2.1 [1, 2] rfl,
    (CreateSigner_spec exampleDecoders []).2.2.1 [] _ rfl,
    (CreateSigner_spec exampleDecoders [1, 2]).2.2.2.1 [1, 2] rfl,
    (CreateSigner_spec exampleDecoders []).2.2.2.2 [] _ rfl⟩

/-! ### The text form of an algorithm -/

/-- C14 (algorithm text codec).  Whatever `json.Unmarshal` answers for the
data: `UnmarshalJSON` returns a nil error exactly when the decoded string is
`"RSA"` (the tag becomes RSA) or `"ECC"` (the tag becomes ECC); for every other
decoded string it returns `ErrInvalidSignatureAlgorithm` and leaves the tag as
it was.  `MarshalJSON` of RSA and of ECC is the JSON string `"RSA"` and `"ECC"`,
and for both tags decoding the output of `MarshalJSON` gives back the tag, given
that `json.Unmarshal` decodes the quoted name to the name. -/
theorem algorithm_codec (unmarshal : List Byte → GoString × Option Error)
    (sa : SignatureAlgorithm) (data : List Byte) :
    (∀ sa1 : SignatureAlgorithm,
      SignatureAlgorithm.UnmarshalJSON unmarshal sa data = (sa1, none) ↔
        (unmarshal data = (ascii "RSA", none) ∧ sa1 = SignatureAlgorithmRSA) ∨
          (unmarshal data = (ascii "ECC", none) ∧ sa1 = SignatureAlgorithmECC)) ∧
    (∀ s : GoString, unmarshal data = (s, none) → s ≠ ascii "RSA" → s ≠ ascii "ECC" →
      SignatureAlgorithm.UnmarshalJSON unmarshal sa data =
        (sa, some Error.ErrInvalidSignatureAlgorithm)) ∧
    SignatureAlgorithm.MarshalJSON SignatureAlgorithmRSA =
      Outcome.returned ([doubleQuote] ++ ascii "RSA" ++ [doubleQuote]) none ∧
    SignatureAlgorithm.MarshalJSON SignatureAlgorithmECC =
      Outcome.returned ([doubleQuote] ++ ascii "ECC" ++ [doubleQuote]) none ∧
    ((unmarshal ([doubleQuote] ++ ascii "RSA" ++ [doubleQuote]) = (ascii "RSA", none) →
        SignatureAlgorithm.UnmarshalJSON unmarshal sa
          ([doubleQuote] ++ ascii "RSA" ++ [doubleQuote]) = (SignatureAlgorithmRSA, none)) ∧
      (unmarshal ([doubleQuote] ++ ascii "ECC" ++ [doubleQuote]) = (ascii "ECC", none) →
        SignatureAlgorithm.UnmarshalJSON unmarshal sa
          ([doubleQuote] ++ ascii "ECC" ++ [doubleQuote]) = (SignatureAlgorithmECC, none))) := by
  have hne : ascii "ECC" ≠ ascii "RSA" := by decide
  refine ⟨?_, ?_, by decide, by decide, ?_, ?_⟩
  · intro sa1
    rcases hu : unmarshal data with ⟨s, eo⟩
    cases eo with
    | some e => simp [SignatureAlgorithm.UnmarshalJSON, hu]
    | none =>
        by_cases h1 : s = ascii "RSA"
        · subst h1
          simp [SignatureAlgorithm.UnmarshalJSON, hu, hne, hne.symm, eq_comm]
        · by_cases h2 : s = ascii "ECC"
          · subst h2
            simp [SignatureAlgorithm.UnmarshalJSON, hu, hne, eq_comm]
          · simp [SignatureAlgorithm.UnmarshalJSON, hu, h1, h2]
  · intro s hu h1 h2
    simp only [SignatureAlgorithm.UnmarshalJSON, hu, h1, h2, if_false]
  · intro hu
    simp only [SignatureAlgorithm.UnmarshalJSON, hu, if_true]
  · intro hu
    simp only [SignatureAlgorithm.UnmarshalJSON, hu, hne, if_false, if_true]

/-- Witness of C14, with a decoder of JSON string literals without escapes:
`"rsa"`, the empty string and `" RSA "` are refused, and both tags survive the
round trip through `MarshalJSON`. -/
theorem algorithm_codec_witness :
    SignatureAlgorithm.UnmarshalJSON exampleUnmarshal SignatureAlgorithmECC
        ([doubleQuote] ++ ascii "rsa" ++ [doubleQuote]) =
      (SignatureAlgorithmECC, some Error.ErrInvalidSignatureAlgorithm) ∧
    SignatureAlgorithm.UnmarshalJSON exampleUnmarshal SignatureAlgorithmECC
        ([doubleQuote] ++ ascii "" ++ [doubleQuote]) =
      (SignatureAlgorithmECC, some Error.ErrInvalidSignatureAlgorithm) ∧
    SignatureAlgorithm.UnmarshalJSON exampleUnmarshal SignatureAlgorithmECC
        ([doubleQuote] ++ ascii " RSA " ++ [doubleQuote]) =
      (SignatureAlgorithmECC, some Error.ErrInvalidSignatureAlgorithm) ∧
    SignatureAlgorithm.UnmarshalJSON exampleUnmarshal SignatureAlgorithmECC
        ([doubleQuote] ++ ascii "RSA" ++ [doubleQuote]) = (SignatureAlgorithmRSA, none) ∧
    SignatureAlgorithm.UnmarshalJSON exampleUnmarshal SignatureAlgorithmRSA
        ([doubleQuote] ++ ascii "ECC" ++ [doubleQuote]) = (SignatureAlgorithmECC, none) :=
  ⟨(algorithm_codec exampleUnmarshal SignatureAlgorithmECC
      ([doubleQuote] ++ ascii "rsa" ++ [doubleQuote])).2.1 (ascii "rsa") (by decide)
      (by decide) (by decide),
    (algorithm_codec exampleUnmarshal SignatureAlgorithmECC
      ([doubleQuote] ++ ascii "" ++ [doubleQuote])).2.1 (ascii "") (by decide)
      (by decide) (by decide),
    (algorithm_codec exampleUnmarshal SignatureAlgorithmECC
      ([doubleQuote] ++ ascii " RSA " ++ [doubleQuote])).2.1 (ascii " RSA ") (by decide)
      (by decide) (by decide),
    (algorithm_codec exampleUnmarshal SignatureAlgorithmECC []).2.2.2.2.1 (by decide),
    (algorithm_codec exampleUnmarshal SignatureAlgorithmRSA []).2.2.2.2.2 (by decide)⟩

/-- C15 (invalid algorithm at encoding time): what the code does.  For every
algorithm value other than RSA (0) and ECC (1), `String` and therefore
`MarshalJSON` panic on the lookup in the two-entry string table; no error is
returned.  In particular for the value 5 of `TestCreateSigner`. -/
theorem MarshalJSON_invalid_panics :
    (∀ a : SignatureAlgorithm, a ≠ SignatureAlgorithmRSA → a ≠ SignatureAlgorithmECC →
      SignatureAlgorithm.MarshalJSON a = Outcome.panicked "index out of range") ∧
    SignatureAlgorithm.MarshalJSON 5 = Outcome.panicked "index out of range" ∧
    (∀ (text : List Byte) (err : Option Error),
      SignatureAlgorithm.MarshalJSON 5 ≠ Outcome.returned text err) := by
  have hall : ∀ a : Int, a ≠ 0 → a ≠ 1 →
      SignatureAlgorithm.MarshalJSON a = Outcome.panicked "index out of range" := by
    intro a h1a h2a
    by_cases hneg : a < 0
    · simp only [SignatureAlgorithm.MarshalJSON, SignatureAlgorithm.String, hneg, if_true]
    · have hlen : algorithmNames.length ≤ Int.toNat a := by
        obtain ⟨n, hn⟩ := Int.eq_ofNat_of_zero_le (not_lt.mp hneg)
        rw [hn] at h1a h2a
        rw [hn, Int.toNat_ofNat]
        show 2 ≤ n
        omega
      simp only [SignatureAlgorithm.MarshalJSON, SignatureAlgorithm.String, hneg, if_false,
        List.getElem?_eq_none hlen]
  refine ⟨fun a h1 h2 => hall a h1 h2, hall 5 (by decide) (by decide), ?_⟩
  intro text err h
  rw [hall 5 (by decide) (by decide)] at h
  cases h

/-! ### Frame of the repository operations -/

/-- C16 (device immutability and frame).  Let the device `d` be stored under
`id` and let `c` be any call of the repository (`Create`, `Get`, `GetAll`,
`GetAllSignature`, `AddSignature`, with any arguments).  After `c` a device is
still stored under `id`, with the ID, algorithm, label, public key and private
key of `d`.  Unless `c` is an `AddSignature` for `id`, that device is `d` itself
and the signature list of `id` is as before.  If `c` is `AddSignature(id, sres)`,
the device is `d` with only its counter changed (incremented), the signature
list of `id` is the old one followed by `sres`, and the device and the
signature list of every other id are as before. -/
theorem device_frame (r : inMemorySignatureDeviceRepository) (c : RepositoryCall)
    (id : GoString) (d : SignatureDeviceResponse)
    (hd : r.signatureDevice.lookup id = some d) :
    ∃ d1 : SignatureDeviceResponse,
      (c.after r).signatureDevice.lookup id = some d1 ∧
      d1.ID = d.ID ∧ d1.Algorithm = d.Algorithm ∧ d1.Label = d.Label ∧
      d1.PublicKey = d.PublicKey ∧ d1.PrivateKey = d.PrivateKey ∧
      ((∀ sres : SignatureResponse, c ≠ RepositoryCall.AddSignature id sres) →
        d1 = d ∧
        (c.after r).deviceSignatures.lookup id = r.deviceSignatures.lookup id) ∧
      (∀ sres : SignatureResponse, c = RepositoryCall.AddSignature id sres →
        d1 = { d with SignatureCounter := d.SignatureCounter.Increment } ∧
        (c.after r).deviceSignatures.lookup id =
          some ((r.deviceSignatures.lookup id).getD [] ++ [sres]) ∧
        ∀ other : GoString, other ≠ id →
          (c.after r).signatureDevice.lookup other = r.signatureDevice.lookup other ∧
          (c.after r).deviceSignatures.lookup other =
            r.deviceSignatures.lookup other) := by
  cases c with
  | Create sdreq =>
      cases hl : r.signatureDevice.lookup sdreq.ID with
      | some d0 =>
          refine ⟨d, ?_, rfl, rfl, rfl, rfl, rfl, ?_, ?_⟩
          · simp only [RepositoryCall.after, inMemorySignatureDeviceRepository.Create, hl, hd]
          · intro _
            simp only [RepositoryCall.after, inMemorySignatureDeviceRepository.Create, hl,
              and_self]
          · intro sres h
            cases h
      | none =>
          have hne : id ≠ sdreq.ID := by
            intro h
            rw [h, hl] at hd
            cases hd
          refine ⟨d, ?_, rfl, rfl, rfl, rfl, rfl, ?_, ?_⟩
          · simp only [RepositoryCall.after, inMemorySignatureDeviceRepository.Create, hl,
              AList.lookup_insert_ne hne, hd]
          · intro _
            simp only [RepositoryCall.after, inMemorySignatureDeviceRepository.Create, hl,
              AList.lookup_insert_ne hne, and_self]
          · intro sres h
            cases h
  | GetAll =>
      refine ⟨d, hd, rfl, rfl, rfl, rfl, rfl, fun _ => ⟨rfl, rfl⟩, ?_⟩
      intro sres h
      cases h
  | Get deviceId =>
      have hsame : (RepositoryCall.Get deviceId).after r = r := by
        cases hl : r.signatureDevice.lookup deviceId <;>
          simp only [RepositoryCall.after, inMemorySignatureDeviceRepository.Get, hl]
      rw [hsame]
      refine ⟨d, hd, rfl, rfl, rfl, rfl, rfl, fun _ => ⟨rfl, rfl⟩, ?_⟩
      intro sres h
      cases h
  | GetAllSignature deviceId =>
      have hsame : (RepositoryCall.GetAllSignature deviceId).after r = r := by
        cases hl : r.deviceSignatures.lookup deviceId <;>
          simp only [RepositoryCall.after, inMemorySignatureDeviceRepository.GetAllSignature,
            hl]
      rw [hsame]
      refine ⟨d, hd, rfl, rfl, rfl, rfl, rfl, fun _ => ⟨rfl, rfl⟩, ?_⟩
      intro sres h
      cases h
  | AddSignature deviceId sres =>
      by_cases hid : deviceId = id
      · subst hid
        have hafter : (RepositoryCall.AddSignature deviceId sres).after r =
            { signatureDevice := r.signatureDevice.insert deviceId
                { d with SignatureCounter := d.SignatureCounter.Increment },
              deviceSignatures := r.deviceSignatures.insert deviceId
                ((r.deviceSignatures.lookup deviceId).getD [] ++ [sres]) } := by
          simp only [RepositoryCall.after, inMemorySignatureDeviceRepository.AddSignature,
            inMemorySignatureDeviceRepository.Get, hd]
        rw [hafter]
        refine ⟨_, AList.lookup_insert _, rfl, rfl, rfl, rfl, rfl, ?_, ?_⟩
        · intro h
          exact absurd rfl (h sres)
        · intro sres1 h
          have hs : sres = sres1 := by
            injection h
          subst hs
          refine ⟨rfl, AList.lookup_insert _, ?_⟩
          intro other hne
          exact ⟨AList.lookup_insert_ne hne, AList.lookup_insert_ne hne⟩
      · have hne : id ≠ deviceId := fun h => hid h.symm
        have hkeep : ((RepositoryCall.AddSignature deviceId sres).after r).signatureDevice.lookup
              id = some d ∧
            ((RepositoryCall.AddSignature deviceId sres).after r).deviceSignatures.lookup id =
              r.deviceSignatures.lookup id := by
          cases hl : r.signatureDevice.lookup deviceId with
          | none =>
              simp only [RepositoryCall.after, inMemorySignatureDeviceRepository.AddSignature,
                inMemorySignatureDeviceRepository.Get, hl, hd, and_self]
          | some d0 =>
              simp only [RepositoryCall.after, inMemorySignatureDeviceRepository.AddSignature,
                inMemorySignatureDeviceRepository.Get, hl, AList.lookup_insert_ne hne, hd,
                and_self]
        refine ⟨d, hkeep.1, rfl, rfl, rfl, rfl, rfl, fun _ => ⟨rfl, hkeep.2⟩, ?_⟩
        intro sres1 h
        injection h with h1 h2
        exact absurd h1 hid

/-- Witness of C16: on the repository of the `AddSignature` test, a duplicate
`Create` leaves the device `"someid"` as it is and `AddSignature` changes only
its counter and its signature list. -/
theorem device_frame_witness :
    (∃ d1 : SignatureDeviceResponse,
      ((RepositoryCall.Create testRequest).after
          (testRepository SignatureCounter.zero.Increment)).signatureDevice.lookup
          (ascii "someid") = some d1 ∧
      d1.ID = (testDevice SignatureCounter.zero.Increment).ID ∧
      d1.Algorithm = (testDevice SignatureCounter.zero.Increment).Algorithm ∧
      d1.Label = (testDevice SignatureCounter.zero.Increment).Label ∧
      d1.PublicKey = (testDevice SignatureCounter.zero.Increment).PublicKey ∧
      d1.PrivateKey = (testDevice SignatureCounter.zero.Increment).PrivateKey ∧
      ((∀ sres : SignatureResponse,
          RepositoryCall.Create testRequest ≠
            RepositoryCall.AddSignature (ascii "someid") sres) →
        d1 = testDevice SignatureCounter.zero.Increment ∧
        ((RepositoryCall.Create testRequest).after
            (testRepository SignatureCounter.zero.Increment)).deviceSignatures.lookup
            (ascii "someid") =
          (testRepository SignatureCounter.zero.Increment).deviceSignatures.lookup
            (ascii "someid")) ∧
      (∀ sres : SignatureResponse,
        RepositoryCall.Create testRequest =
          RepositoryCall.AddSignature (ascii "someid") sres →
        d1 = { testDevice SignatureCounter.zero.Increment with
          SignatureCounter :=
            (testDevice SignatureCounter.zero.Increment).SignatureCounter.Increment } ∧
        ((RepositoryCall.Create testRequest).after
            (testRepository SignatureCounter.zero.Increment)).deviceSignatures.lookup
            (ascii "someid") =
          some (((testRepository SignatureCounter.zero.Increment).deviceSignatures.lookup
            (ascii "someid")).getD [] ++ [sres]) ∧
        ∀ other : GoString, other ≠ ascii "someid" →
          ((RepositoryCall.Create testRequest).after
              (testRepository SignatureCounter.zero.Increment)).signatureDevice.lookup
              other =
            (testRepository SignatureCounter.zero.Increment).signatureDevice.lookup other ∧
          ((RepositoryCall.Create testRequest).after
              (testRepository SignatureCounter.zero.Increment)).deviceSignatures.lookup
              other =
            (testRepository SignatureCounter.zero.Increment).deviceSignatures.lookup
              other)) ∧
    ((RepositoryCall.AddSignature (ascii "someid") testLink).after
        (testRepository SignatureCounter.zero.Increment)).signatureDevice.lookup
        (ascii "someid") =
      some (testDevice SignatureCounter.zero.Increment.Increment) :=
  ⟨device_frame (testRepository SignatureCounter.zero.Increment)
      (RepositoryCall.Create testRequest) (ascii "someid")
      (testDevice SignatureCounter.zero.Increment) (by decide),
    by decide⟩

/-! ### Id uniqueness -/

/-- Every repository call keeps each device stored under its own ID. -/
theorem RepositoryCall.after_idIsKey (r : inMemorySignatureDeviceRepository)
    (c : RepositoryCall) (h : IdIsKey r) : IdIsKey (c.after r) := by
  intro id d hd
  cases c with
  | Create sdreq =>
      cases hl : r.signatureDevice.lookup sdreq.ID with
      | some d0 =>
          simp only [RepositoryCall.after, inMemorySignatureDeviceRepository.Create, hl] at hd
          exact h id d hd
      | none =>
          simp only [RepositoryCall.after, inMemorySignatureDeviceRepository.Create, hl] at hd
          by_cases hid : id = sdreq.ID
          · subst hid
            rw [AList.lookup_insert] at hd
            rw [← Option.some.inj hd]
          · rw [AList.lookup_insert_ne hid] at hd
            exact h id d hd
  | GetAll => exact h id d hd
  | Get deviceId =>
      cases hl : r.signatureDevice.lookup deviceId <;>
        simp only [RepositoryCall.after, inMemorySignatureDeviceRepository.Get, hl] at hd <;>
        exact h id d hd
  | GetAllSignature deviceId =>
      cases hl : r.deviceSignatures.lookup deviceId <;>
        simp only [RepositoryCall.after, inMemorySignatureDeviceRepository.GetAllSignature,
          hl] at hd <;>
        exact h id d hd
  | AddSignature deviceId sres =>
      cases hl : r.signatureDevice.lookup deviceId with
      | none =>
          simp only [RepositoryCall.after, inMemorySignatureDeviceRepository.AddSignature,
            inMemorySignatureDeviceRepository.Get, hl] at hd
          exact h id d hd
      | some d0 =>
          simp only [RepositoryCall.after, inMemorySignatureDeviceRepository.AddSignature,
            inMemorySignatureDeviceRepository.Get, hl] at hd
          by_cases hid : id = deviceId
          · subst hid
            rw [AList.lookup_insert] at hd
            rw [← Option.some.inj hd]
            exact h id d0 hl
          · rw [AList.lookup_insert_ne hid] at hd
            exact h id d hd

/-- Sequences of repository calls keep each device stored under its own ID. -/
theorem runRepository_idIsKey (cs : List RepositoryCall) :
    ∀ r : inMemorySignatureDeviceRepository, IdIsKey r → IdIsKey (runRepository r cs) := by
  induction cs with
  | nil => intro r h; exact h
  | cons c cs ih => intro r h; exact ih _ (RepositoryCall.after_idIsKey r c h)

/-- C17 (id uniqueness).  Let `r` be the repository after any sequence of
repository calls (`Create`, `AddSignature` and the reads) on the empty
repository.  Every device of `r` has as `ID` the key it is stored under; hence
whatever the order in which `GetAll` visits the map, the ids of the devices it
returns are pairwise distinct; and `Create` with an id that a `Create` of the
sequence accepted returns `ErrSignatureDeviceAlreadyExist`. -/
theorem id_unique_reached (cs : List RepositoryCall) :
    (∀ (id : GoString) (d : SignatureDeviceResponse),
      (runRepository NewInMemorySignatureDeviceRepository cs).signatureDevice.lookup id =
        some d → d.ID = id) ∧
    (∀ (order : List (Sigma fun _ : GoString => SignatureDeviceResponse))
        (l : List SignatureDeviceResponse),
      order.Perm
        (runRepository NewInMemorySignatureDeviceRepository cs).signatureDevice.entries →
      GetAllRange order = (some l, none) →
        (l.map (fun d => d.ID)).Nodup) ∧
    (∀ sdreq : SignatureDeviceRequest,
      sdreq.ID ∈ createdIDs NewInMemorySignatureDeviceRepository cs →
        (runRepository NewInMemorySignatureDeviceRepository cs).Create sdreq =
          (runRepository NewInMemorySignatureDeviceRepository cs,
            SignatureDeviceResponse.zero, some Error.ErrSignatureDeviceAlreadyExist)) := by
  have hinv : IdIsKey (runRepository NewInMemorySignatureDeviceRepository cs) := by
    apply runRepository_idIsKey
    intro id d hd
    simp [NewInMemorySignatureDeviceRepository] at hd
  refine ⟨hinv, ?_, ?_⟩
  · intro order l horder hl
    simp only [GetAllRange, foldl_append_devices, List.nil_append, Prod.mk.injEq,
      Option.some.injEq, and_true] at hl
    subst hl
    have hkeys : (order.map (fun e => e.2)).map (fun d => d.ID) = order.map (fun e => e.1) := by
      rw [List.map_map]
      apply List.map_congr_left
      intro e he
      have hmem : Sigma.mk e.1 e.2 ∈
          (runRepository NewInMemorySignatureDeviceRepository cs).signatureDevice.entries :=
        horder.subset he
      exact hinv e.1 e.2 (AList.mem_lookup_iff.mpr hmem)
    rw [hkeys]
    have hperm : (order.map (fun e => e.1)).Perm
        ((runRepository NewInMemorySignatureDeviceRepository cs).signatureDevice.entries.map
          (fun e => e.1)) := horder.map _
    exact hperm.nodup_iff.mpr
      (runRepository NewInMemorySignatureDeviceRepository cs).signatureDevice.keys_nodup
  · intro sdreq hin
    have hmem := (runRepository_mem cs sdreq.ID NewInMemorySignatureDeviceRepository).mpr
      (Or.inr hin)
    obtain ⟨d, hd⟩ := Option.isSome_iff_exists.mp (AList.lookup_isSome.mpr hmem)
    simp only [inMemorySignatureDeviceRepository.Create, hd]

/-- Witness of C17: after `Create` of `"someid"` and one `AddSignature`, the
device is stored under its ID, `GetAll` returns distinct ids, and a second
`Create` of `"someid"` fails. -/
theorem id_unique_reached_witness :
    (testDevice SignatureCounter.zero.Increment).ID = ascii "someid" ∧
    ([testDevice SignatureCounter.zero.Increment].map (fun d => d.ID)).Nodup ∧
    (runRepository NewInMemorySignatureDeviceRepository
        [RepositoryCall.Create testRequest,
          RepositoryCall.AddSignature (ascii "someid") testLink]).Create testRequest =
      (runRepository NewInMemorySignatureDeviceRepository
          [RepositoryCall.Create testRequest,
            RepositoryCall.AddSignature (ascii "someid") testLink],
        SignatureDeviceResponse.zero, some Error.ErrSignatureDeviceAlreadyExist) :=
  ⟨(id_unique_reached
      [RepositoryCall.Create testRequest,
        RepositoryCall.AddSignature (ascii "someid") testLink]).1 (ascii "someid")
      (testDevice SignatureCounter.zero.Increment) (by decide),
    (id_unique_reached
      [RepositoryCall.Create testRequest,
        RepositoryCall.AddSignature (ascii "someid") testLink]).2.1
      (runRepository NewInMemorySignatureDeviceRepository
        [RepositoryCall.Create testRequest,
          RepositoryCall.AddSignature (ascii "someid") testLink]).signatureDevice.entries
      [testDevice SignatureCounter.zero.Increment] (List.Perm.refl _) (by decide),
    (id_unique_reached
      [RepositoryCall.Create testRequest,
        RepositoryCall.AddSignature (ascii "someid") testLink]).2.2 testRequest
      (by decide)⟩

/-! ### The handlers -/

/-- `WriteErrorResponse` responds with the code it is given. -/
theorem WriteErrorResponse_status (code : Nat) (errors : List GoString) :
    (WriteErrorResponse code errors).status = some code := rfl

/-- `WriteAPIResponse` responds with the code it is given, unless encoding the
data panics. -/
theorem WriteAPIResponse_status (code : Nat) (data : ResponseData) :
    (WriteAPIResponse code data).status = some code ∨
      ∃ reason : String, data.toJSON = Outcome.panicked reason ∧
        WriteAPIResponse code data = Handled.panicked reason := by
  unfold WriteAPIResponse
  cases h : data.toJSON with
  | panicked reason => exact Or.inr ⟨reason, rfl, rfl⟩
  | returned doc err =>
      cases err with
      | some e => exact Or.inl rfl
      | none => exact Or.inl rfl

/-- A device whose algorithm is RSA or ECC is encoded without panic. -/
theorem toJSON_of_valid (d : SignatureDeviceResponse)
    (h : d.Algorithm = SignatureAlgorithmRSA ∨ d.Algorithm = SignatureAlgorithmECC) :
    ∃ doc : JSON, d.toJSON = Outcome.returned doc none := by
  rcases h with h | h <;>
    simp only [SignatureDeviceResponse.toJSON, h] <;>
    exact ⟨_, rfl⟩

/-- The error-to-status mapping of the four handlers, wherever a response is
written: every error outcome of the service is answered by 404 (409 for
`CreateSignatureDevice`) when `errors.Is` finds the sentinel error and by 503
otherwise; a success of `SignTransaction` or `GetAllSignature` is answered by
200; a success of `Get` or `Create` is answered by 200 or 201 when the returned
device has the algorithm RSA or ECC. -/
theorem status_mapping {σ : Type} (s : Server σ) (st st1 : σ) (deviceId data : GoString)
    (sdreq : SignatureDeviceRequest) :
    (∀ (v : SignatureDeviceResponse) (err : Option Error),
      s.signatureDeviceService.Get st deviceId = (st1, Outcome.returned v err) →
      (err = none → v.Algorithm = SignatureAlgorithmRSA ∨
        v.Algorithm = SignatureAlgorithmECC) →
        (s.GetSignatureDevice st deviceId).2.status = some (expectedStatusById err)) ∧
    (∀ (v : SignatureResponse) (err : Option Error),
      s.signatureDeviceService.SignTransaction st deviceId data =
        (st1, Outcome.returned v err) →
        (s.SignTransaction st deviceId (data, none)).2.status =
          some (expectedStatusById err)) ∧
    (∀ (v : GoSlice SignatureResponse) (err : Option Error),
      s.signatureDeviceService.GetAllSignature st deviceId =
        (st1, Outcome.returned v err) →
        (s.GetDeviceSignatures st deviceId).2.status = some (expectedStatusById err)) ∧
    (∀ (v : SignatureDeviceResponse) (err : Option Error),
      s.signatureDeviceService.Create st sdreq = (st1, Outcome.returned v err) →
      (err = none → v.Algorithm = SignatureAlgorithmRSA ∨
        v.Algorithm = SignatureAlgorithmECC) →
        (s.CreateSignatureDevice st (sdreq, none)).2.status =
          some (expectedStatusCreate err)) := by
  refine ⟨?_, ?_, ?_, ?_⟩
  · intro v err h hv
    cases err with
    | some e =>
        by_cases he : errorsIs e Error.ErrSignatureDeviceNotFound = true <;>
          simp [Server.GetSignatureDevice, h, he, expectedStatusById, WriteErrorResponse_status,
            StatusNotFound, StatusServiceUnavailable]
    | none =>
        obtain ⟨doc, hdoc⟩ := toJSON_of_valid v (hv rfl)
        simp [Server.GetSignatureDevice, h, expectedStatusById, WriteAPIResponse,
          ResponseData.toJSON, hdoc, Handled.status, StatusOK]
  · intro v err h
    cases err with
    | some e =>
        by_cases he : errorsIs e Error.ErrSignatureDeviceNotFound = true <;>
          simp [Server.SignTransaction, h, he, expectedStatusById, WriteErrorResponse_status,
            StatusNotFound, StatusServiceUnavailable]
    | none =>
        simp [Server.SignTransaction, h, expectedStatusById, WriteAPIResponse,
          ResponseData.toJSON, Handled.status, StatusOK]
  · intro v err h
    cases err with
    | some e =>
        by_cases he : errorsIs e Error.ErrSignatureDeviceNotFound = true <;>
          simp [Server.GetDeviceSignatures, h, he, expectedStatusById,
            WriteErrorResponse_status, StatusNotFound, StatusServiceUnavailable]
    | none =>
        cases v <;>
          simp [Server.GetDeviceSignatures, h, expectedStatusById, WriteAPIResponse,
            ResponseData.toJSON, Handled.status, StatusOK]
  · intro v err h hv
    cases err with
    | some e =>
        by_cases he : errorsIs e Error.ErrSignatureDeviceAlreadyExist = true <;>
          simp [Server.CreateSignatureDevice, h, he, expectedStatusCreate,
            WriteErrorResponse_status, StatusConflict, StatusServiceUnavailable]
    | none =>
        obtain ⟨doc, hdoc⟩ := toJSON_of_valid v (hv rfl)
        simp [Server.CreateSignatureDevice, h, expectedStatusCreate, WriteAPIResponse,
          ResponseData.toJSON, hdoc, Handled.status, StatusCreated]

/-- The three failure statuses are pairwise distinct, and each expected status
identifies its cause: 404 exactly for an error that is
`ErrSignatureDeviceNotFound`, 409 exactly for an error that is
`ErrSignatureDeviceAlreadyExist`. -/
theorem expected_status_distinct (err : Option Error) :
    StatusNotFound ≠ StatusConflict ∧ StatusNotFound ≠ StatusServiceUnavailable ∧
    StatusConflict ≠ StatusServiceUnavailable ∧
    (expectedStatusById err = StatusNotFound ↔
      ∃ e : Error, err = some e ∧ errorsIs e Error.ErrSignatureDeviceNotFound = true) ∧
    (expectedStatusById err = StatusOK ↔ err = none) ∧
    (expectedStatusCreate err = StatusConflict ↔
      ∃ e : Error, err = some e ∧ errorsIs e Error.ErrSignatureDeviceAlreadyExist = true) ∧
    (expectedStatusCreate err = StatusCreated ↔ err = none) := by
  refine ⟨by decide, by decide, by decide, ?_, ?_, ?_, ?_⟩
  · cases err with
    | none => simp [expectedStatusById, StatusNotFound]
    | some e =>
        by_cases he : errorsIs e Error.ErrSignatureDeviceNotFound = true <;>
          simp [expectedStatusById, StatusNotFound, he]
  · cases err with
    | none => simp [expectedStatusById, StatusOK]
    | some e =>
        by_cases he : errorsIs e Error.ErrSignatureDeviceNotFound = true <;>
          simp [expectedStatusById, StatusOK, he]
  · cases err with
    | none => simp [expectedStatusCreate, StatusConflict]
    | some e =>
        by_cases he : errorsIs e Error.ErrSignatureDeviceAlreadyExist = true <;>
          simp [expectedStatusCreate, StatusConflict, he]
  · cases err with
    | none => simp [expectedStatusCreate, StatusCreated]
    | some e =>
        by_cases he : errorsIs e Error.ErrSignatureDeviceAlreadyExist = true <;>
          simp [expectedStatusCreate, StatusCreated, he]

/-- The cases of `TestServer_GetSignatureDevice`: 200 for the found device, 404
for `ErrSignatureDeviceNotFound`; and 503 for another error, 404 for a wrapped
`ErrSignatureDeviceNotFound`, 409 for `ErrSignatureDeviceAlreadyExist`. -/
theorem test_GetSignatureDevice :
    (Server.GetSignatureDevice ⟨mockAPIService none⟩ () (ascii "someid")).2.status =
        some 200 ∧
    (Server.GetSignatureDevice ⟨mockAPIService (some Error.ErrSignatureDeviceNotFound)⟩ ()
        (ascii "someid")).2.status = some 404 ∧
    (Server.GetSignatureDevice ⟨mockAPIService (some (Error.other "boom"))⟩ ()
        (ascii "someid")).2.status = some 503 ∧
    (Server.GetSignatureDevice
        ⟨mockAPIService (some (Error.wrapped "get" Error.ErrSignatureDeviceNotFound))⟩ ()
        (ascii "someid")).2.status = some 404 ∧
    (Server.CreateSignatureDevice
        ⟨mockAPIService (some Error.ErrSignatureDeviceAlreadyExist)⟩ ()
        (testRequest, none)).2.status = some 409 := by
  decide

/-- C19 (error-to-status mapping): where the code departs from it.  When the
service's `Get` (or `Create`) succeeds with a device whose algorithm value is
5, the handler `GetSignatureDevice` (or `CreateSignatureDevice`) does not
answer 200 (or 201): encoding the device panics in `MarshalJSON` and no
response is written. -/
theorem handler_panics_on_invalid_algorithm :
    invalidAlgorithmService.Get () (ascii "someid") =
        ((), Outcome.returned invalidAlgorithmDevice none) ∧
    Server.GetSignatureDevice ⟨invalidAlgorithmService⟩ () (ascii "someid") =
        ((), Handled.panicked "index out of range") ∧
    (Server.GetSignatureDevice ⟨invalidAlgorithmService⟩ () (ascii "someid")).2.status ≠
        some (expectedStatusById none) ∧
    Server.CreateSignatureDevice ⟨invalidAlgorithmService⟩ () (testRequest, none) =
        ((), Handled.panicked "index out of range") ∧
    (Server.CreateSignatureDevice ⟨invalidAlgorithmService⟩ ()
        (testRequest, none)).2.status ≠ some (expectedStatusCreate none) := by
  refine ⟨rfl, rfl, ?_, rfl, ?_⟩ <;> decide

/-! ### Key material in responses -/

/-- A finished call does nothing more. -/
theorem SignCall.runAlone_finished (r : inMemorySignatureDeviceRepository)
    (deviceId data : GoString) (f : SignerFactory) (out : Outcome SignatureResponse)
    (n : Nat) :
    SignCall.runAlone r
        { deviceId := deviceId, data := data, factory := f,
          stage := SignStage.finished out } n =
      (r, { deviceId := deviceId, data := data, factory := f,
            stage := SignStage.finished out }) := by
  induction n with
  | zero => rfl
  | succ m ih => simpa only [SignCall.runAlone, SignCall.step] using ih

/-- From the local signing on, the locked regions of a call run alone are the
second half of `SignTransaction`. -/
theorem SignCall.runAlone_signLocally (f : SignerFactory)
    (r : inMemorySignatureDeviceRepository) (deviceId data : GoString)
    (sdr d : SignatureDeviceResponse) (signer : Option Signer) (ref : GoString) (n : Nat)
    (hd : r.signatureDevice.lookup deviceId = some d) :
    (SignCall.runAlone r
        { deviceId := deviceId, data := data, factory := f,
          stage := signLocally data sdr signer ref } (n + 2)).1 =
      ((inMemoryService f).signAndStore r deviceId data sdr signer ref).1 ∧
    (SignCall.runAlone r
        { deviceId := deviceId, data := data, factory := f,
          stage := signLocally data sdr signer ref } (n + 2)).2.stage =
      SignStage.finished
        ((inMemoryService f).signAndStore r deviceId data sdr signer ref).2 := by
  simp only [signLocally, signatureDeviceService.signAndStore]
  generalize sprintfSecured sdr.SignatureCounter.val data (base64Std ref) = payload
  cases signer with
  | none =>
      simp only [SignCall.runAlone_finished, and_self]
  | some sg =>
      rcases hS : sg.Sign payload with ⟨sig, es⟩
      cases es with
      | some e =>
          simp only [hS, SignCall.runAlone_finished, and_self]
      | none =>
          have h1 : SignCall.step r
              { deviceId := deviceId, data := data, factory := f,
                stage := SignStage.addSignatureGet
                  { Signature := base64Std sig, SignedData := payload } } =
              (r, { deviceId := deviceId, data := data, factory := f,
                    stage := SignStage.addSignatureUpdate
                      { Signature := base64Std sig, SignedData := payload } d }) := by
            simp only [SignCall.step, inMemorySignatureDeviceRepository.Get, hd]
          simp only [hS]
          simp only [SignCall.runAlone, h1]
          simp only [SignCall.step, SignCall.runAlone_finished, inMemoryService,
            inMemorySignatureDeviceRepository.repository,
            inMemorySignatureDeviceRepository.AddSignature,
            inMemorySignatureDeviceRepository.Get, hd, and_self]

/-- The locked regions of one call, run without interruption, are the method
`SignTransaction`: after four regions the call has finished with the outcome
of the method and the repository is the one the method leaves. -/
theorem runAlone_eq_SignTransaction (f : SignerFactory)
    (r : inMemorySignatureDeviceRepository) (deviceId data : GoString) :
    (SignCall.runAlone r
        { deviceId := deviceId, data := data, factory := f, stage := SignStage.start } 4).1 =
      ((inMemoryService f).SignTransaction r deviceId data).1 ∧
    (SignCall.runAlone r
        { deviceId := deviceId, data := data, factory := f,
          stage := SignStage.start } 4).2.stage =
      SignStage.finished ((inMemoryService f).SignTransaction r deviceId data).2 := by
  cases hG : r.signatureDevice.lookup deviceId with
  | none =>
      simp only [SignCall.runAlone, SignCall.step, signatureDeviceService.SignTransaction,
        inMemoryService, inMemorySignatureDeviceRepository.repository,
        inMemorySignatureDeviceRepository.Get, hG, SignCall.runAlone_finished, and_self]
  | some d =>
      rcases hF : f.CreateSigner d.Algorithm d.PrivateKey with ⟨signer, ef⟩
      cases ef with
      | some e1 =>
          simp only [SignCall.runAlone, SignCall.step, signatureDeviceService.SignTransaction,
            inMemoryService, inMemorySignatureDeviceRepository.repository,
            inMemorySignatureDeviceRepository.Get, hG, hF, SignCall.runAlone_finished,
            and_self]
      | none =>
          by_cases hc : d.SignatureCounter.Value = 0
          · have hrun : (inMemoryService f).SignTransaction r deviceId data =
                (inMemoryService f).signAndStore r deviceId data d signer d.ID := by
              simp [signatureDeviceService.SignTransaction, inMemoryService,
                inMemorySignatureDeviceRepository.repository,
                inMemorySignatureDeviceRepository.Get, hG, hF, hc]
            have h1 : SignCall.step r
                { deviceId := deviceId, data := data, factory := f,
                  stage := SignStage.start } =
                (r, { deviceId := deviceId, data := data, factory := f,
                      stage := signLocally data d signer d.ID }) := by
              simp only [SignCall.step, inMemorySignatureDeviceRepository.Get, hG, hF, hc,
                if_true]
            have hstep : SignCall.runAlone r
                { deviceId := deviceId, data := data, factory := f,
                  stage := SignStage.start } 4 =
                SignCall.runAlone r
                  { deviceId := deviceId, data := data, factory := f,
                    stage := signLocally data d signer d.ID } (1 + 2) := by
              show SignCall.runAlone (SignCall.step r _).1 (SignCall.step r _).2 3 = _
              rw [h1]
            rw [hrun, hstep]
            exact SignCall.runAlone_signLocally f r deviceId data d d signer d.ID 1 hG
          · have h1 : SignCall.step r
                { deviceId := deviceId, data := data, factory := f,
                  stage := SignStage.start } =
                (r, { deviceId := deviceId, data := data, factory := f,
                      stage := SignStage.readHistory d signer }) := by
              simp only [SignCall.step, inMemorySignatureDeviceRepository.Get, hG, hF, hc,
                if_false]
            have hstep : SignCall.runAlone r
                { deviceId := deviceId, data := data, factory := f,
                  stage := SignStage.start } 4 =
                SignCall.runAlone r
                  { deviceId := deviceId, data := data, factory := f,
                    stage := SignStage.readHistory d signer } 3 := by
              show SignCall.runAlone (SignCall.step r _).1 (SignCall.step r _).2 3 = _
              rw [h1]
            rw [hstep]
            cases hS : r.deviceSignatures.lookup deviceId with
            | none =>
                have h2 : SignCall.step r
                    { deviceId := deviceId, data := data, factory := f,
                      stage := SignStage.readHistory d signer } =
                    (r, { deviceId := deviceId, data := data, factory := f,
                          stage := SignStage.finished
                            (Outcome.returned SignatureResponse.zero
                              (some Error.ErrSignatureDeviceNotFound)) }) := by
                  simp only [SignCall.step, inMemorySignatureDeviceRepository.GetAllSignature,
                    hS]
                have hstep2 : SignCall.runAlone r
                    { deviceId := deviceId, data := data, factory := f,
                      stage := SignStage.readHistory d signer } 3 =
                    SignCall.runAlone r
                      { deviceId := deviceId, data := data, factory := f,
                        stage := SignStage.finished
                          (Outcome.returned SignatureResponse.zero
                            (some Error.ErrSignatureDeviceNotFound)) } 2 := by
                  show SignCall.runAlone (SignCall.step r _).1 (SignCall.step r _).2 2 = _
                  rw [h2]
                rw [hstep2, SignCall.runAlone_finished]
                simp [signatureDeviceService.SignTransaction, inMemoryService,
                  inMemorySignatureDeviceRepository.repository,
                  inMemorySignatureDeviceRepository.Get,
                  inMemorySignatureDeviceRepository.GetAllSignature, hG, hF, hc, hS]
            | some l =>
                cases hlast : l.getLast? with
                | none =>
                    have h2 : SignCall.step r
                        { deviceId := deviceId, data := data, factory := f,
                          stage := SignStage.readHistory d signer } =
                        (r, { deviceId := deviceId, data := data, factory := f,
                              stage := SignStage.finished
                                (Outcome.panicked "index out of range [-1]") }) := by
                      simp only [SignCall.step,
                        inMemorySignatureDeviceRepository.GetAllSignature, hS, hlast]
                    have hstep2 : SignCall.runAlone r
                        { deviceId := deviceId, data := data, factory := f,
                          stage := SignStage.readHistory d signer } 3 =
                        SignCall.runAlone r
                          { deviceId := deviceId, data := data, factory := f,
                            stage := SignStage.finished
                              (Outcome.panicked "index out of range [-1]") } 2 := by
                      show SignCall.runAlone (SignCall.step r _).1 (SignCall.step r _).2 2 = _
                      rw [h2]
                    rw [hstep2, SignCall.runAlone_finished]
                    simp [signatureDeviceService.SignTransaction, inMemoryService,
                      inMemorySignatureDeviceRepository.repository,
                      inMemorySignatureDeviceRepository.Get,
                      inMemorySignatureDeviceRepository.GetAllSignature, hG, hF, hc, hS,
                      hlast]
                | some last =>
                    have hrun : (inMemoryService f).SignTransaction r deviceId data =
                        (inMemoryService f).signAndStore r deviceId data d signer
                          last.Signature := by
                      simp [signatureDeviceService.SignTransaction, inMemoryService,
                        inMemorySignatureDeviceRepository.repository,
                        inMemorySignatureDeviceRepository.Get,
                        inMemorySignatureDeviceRepository.GetAllSignature, hG, hF, hc, hS,
                        hlast]
                    have h2 : SignCall.step r
                        { deviceId := deviceId, data := data, factory := f,
                          stage := SignStage.readHistory d signer } =
                        (r, { deviceId := deviceId, data := data, factory := f,
                              stage := signLocally data d signer last.Signature }) := by
                      simp only [SignCall.step,
                        inMemorySignatureDeviceRepository.GetAllSignature, hS, hlast]
                    have hstep2 : SignCall.runAlone r
                        { deviceId := deviceId, data := data, factory := f,
                          stage := SignStage.readHistory d signer } 3 =
                        SignCall.runAlone r
                          { deviceId := deviceId, data := data, factory := f,
                            stage := signLocally data d signer last.Signature } (0 + 2) := by
                      show SignCall.runAlone (SignCall.step r _).1 (SignCall.step r _).2 2 = _
                      rw [h2]
                    rw [hrun, hstep2]
                    exact SignCall.runAlone_signLocally f r deviceId data d d signer
                      last.Signature 0 hG

/-- The race of C20.  On the repository holding the fresh device `"d1"`
(counter 0, empty chain), two concurrent calls `SignTransaction("d1", "a")` and
`SignTransaction("d1", "b")` both succeed under each of the two interleavings
below, and yet:
* when both calls run `Get` before either runs `AddSignature` (schedule
  `0, 1, 0, 0, 1, 1`), the counter ends at 2 but both links carry the counter 0
  and the reference of the device id: position 0 is duplicated, position 1 is
  skipped;
* when in addition both calls run the `Get` inside `AddSignature` before either
  runs its update (schedule `0, 1, 0, 1, 0, 1`), the counter ends at 1 with a
  chain of 2 links.
Run one after the other (schedule `0, 0, 0, 1, 1, 1, 1`) the same calls give
the counter 2 and the chain `0_a_..`, `1_b_..`. -/
theorem concurrent_sign_race :
    ((runSchedule freshDeviceRepository twoConcurrentCalls [0, 1, 0, 0, 1, 1]).2.map
        SignCall.outcome =
      [some (Outcome.returned
          { Signature := ascii "dGhlc2lnbmF0dXJl", SignedData := ascii "0_a_ZDE=" } none),
        some (Outcome.returned
          { Signature := ascii "dGhlc2lnbmF0dXJl", SignedData := ascii "0_b_ZDE=" } none)] ∧
      ((runSchedule freshDeviceRepository twoConcurrentCalls
          [0, 1, 0, 0, 1, 1]).1.signatureDevice.lookup (ascii "d1")).map
          (fun d => d.SignatureCounter.Value) = some 2 ∧
      (runSchedule freshDeviceRepository twoConcurrentCalls
          [0, 1, 0, 0, 1, 1]).1.deviceSignatures.lookup (ascii "d1") =
        some
          [{ Signature := ascii "dGhlc2lnbmF0dXJl", SignedData := ascii "0_a_ZDE=" },
            { Signature := ascii "dGhlc2lnbmF0dXJl", SignedData := ascii "0_b_ZDE=" }]) ∧
    ((runSchedule freshDeviceRepository twoConcurrentCalls [0, 1, 0, 1, 0, 1]).2.map
        SignCall.outcome =
      [some (Outcome.returned
          { Signature := ascii "dGhlc2lnbmF0dXJl", SignedData := ascii "0_a_ZDE=" } none),
        some (Outcome.returned
          { Signature := ascii "dGhlc2lnbmF0dXJl", SignedData := ascii "0_b_ZDE=" } none)] ∧
      ((runSchedule freshDeviceRepository twoConcurrentCalls
          [0, 1, 0, 1, 0, 1]).1.signatureDevice.lookup (ascii "d1")).map
          (fun d => d.SignatureCounter.Value) = some 1 ∧
      ((runSchedule freshDeviceRepository twoConcurrentCalls
          [0, 1, 0, 1, 0, 1]).1.deviceSignatures.lookup (ascii "d1")).map List.length =
        some 2) ∧
    (((runSchedule freshDeviceRepository twoConcurrentCalls
          [0, 0, 0, 1, 1, 1, 1]).1.signatureDevice.lookup (ascii "d1")).map
          (fun d => d.SignatureCounter.Value) = some 2 ∧
      (runSchedule freshDeviceRepository twoConcurrentCalls
          [0, 0, 0, 1, 1, 1, 1]).1.deviceSignatures.lookup (ascii "d1") =
        some
          [{ Signature := ascii "dGhlc2lnbmF0dXJl", SignedData := ascii "0_a_ZDE=" },
            { Signature := ascii "dGhlc2lnbmF0dXJl",
              SignedData := ascii "1_b_ZEdobGMybG5ibUYwZFhKbA==" }]) := by
  decide

/-! ### Concurrent AddSignature -/

/-- The two locked regions of one call, run without interruption, are the
method `AddSignature`. -/
theorem AddCall.step_step_eq_AddSignature (r : inMemorySignatureDeviceRepository)
    (deviceId : GoString) (sres : SignatureResponse) :
    (AddCall.step
        (AddCall.step r { deviceId := deviceId, sres := sres, stage := AddStage.get }).1
        (AddCall.step r { deviceId := deviceId, sres := sres, stage := AddStage.get }).2).1 =
      (r.AddSignature deviceId sres).1 ∧
    (AddCall.step
        (AddCall.step r { deviceId := deviceId, sres := sres, stage := AddStage.get }).1
        (AddCall.step r
          { deviceId := deviceId, sres := sres, stage := AddStage.get }).2).2.stage =
      AddStage.finished (r.AddSignature deviceId sres).2.1 (r.AddSignature deviceId sres).2.2 := by
  cases h : r.signatureDevice.lookup deviceId with
  | none =>
      have h1 : AddCall.step r { deviceId := deviceId, sres := sres, stage := AddStage.get } =
          (r, { deviceId := deviceId, sres := sres,
                stage := AddStage.finished SignatureDeviceResponse.zero
                  (some Error.ErrSignatureDeviceNotFound) }) := by
        simp only [AddCall.step, inMemorySignatureDeviceRepository.Get, h]
      rw [h1]
      simp only [AddCall.step, inMemorySignatureDeviceRepository.AddSignature,
        inMemorySignatureDeviceRepository.Get, h, and_self]
  | some d =>
      have h1 : AddCall.step r { deviceId := deviceId, sres := sres, stage := AddStage.get } =
          (r, { deviceId := deviceId, sres := sres, stage := AddStage.update d }) := by
        simp only [AddCall.step, inMemorySignatureDeviceRepository.Get, h]
      rw [h1]
      simp only [AddCall.step, inMemorySignatureDeviceRepository.AddSignature,
        inMemorySignatureDeviceRepository.Get, h, and_self]

/-- Whatever the repository, for a device `d` stored under `id`: when two
concurrent calls `AddSignature(id, a)` and `AddSignature(id, b)` both run
their `Get` before either runs its update, both return a nil error, both links
are appended, and the stored counter is the counter of `d` incremented once. -/
theorem lost_update (r : inMemorySignatureDeviceRepository) (id : GoString)
    (d : SignatureDeviceResponse) (a b : SignatureResponse)
    (hd : r.signatureDevice.lookup id = some d) :
    (runAddSchedule r
        [{ deviceId := id, sres := a, stage := AddStage.get },
          { deviceId := id, sres := b, stage := AddStage.get }] [0, 1, 0, 1]).1 =
      { signatureDevice :=
          (r.signatureDevice.insert id
            { d with SignatureCounter := d.SignatureCounter.Increment }).insert id
            { d with SignatureCounter := d.SignatureCounter.Increment },
        deviceSignatures :=
          (r.deviceSignatures.insert id
            ((r.deviceSignatures.lookup id).getD [] ++ [a])).insert id
            ((r.deviceSignatures.lookup id).getD [] ++ [a] ++ [b]) } ∧
    (runAddSchedule r
        [{ deviceId := id, sres := a, stage := AddStage.get },
          { deviceId := id, sres := b, stage := AddStage.get }] [0, 1, 0, 1]).2 =
      [{ deviceId := id, sres := a,
         stage := AddStage.finished
           { d with SignatureCounter := d.SignatureCounter.Increment } none },
        { deviceId := id, sres := b,
          stage := AddStage.finished
            { d with SignatureCounter := d.SignatureCounter.Increment } none }] := by
  simp [runAddSchedule, AddCall.step, inMemorySignatureDeviceRepository.Get, hd,
    AList.lookup_insert]

/-- C21 (atomic AddSignature): where the code departs from it.  On the
repository of the `AddSignature` test (device `"someid"` with counter 1, no
links), two concurrent calls of `AddSignature` for `"someid"` that both run
their `Get` before either runs its update (schedule `0, 1, 0, 1`) both return a
nil error; the list has grown by the two links, but the counter ends at 2, not
at the initial counter plus 2, and differs from the length growth.  Run one
after the other (schedule `0, 0, 1, 1`) they end with the counter 3. -/
theorem AddSignature_lost_update :
    ((runAddSchedule (testRepository SignatureCounter.zero.Increment) twoAddCalls
        [0, 1, 0, 1]).1.signatureDevice.lookup (ascii "someid")).map
        (fun d => d.SignatureCounter.Value) = some 2 ∧
    (runAddSchedule (testRepository SignatureCounter.zero.Increment) twoAddCalls
        [0, 1, 0, 1]).1.deviceSignatures.lookup (ascii "someid") =
      some [testLink, otherLink] ∧
    (runAddSchedule (testRepository SignatureCounter.zero.Increment) twoAddCalls
        [0, 1, 0, 1]).2.map (fun t => t.stage) =
      [AddStage.finished (testDevice SignatureCounter.zero.Increment.Increment) none,
        AddStage.finished (testDevice SignatureCounter.zero.Increment.Increment) none] ∧
    ((runAddSchedule (testRepository SignatureCounter.zero.Increment) twoAddCalls
        [0, 1, 0, 1]).1.signatureDevice.lookup (ascii "someid")).map
        (fun d => d.SignatureCounter.Value) ≠
      some ((testDevice SignatureCounter.zero.Increment).SignatureCounter.Value + 2) ∧
    ((runAddSchedule (testRepository SignatureCounter.zero.Increment) twoAddCalls
        [0, 0, 1, 1]).1.signatureDevice.lookup (ascii "someid")).map
        (fun d => d.SignatureCounter.Value) = some 3 := by
  decide

/-! ### Unsupported algorithms at creation -/

/-- For an algorithm that is neither RSA nor ECC no case of the `switch` of
`generateKeyPair` runs: it returns nil keys and a nil error, whatever the key
generators would do. -/
theorem generateKeyPair_unsupported (k : KeyMaterial) (a : SignatureAlgorithm)
    (h1 : a ≠ SignatureAlgorithmRSA) (h2 : a ≠ SignatureAlgorithmECC) :
    generateKeyPair k a = ([], [], none) := by
  simp only [generateKeyPair, h1, h2, if_false]

/-- For a request whose algorithm is neither RSA nor ECC and whose id is new,
the service's `Create` over the in-memory repository returns a nil error and
stores the device, with its unsupported algorithm and with nil keys. -/
theorem Create_stores_unsupported (f : SignerFactory) (k : KeyMaterial) (newID : GoString)
    (r : inMemorySignatureDeviceRepository) (sdreq : SignatureDeviceRequest)
    (h1 : sdreq.Algorithm ≠ SignatureAlgorithmRSA)
    (h2 : sdreq.Algorithm ≠ SignatureAlgorithmECC)
    (hnew : (if sdreq.ID = [] then newID else sdreq.ID) ∉ r.signatureDevice) :
    ((inMemoryService f).Create k newID r sdreq).2 =
        ({ ID := if sdreq.ID = [] then newID else sdreq.ID,
           Algorithm := sdreq.Algorithm, Label := sdreq.Label,
           SignatureCounter := SignatureCounter.zero,
           PrivateKey := [], PublicKey := [] }, none) ∧
    ((inMemoryService f).Create k newID r sdreq).1.signatureDevice.lookup
        (if sdreq.ID = [] then newID else sdreq.ID) =
      some { ID := if sdreq.ID = [] then newID else sdreq.ID,
             Algorithm := sdreq.Algorithm, Label := sdreq.Label,
             SignatureCounter := SignatureCounter.zero,
             PrivateKey := [], PublicKey := [] } := by
  have hk := generateKeyPair_unsupported k sdreq.Algorithm h1 h2
  have hn := AList.lookup_eq_none.mpr hnew
  by_cases he : sdreq.ID = []
  · rw [if_pos he] at hn
    simp [signatureDeviceService.Create, he, hk, inMemoryService,
      inMemorySignatureDeviceRepository.repository, inMemorySignatureDeviceRepository.Create,
      hn]
    rw [if_pos he, AList.lookup_insert]
  · rw [if_neg he] at hn
    simp [signatureDeviceService.Create, he, hk, inMemoryService,
      inMemorySignatureDeviceRepository.repository, inMemorySignatureDeviceRepository.Create,
      hn]
    rw [if_neg he, AList.lookup_insert]

/-- C25 (only supported algorithms are stored): where the code departs from
it.  On the empty repository, the service's `Create` for the request
`{ID: "d5", Algorithm: 5}` returns a nil error and the device with algorithm 5
and nil keys, and that device is stored: `Get("d5")` returns it.  No key
generator produced its keys, and `SignTransaction` on it can only fail, with
the `ErrInvalidSignatureAlgorithm` of the signer factory. -/
theorem Create_accepts_invalid_algorithm :
    ((inMemoryService strictSignerFactory).Create exampleKeys (ascii "generated-id")
        NewInMemorySignatureDeviceRepository invalidAlgorithmRequest).2 =
      ({ ID := ascii "d5", Algorithm := 5, Label := [],
         SignatureCounter := SignatureCounter.zero, PrivateKey := [], PublicKey := [] },
        none) ∧
    (((inMemoryService strictSignerFactory).Create exampleKeys (ascii "generated-id")
        NewInMemorySignatureDeviceRepository invalidAlgorithmRequest).1.Get (ascii "d5")).2 =
      ({ ID := ascii "d5", Algorithm := 5, Label := [],
         SignatureCounter := SignatureCounter.zero, PrivateKey := [], PublicKey := [] },
        none) ∧
    ((inMemoryService strictSignerFactory).SignTransaction
        ((inMemoryService strictSignerFactory).Create exampleKeys (ascii "generated-id")
          NewInMemorySignatureDeviceRepository invalidAlgorithmRequest).1
        (ascii "d5") (ascii "hello")).2 =
      Outcome.returned SignatureResponse.zero
        (some Error.ErrInvalidSignatureAlgorithm) := by
  decide

/-! ### The lookup of the last signature -/

/-- The second half of `SignTransaction` never ends in the index panic. -/
theorem signAndStore_no_index_panic {σ : Type} (s : signatureDeviceService σ) (st : σ)
    (deviceId data : GoString) (sdr : SignatureDeviceResponse) (signer : Option Signer)
    (ref : GoString) :
    (s.signAndStore st deviceId data sdr signer ref).2 ≠
      Outcome.panicked "index out of range [-1]" := by
  simp only [signatureDeviceService.signAndStore]
  generalize sprintfSecured sdr.SignatureCounter.val data (base64Std ref) = payload
  cases signer with
  | none =>
      intro h
      simp only [Outcome.panicked.injEq] at h
      exact absurd h (by decide)
  | some sg =>
      rcases hS : sg.Sign payload with ⟨sig, es⟩
      cases es with
      | some e => simp [hS]
      | none =>
          rcases hA : s.signatureDeviceRepository.AddSignature st deviceId
            { Signature := base64Std sig, SignedData := payload } with ⟨st4, sdr4, ea⟩
          cases ea <;> simp [hS, hA]

/-- C23 (no out-of-range history access).  Let `r` be the repository after any
sequence of service calls on the empty in-memory repository.  For every device
of `r` whose counter is not 0, `GetAllSignature` of its id succeeds with a
non-empty list, so its last element exists; and for every id, data and signer
factory, `SignTransaction` on `r` does not end in the index-out-of-range panic
of `signatures[len(signatures)-1]`. -/
theorem history_lookup_defined (cs : List ServiceCall) (id data : GoString)
    (f : SignerFactory) :
    (∀ d : SignatureDeviceResponse,
      (runService NewInMemorySignatureDeviceRepository cs).signatureDevice.lookup id =
        some d →
      d.SignatureCounter.Value ≠ 0 →
        ∃ (l : List SignatureResponse) (last : SignatureResponse),
          (runService NewInMemorySignatureDeviceRepository cs).GetAllSignature id =
            (runService NewInMemorySignatureDeviceRepository cs, l, none) ∧
          l ≠ [] ∧ l.getLast? = some last) ∧
    ((inMemoryService f).SignTransaction
        (runService NewInMemorySignatureDeviceRepository cs) id data).2 ≠
      Outcome.panicked "index out of range [-1]" := by
  obtain ⟨_, _, hdev⟩ := runService_invariant_new cs
  have hfirst : ∀ d : SignatureDeviceResponse,
      (runService NewInMemorySignatureDeviceRepository cs).signatureDevice.lookup id =
        some d →
      d.SignatureCounter.Value ≠ 0 →
        ∃ (l : List SignatureResponse) (last : SignatureResponse),
          (runService NewInMemorySignatureDeviceRepository cs).deviceSignatures.lookup id =
            some l ∧
          l ≠ [] ∧ l.getLast? = some last := by
    intro d hd hc
    obtain ⟨_, l, hl, hcnt, _, _⟩ := hdev id d hd
    have hne : l ≠ [] := by
      intro hnil
      apply hc
      show d.SignatureCounter.val = 0
      rw [hcnt, hnil]
      rfl
    exact ⟨l, l.getLast hne, hl, hne, List.getLast?_eq_getLast l hne⟩
  constructor
  · intro d hd hc
    obtain ⟨l, last, hl, hne, hlast⟩ := hfirst d hd hc
    exact ⟨l, last, by simp only [inMemorySignatureDeviceRepository.GetAllSignature, hl],
      hne, hlast⟩
  · cases hG : (runService NewInMemorySignatureDeviceRepository cs).signatureDevice.lookup id with
    | none =>
        simp [signatureDeviceService.SignTransaction, inMemoryService,
          inMemorySignatureDeviceRepository.repository,
          inMemorySignatureDeviceRepository.Get, hG]
    | some d =>
        rcases hF : f.CreateSigner d.Algorithm d.PrivateKey with ⟨signer, ef⟩
        cases ef with
        | some e1 =>
            simp [signatureDeviceService.SignTransaction, inMemoryService,
              inMemorySignatureDeviceRepository.repository,
              inMemorySignatureDeviceRepository.Get, hG, hF]
        | none =>
            by_cases hc : d.SignatureCounter.Value = 0
            · have hrun : (inMemoryService f).SignTransaction
                  (runService NewInMemorySignatureDeviceRepository cs) id data =
                  (inMemoryService f).signAndStore
                    (runService NewInMemorySignatureDeviceRepository cs) id data d signer
                    d.ID := by
                simp [signatureDeviceService.SignTransaction, inMemoryService,
                  inMemorySignatureDeviceRepository.repository,
                  inMemorySignatureDeviceRepository.Get, hG, hF, hc]
              rw [hrun]
              exact signAndStore_no_index_panic _ _ _ _ _ _ _
            · obtain ⟨l, last, hl, _, hlast⟩ := hfirst d hG hc
              have hrun : (inMemoryService f).SignTransaction
                  (runService NewInMemorySignatureDeviceRepository cs) id data =
                  (inMemoryService f).signAndStore
                    (runService NewInMemorySignatureDeviceRepository cs) id data d signer
                    last.Signature := by
                simp [signatureDeviceService.SignTransaction, inMemoryService,
                  inMemorySignatureDeviceRepository.repository,
                  inMemorySignatureDeviceRepository.Get,
                  inMemorySignatureDeviceRepository.GetAllSignature, hG, hF, hc, hl, hlast]
              rw [hrun]
              exact signAndStore_no_index_panic _ _ _ _ _ _ _

/-- Witness of C23: in the example scenario the device `"d1"` has counter 2 and
a chain of two links, whose last element exists. -/
theorem history_lookup_defined_witness :
    ∃ (l : List SignatureResponse) (last : SignatureResponse),
      (runService NewInMemorySignatureDeviceRepository exampleCalls).GetAllSignature
          (ascii "d1") =
        (runService NewInMemorySignatureDeviceRepository exampleCalls, l, none) ∧
      l ≠ [] ∧ l.getLast? = some last :=
  (history_lookup_defined exampleCalls (ascii "d1") (ascii "again") mockSignerFactory).1
    exampleDevice (by decide) (by decide)

/-! ### The signed payload is unambiguous -/

/-- The byte of a digit below 10 is `48 + d`. -/
theorem digitByte_val (d : Nat) (h : d < 10) : (digitByte d).val = 48 + d := by
  simp only [digitByte, Fin.ofNat, Fin.val_mk]
  omega

/-- Every byte of the decimal digits is an ASCII digit. -/
theorem decimalDigits_digit (fuel : Nat) :
    ∀ (n : Nat) (b : Byte), b ∈ decimalDigits fuel n → 48 ≤ b.val ∧ b.val ≤ 57 := by
  induction fuel with
  | zero => intro n b hb; simp [decimalDigits] at hb
  | succ k ih =>
      intro n b hb
      simp only [decimalDigits] at hb
      split at hb
      · next hlt =>
        rw [List.mem_singleton] at hb
        rw [hb, digitByte_val n hlt]
        omega
      · rw [List.mem_append, List.mem_singleton] at hb
        rcases hb with hb | hb
        · exact ih _ b hb
        · rw [hb, digitByte_val _ (Nat.mod_lt n (by decide))]
          have := Nat.mod_lt n (show 0 < 10 by decide)
          omega

/-- Reading back the decimal digits of `n` gives `n`, when the fuel suffices. -/
theorem decimalValue_decimalDigits (fuel : Nat) :
    ∀ n : Nat, n < fuel → decimalValue (decimalDigits fuel n) = n := by
  induction fuel with
  | zero => intro n h; omega
  | succ k ih =>
      intro n h
      simp only [decimalDigits]
      split
      · next hlt =>
        simp only [decimalValue, List.foldl_cons, List.foldl_nil, digitByte_val n hlt]
        omega
      · next hge =>
        have hdiv : n / 10 < k := by omega
        have hrec := ih (n / 10) hdiv
        simp only [decimalValue] at hrec ⊢
        rw [List.foldl_append, hrec]
        simp only [List.foldl_cons, List.foldl_nil,
          digitByte_val _ (Nat.mod_lt n (show 0 < 10 by decide))]
        omega

/-- The decimal text of a natural number determines the number. -/
theorem natDecimal_injective (m n : Nat) (h : natDecimal m = natDecimal n) : m = n := by
  have hm := decimalValue_decimalDigits (m + 1) m (Nat.lt_succ_self m)
  have hn := decimalValue_decimalDigits (n + 1) n (Nat.lt_succ_self n)
  unfold natDecimal at h
  rw [h] at hm
  omega

/-- Every byte of the `%d` text of an integer is the minus sign or a digit. -/
theorem decimal_bytes (c : Int) (b : Byte) (hb : b ∈ decimal c) :
    b.val = 45 ∨ (48 ≤ b.val ∧ b.val ≤ 57) := by
  unfold decimal at hb
  split at hb
  · rw [List.mem_cons] at hb
    rcases hb with hb | hb
    · left; rw [hb]; rfl
    · right; exact decimalDigits_digit _ _ b hb
  · right; exact decimalDigits_digit _ _ b hb

/-- The `%d` text of an integer contains no underscore. -/
theorem underscore_not_mem_decimal (c : Int) : underscore ∉ decimal c := by
  intro h
  have hb := decimal_bytes c underscore h
  have hu : underscore.val = 95 := rfl
  omega

/-- The `%d` text of an integer determines the integer. -/
theorem decimal_injective (c d : Int) (h : decimal c = decimal d) : c = d := by
  have hdigit : ∀ (n : Nat) (rest : GoString),
      natDecimal n ≠ (Fin.ofNat 45 : Byte) :: rest := by
    intro n rest heq
    have hmem : (Fin.ofNat 45 : Byte) ∈ natDecimal n := by
      rw [heq]; exact List.mem_cons_self _ _
    have := decimalDigits_digit _ _ _ hmem
    have hv : ((Fin.ofNat 45 : Byte)).val = 45 := rfl
    omega
  unfold decimal at h
  by_cases hc : c < 0 <;> by_cases hd : d < 0
  · simp only [hc, hd, if_true, List.cons.injEq, true_and] at h
    have := natDecimal_injective _ _ h
    omega
  · simp only [hc, hd, if_true, if_false] at h
    exact absurd h.symm (hdigit _ _)
  · simp only [hc, hd, if_true, if_false] at h
    exact absurd h (hdigit _ _)
  · simp only [hc, hd, if_false] at h
    have := natDecimal_injective _ _ h
    omega

/-- Every character of the base64 alphabet is read back to its position, and
none is the underscore or the padding character. -/
theorem base64Char_facts :
    ∀ n : Nat, n < 64 →
      base64Index (base64Char n) = n ∧ base64Char n ≠ underscore ∧
        base64Char n ≠ base64Pad := by
  decide

/-- A byte is the byte of its own value. -/
theorem byte_ofNat (a : Byte) (n : Nat) (h : n = a.val) : (Fin.ofNat n : Byte) = a := by
  apply Fin.ext
  have ha := a.isLt
  simp only [Fin.ofNat, Fin.val_mk, h]
  omega

/-- Reading back a text of `base64Std` gives the encoded bytes. -/
theorem base64Unpack_base64Std (l : List Byte) : base64Unpack (base64Std l) = l := by
  induction l using base64Std.induct with
  | case1 => rfl
  | case2 a =>
      have ha := a.isLt
      have h1 := (base64Char_facts (a.val / 4) (by omega)).1
      have h2 := (base64Char_facts (a.val % 4 * 16) (by omega)).1
      simp only [base64Std, base64Unpack, if_true, h1, h2]
      rw [byte_ofNat a _ (by omega)]
  | case3 a b =>
      have ha := a.isLt
      have hb := b.isLt
      have h1 := (base64Char_facts (a.val / 4) (by omega)).1
      have h2 := (base64Char_facts (a.val % 4 * 16 + b.val / 16) (by omega)).1
      have h3 := base64Char_facts (b.val % 16 * 4) (by omega)
      simp only [base64Std, base64Unpack, if_true, h1, h2, h3.1, h3.2.2, if_false]
      rw [byte_ofNat a _ (by omega), byte_ofNat b _ (by omega)]
  | case4 a b c rest ih =>
      have ha := a.isLt
      have hb := b.isLt
      have hc := c.isLt
      have h1 := (base64Char_facts (a.val / 4) (by omega)).1
      have h2 := (base64Char_facts (a.val % 4 * 16 + b.val / 16) (by omega)).1
      have h3 := base64Char_facts (b.val % 16 * 4 + c.val / 64) (by omega)
      have h4 := base64Char_facts (c.val % 64) (by omega)
      simp only [base64Std, base64Unpack, h1, h2, h3.1, h3.2.2, h4.1, h4.2.2, if_false, ih]
      rw [byte_ofNat a _ (by omega), byte_ofNat b _ (by omega), byte_ofNat c _ (by omega)]

/-- The standard base64 text determines the encoded bytes. -/
theorem base64Std_injective (l1 l2 : List Byte) (h : base64Std l1 = base64Std l2) :
    l1 = l2 := by
  rw [← base64Unpack_base64Std l1, ← base64Unpack_base64Std l2, h]

/-- The standard base64 text contains no underscore. -/
theorem underscore_not_mem_base64Std (l : List Byte) : underscore ∉ base64Std l := by
  have hpad : underscore ≠ base64Pad := by decide
  induction l using base64Std.induct with
  | case1 => simp [base64Std]
  | case2 a =>
      have ha := a.isLt
      have h1 := (base64Char_facts (a.val / 4) (by omega)).2.1
      have h2 := (base64Char_facts (a.val % 4 * 16) (by omega)).2.1
      simp only [base64Std, List.mem_cons, List.mem_singleton, List.not_mem_nil, or_false,
        not_or]
      exact ⟨fun h => h1 h.symm, fun h => h2 h.symm, hpad, hpad⟩
  | case3 a b =>
      have ha := a.isLt
      have hb := b.isLt
      have h1 := (base64Char_facts (a.val / 4) (by omega)).2.1
      have h2 := (base64Char_facts (a.val % 4 * 16 + b.val / 16) (by omega)).2.1
      have h3 := (base64Char_facts (b.val % 16 * 4) (by omega)).2.1
      simp only [base64Std, List.mem_cons, List.mem_singleton, List.not_mem_nil, or_false,
        not_or]
      exact ⟨fun h => h1 h.symm, fun h => h2 h.symm, fun h => h3 h.symm, hpad⟩
  | case4 a b c rest ih =>
      have ha := a.isLt
      have hb := b.isLt
      have hc := c.isLt
      have h1 := (base64Char_facts (a.val / 4) (by omega)).2.1
      have h2 := (base64Char_facts (a.val % 4 * 16 + b.val / 16) (by omega)).2.1
      have h3 := (base64Char_facts (b.val % 16 * 4 + c.val / 64) (by omega)).2.1
      have h4 := (base64Char_facts (c.val % 64) (by omega)).2.1
      simp only [base64Std, List.mem_cons, not_or]
      exact ⟨fun h => h1 h.symm, fun h => h2 h.symm, fun h => h3 h.symm,
        fun h => h4 h.symm, ih⟩

/-- A text is cut in one way at the first occurrence of a separator. -/
theorem append_cons_split {α : Type} (u : α) :
    ∀ (x x1 r r1 : List α), u ∉ x → u ∉ x1 → x ++ u :: r = x1 ++ u :: r1 →
      x = x1 ∧ r = r1 := by
  intro x
  induction x with
  | nil =>
      intro x1 r r1 _ h1 h
      cases x1 with
      | nil =>
          simp only [List.nil_append, List.cons.injEq, true_and] at h
          exact ⟨rfl, h⟩
      | cons b t =>
          simp only [List.nil_append, List.cons_append, List.cons.injEq] at h
          exact absurd (by rw [h.1]; exact List.mem_cons_self _ _) h1
  | cons a t ih =>
      intro x1 r r1 h0 h1 h
      cases x1 with
      | nil =>
          simp only [List.nil_append, List.cons_append, List.cons.injEq] at h
          exact absurd (by rw [← h.1]; exact List.mem_cons_self _ _) h0
      | cons b t1 =>
          simp only [List.cons_append, List.cons.injEq] at h
          have hr := ih t1 r r1 (fun hm => h0 (List.mem_cons_of_mem _ hm))
            (fun hm => h1 (List.mem_cons_of_mem _ hm)) h.2
          exact ⟨by rw [h.1, hr.1], hr.2⟩

/-- A text is cut in one way at the last occurrence of a separator. -/
theorem append_cons_split_last {α : Type} (u : α) (x x1 r r1 : List α) (h0 : u ∉ r)
    (h1 : u ∉ r1) (h : x ++ u :: r = x1 ++ u :: r1) : x = x1 ∧ r = r1 := by
  have hrev : r.reverse ++ u :: x.reverse = r1.reverse ++ u :: x1.reverse := by
    have h2 := congrArg List.reverse h
    simpa [List.reverse_append, List.reverse_cons, List.append_assoc] using h2
  have hs := append_cons_split u r.reverse r1.reverse x.reverse x1.reverse
    (fun hm => h0 (List.mem_reverse.mp hm)) (fun hm => h1 (List.mem_reverse.mp hm)) hrev
  exact ⟨List.reverse_injective hs.2, List.reverse_injective hs.1⟩

/-- The payload is the counter text, an underscore, and the rest. -/
theorem sprintfSecured_eq (c : Int) (data reference : GoString) :
    sprintfSecured c data reference =
      decimal c ++ underscore :: (data ++ underscore :: reference) := by
  simp [sprintfSecured, List.append_assoc]

/-- C24: the signed payload is unambiguous.  For every counter (so for every
non-negative one), every data string, also one containing underscores, and
every chain reference, neither the decimal text of the counter nor the
standard base64 text of the reference contains an underscore, and two
payloads `decimal(counter) ++ "_" ++ data ++ "_" ++ base64Std(reference)`
that are equal come from the same counter, the same data and the same
reference. -/
theorem payload_injective (c c1 : Int) (data data1 ref ref1 : GoString)
    (h : sprintfSecured c data (base64Std ref) = sprintfSecured c1 data1 (base64Std ref1)) :
    underscore ∉ decimal c ∧ underscore ∉ base64Std ref ∧
      c = c1 ∧ data = data1 ∧ ref = ref1 := by
  rw [sprintfSecured_eq, sprintfSecured_eq] at h
  have hfirst := append_cons_split underscore (decimal c) (decimal c1) _ _
    (underscore_not_mem_decimal c) (underscore_not_mem_decimal c1) h
  have hlast := append_cons_split_last underscore data data1 (base64Std ref) (base64Std ref1)
    (underscore_not_mem_base64Std ref) (underscore_not_mem_base64Std ref1) hfirst.2
  exact ⟨underscore_not_mem_decimal c, underscore_not_mem_base64Std ref,
    decimal_injective c c1 hfirst.1, hlast.1, base64Std_injective ref ref1 hlast.2⟩

/-- Witness for C24: the payload of counter 1, data `a_b` and reference `d1`. -/
theorem payload_injective_witness :
    sprintfSecured 1 (ascii "a_b") (base64Std (ascii "d1")) = ascii "1_a_b_ZDE=" ∧
      underscore ∉ decimal 1 ∧ underscore ∉ base64Std (ascii "d1") ∧
        (1 : Int) = 1 ∧ ascii "a_b" = ascii "a_b" ∧ ascii "d1" = ascii "d1" :=
  ⟨by decide, payload_injective 1 1 (ascii "a_b") (ascii "a_b") (ascii "d1") (ascii "d1") rfl⟩

/-! ### The first link and the id of the call -/

/-- In a repository reached from the empty one by repository calls, the device
`Get` returns for an id carries that id. -/
theorem Get_reached_id (cs : List RepositoryCall) (deviceId : GoString)
    (r1 : inMemorySignatureDeviceRepository) (sdr : SignatureDeviceResponse)
    (h : (runRepository NewInMemorySignatureDeviceRepository cs).Get deviceId =
      (r1, sdr, none)) :
    sdr.ID = deviceId := by
  have hkey : IdIsKey (runRepository NewInMemorySignatureDeviceRepository cs) :=
    runRepository_idIsKey cs _ (fun id d hd => by
      have hn : NewInMemorySignatureDeviceRepository.signatureDevice.lookup id = none := rfl
      rw [hn] at hd
      exact absurd hd (by simp))
  unfold inMemorySignatureDeviceRepository.Get at h
  cases hl : (runRepository NewInMemorySignatureDeviceRepository cs).signatureDevice.lookup
      deviceId with
  | none =>
      rw [hl] at h
      simp at h
  | some d =>
      rw [hl] at h
      simp only [Prod.mk.injEq] at h
      rw [← h.2.1]
      exact hkey deviceId d hl

/-- Counterexample to C1 as worded (the payload ends with the base64 text of
the id passed to the call).  The mocked repository of
`Test_signatureDeviceService_SignTransaction_DeviceID` returns the device with
ID `"someid"` and counter 0 for every id; factory, signer and `AddSignature`
succeed.  Called with the id `"otherid"`, `SignTransaction` returns the payload
`0_somedata_c29tZWlk`, which ends with the base64 text of `"someid"`, not of
`"otherid"`.  The in-memory repository does the same in a store state that
holds the device with ID `"someid"` under the key `"otherid"`. -/
theorem SignTransaction_first_link_other_id :
    ((mockService 0 []).signatureDeviceRepository.Get () (ascii "otherid") =
        ((), mockDevice 0, none) ∧
      (mockDevice 0).SignatureCounter.Value = 0 ∧
      (mockService 0 []).signerFactory.CreateSigner (mockDevice 0).Algorithm
          (mockDevice 0).PrivateKey = (some mockSigner, none) ∧
      mockSigner.Sign (ascii "0_somedata_c29tZWlk") = (ascii "thesignature", none) ∧
      (mockService 0 []).signatureDeviceRepository.AddSignature () (ascii "otherid")
          { Signature := base64Std (ascii "thesignature"),
            SignedData := ascii "0_somedata_c29tZWlk" } =
        ((), mockDevice 1, none)) ∧
    (mockService 0 []).SignTransaction () (ascii "otherid") (ascii "somedata") =
      ((), Outcome.returned
        { Signature := base64Std (ascii "thesignature"),
          SignedData := ascii "0_somedata_c29tZWlk" } none) ∧
    (mockService 0 []).SignTransaction () (ascii "otherid") (ascii "somedata") ≠
      ((), Outcome.returned
        { Signature := base64Std (ascii "thesignature"),
          SignedData :=
            ascii "0_" ++ ascii "somedata" ++ ascii "_" ++ base64Std (ascii "otherid") }
        none) ∧
    base64Std (ascii "someid") = ascii "c29tZWlk" ∧
    base64Std (ascii "otherid") = ascii "b3RoZXJpZA==" ∧
    ((inMemoryService mockSignerFactory).SignTransaction mislabelledRepository
        (ascii "otherid") (ascii "somedata")).2 =
      Outcome.returned
        { Signature := base64Std (ascii "thesignature"),
          SignedData := ascii "0_somedata_c29tZWlk" } none :=
  ⟨⟨by decide, by decide, rfl, rfl, by decide⟩, by decide, by decide, by decide, by decide,
    by decide⟩

/-- C1 (first link), amended.  Let the repository's `Get` return a device `sdr`
whose counter is 0, and let the signer factory, the signer (returning the bytes
`sig` for the payload) and `AddSignature` succeed.  Then `SignTransaction`
returns exactly `{Signature: base64Std(sig), SignedData: "0_" ++ data ++ "_" ++
base64Std(sdr.ID)}` with a nil error, in the repository state `AddSignature`
left: the id in the payload is the `ID` field of the device `Get` returned.
The result is the one with the base64 text of the id passed to the call
exactly when `sdr.ID` is that id.  The signature history is not read: the
outcome is the same whatever `GetAllSignature` is put in the repository. -/
theorem SignTransaction_first_link {σ : Type} (s : signatureDeviceService σ)
    (st st1 st2 : σ) (deviceId data : GoString) (sdr sdr1 : SignatureDeviceResponse)
    (sg : Signer) (sig : List Byte)
    (hGet : s.signatureDeviceRepository.Get st deviceId = (st1, sdr, none))
    (hCounter : sdr.SignatureCounter.Value = 0)
    (hFactory : s.signerFactory.CreateSigner sdr.Algorithm sdr.PrivateKey = (some sg, none))
    (hSign : sg.Sign (ascii "0_" ++ data ++ ascii "_" ++ base64Std sdr.ID) = (sig, none))
    (hAdd : s.signatureDeviceRepository.AddSignature st1 deviceId
        { Signature := base64Std sig,
          SignedData := ascii "0_" ++ data ++ ascii "_" ++ base64Std sdr.ID } =
      (st2, sdr1, none)) :
    s.SignTransaction st deviceId data =
        (st2, Outcome.returned
          { Signature := base64Std sig,
            SignedData := ascii "0_" ++ data ++ ascii "_" ++ base64Std sdr.ID } none) ∧
      (s.SignTransaction st deviceId data =
          (st2, Outcome.returned
            { Signature := base64Std sig,
              SignedData := ascii "0_" ++ data ++ ascii "_" ++ base64Std deviceId } none) ↔
        sdr.ID = deviceId) ∧
      ∀ g : σ → GoString → σ × List SignatureResponse × Option Error,
        signatureDeviceService.SignTransaction
            { s with signatureDeviceRepository :=
                { s.signatureDeviceRepository with GetAllSignature := g } }
            st deviceId data =
          s.SignTransaction st deviceId data := by
  have hpay : sprintfSecured sdr.SignatureCounter.val data (base64Std sdr.ID) =
      ascii "0_" ++ data ++ ascii "_" ++ base64Std sdr.ID := by
    have h0 : sdr.SignatureCounter.val = 0 := hCounter
    rw [h0]
    rfl
  have hres : s.SignTransaction st deviceId data =
      (st2, Outcome.returned
        { Signature := base64Std sig,
          SignedData := ascii "0_" ++ data ++ ascii "_" ++ base64Std sdr.ID } none) := by
    simp only [signatureDeviceService.SignTransaction, signatureDeviceService.signAndStore,
      hGet, hFactory, hCounter, hpay, hSign, hAdd, if_true]
  refine ⟨hres, ?_, ?_⟩
  · rw [hres]
    constructor
    · intro h
      simp only [Prod.mk.injEq, Outcome.returned.injEq, SignatureResponse.mk.injEq,
        true_and, and_true] at h
      exact base64Std_injective _ _ (List.append_cancel_left h)
    · intro h
      rw [h]
  · intro g
    simp only [signatureDeviceService.SignTransaction, signatureDeviceService.signAndStore,
      hGet, hFactory, hCounter, hpay, hSign, hAdd, if_true]

/-- Witness of C1: the scenario of
`Test_signatureDeviceService_SignTransaction_DeviceID`, where the mocked device
carries the id of the call. -/
theorem SignTransaction_first_link_witness :
    (mockService 0 []).SignTransaction () (ascii "someid") (ascii "somedata") =
        ((), Outcome.returned
          { Signature := base64Std (ascii "thesignature"),
            SignedData :=
              ascii "0_" ++ ascii "somedata" ++ ascii "_" ++ base64Std (mockDevice 0).ID }
          none) ∧
      ((mockService 0 []).SignTransaction () (ascii "someid") (ascii "somedata") =
          ((), Outcome.returned
            { Signature := base64Std (ascii "thesignature"),
              SignedData :=
                ascii "0_" ++ ascii "somedata" ++ ascii "_" ++ base64Std (ascii "someid") }
            none) ↔
        (mockDevice 0).ID = ascii "someid") ∧
      ∀ g : Unit → GoString → Unit × List SignatureResponse × Option Error,
        signatureDeviceService.SignTransaction
            { mockService 0 [] with signatureDeviceRepository :=
                { (mockService 0 []).signatureDeviceRepository with GetAllSignature := g } }
            () (ascii "someid") (ascii "somedata") =
          (mockService 0 []).SignTransaction () (ascii "someid") (ascii "somedata") :=
  SignTransaction_first_link (mockService 0 []) () () () (ascii "someid") (ascii "somedata")
    (mockDevice 0) (mockDevice 1) mockSigner (ascii "thesignature")
    rfl (by decide) rfl rfl rfl

/-! ### Signatures verify -/

/-- C22 (signatures verify).  The standard library is a parameter.  Let
`sha256.Sum256` return 32 bytes and leave its argument as it was, and let
`(rsaPriv, rsaPub)` and `(eccPriv, eccPub)` be key pairs for which the library
keeps its promise, as for generated pairs: signing a 32-byte digest with the
private key (for RSA with the hash `crypto.SHA256`) returns without error a
signature that the verification function accepts for the public key and that
digest.  Then for every message and every state of the random source,
`RSASigner.Sign` returns without error a signature that `VerifyPKCS1v15`
accepts for `rsaPub`, the hash `crypto.SHA256` and the SHA-256 digest of the
message, and `ECCSigner.Sign` returns without error a signature that
`VerifyASN1` accepts for `eccPub` and the same digest; in both cases the
caller's message bytes are what they were. -/
theorem Sign_verifies {Rand RSAPrivateKey RSAPublicKey ECPrivateKey ECPublicKey : Type}
    (lib : SigningLibrary Rand RSAPrivateKey RSAPublicKey ECPrivateKey ECPublicKey)
    (rsaPriv : RSAPrivateKey) (rsaPub : RSAPublicKey) (eccPriv : ECPrivateKey)
    (eccPub : ECPublicKey)
    (hSum : ∀ data : List Byte,
      (lib.sha256Sum256 data).1.length = 32 ∧ (lib.sha256Sum256 data).2 = data)
    (hRSA : ∀ (rnd : Rand) (hashed : List Byte), hashed.length = 32 →
      ∃ sig : List Byte,
        lib.rsaSignPKCS1v15 rnd rsaPriv cryptoSHA256 hashed = (sig, none) ∧
          lib.rsaVerifyPKCS1v15 rsaPub cryptoSHA256 hashed sig = none)
    (hECC : ∀ (rnd : Rand) (hashed : List Byte), hashed.length = 32 →
      ∃ sig : List Byte,
        lib.ecdsaSignASN1 rnd eccPriv hashed = (sig, none) ∧
          lib.ecdsaVerifyASN1 eccPub hashed sig = true)
    (rnd : Rand) (message : List Byte) :
    (∃ sig : List Byte,
      RSASigner.Sign lib rnd { pk := rsaPriv } message = ((sig, none), message) ∧
        lib.rsaVerifyPKCS1v15 rsaPub cryptoSHA256 (lib.sha256Sum256 message).1 sig = none) ∧
    (∃ sig : List Byte,
      ECCSigner.Sign lib rnd { pk := eccPriv } message = ((sig, none), message) ∧
        lib.ecdsaVerifyASN1 eccPub (lib.sha256Sum256 message).1 sig = true) := by
  obtain ⟨hlen, hsame⟩ := hSum message
  obtain ⟨sig1, hs1, hv1⟩ := hRSA rnd _ hlen
  obtain ⟨sig2, hs2, hv2⟩ := hECC rnd _ hlen
  refine ⟨⟨sig1, ?_, hv1⟩, ⟨sig2, ?_, hv2⟩⟩
  · simp only [RSASigner.Sign, hs1, hsame]
  · simp only [ECCSigner.Sign, hs2, hsame]

/-- Witness of C22: the stand-in library, the RSA pair `([7], [7])`, the ECC
pair `([8], [8])`, and the three messages of the tests' kind: the empty one,
a plain one and one of punctuation characters. -/
theorem Sign_verifies_witness :
    ((∃ sig : List Byte,
        RSASigner.Sign exampleLibrary () { pk := [7] } [] = ((sig, none), []) ∧
          exampleLibrary.rsaVerifyPKCS1v15 [7] cryptoSHA256
            (exampleLibrary.sha256Sum256 []).1 sig = none) ∧
      (∃ sig : List Byte,
        ECCSigner.Sign exampleLibrary () { pk := [8] } [] = ((sig, none), []) ∧
          exampleLibrary.ecdsaVerifyASN1 [8] (exampleLibrary.sha256Sum256 []).1 sig = true)) ∧
    ((∃ sig : List Byte,
        RSASigner.Sign exampleLibrary () { pk := [7] } (ascii "some-valid-data-to-sign") =
            ((sig, none), ascii "some-valid-data-to-sign") ∧
          exampleLibrary.rsaVerifyPKCS1v15 [7] cryptoSHA256
            (exampleLibrary.sha256Sum256 (ascii "some-valid-data-to-sign")).1 sig = none) ∧
      (∃ sig : List Byte,
        ECCSigner.Sign exampleLibrary () { pk := [8] } (ascii "some-valid-data-to-sign") =
            ((sig, none), ascii "some-valid-data-to-sign") ∧
          exampleLibrary.ecdsaVerifyASN1 [8]
            (exampleLibrary.sha256Sum256 (ascii "some-valid-data-to-sign")).1 sig =
              true)) ∧
    ((∃ sig : List Byte,
        RSASigner.Sign exampleLibrary () { pk := [7] } (ascii "!#$%&()*+,-./:;<=>?^_~") =
            ((sig, none), ascii "!#$%&()*+,-./:;<=>?^_~") ∧
          exampleLibrary.rsaVerifyPKCS1v15 [7] cryptoSHA256
            (exampleLibrary.sha256Sum256 (ascii "!#$%&()*+,-./:;<=>?^_~")).1 sig = none) ∧
      (∃ sig : List Byte,
        ECCSigner.Sign exampleLibrary () { pk := [8] } (ascii "!#$%&()*+,-./:;<=>?^_~") =
            ((sig, none), ascii "!#$%&()*+,-./:;<=>?^_~") ∧
          exampleLibrary.ecdsaVerifyASN1 [8]
            (exampleLibrary.sha256Sum256 (ascii "!#$%&()*+,-./:;<=>?^_~")).1 sig =
              true)) :=
  have hSum : ∀ data : List Byte,
      (exampleLibrary.sha256Sum256 data).1.length = 32 ∧
        (exampleLibrary.sha256Sum256 data).2 = data :=
    fun data => ⟨by simp [exampleLibrary], rfl⟩
  have hRSA : ∀ (rnd : Unit) (hashed : List Byte), hashed.length = 32 →
      ∃ sig : List Byte,
        exampleLibrary.rsaSignPKCS1v15 rnd [7] cryptoSHA256 hashed = (sig, none) ∧
          exampleLibrary.rsaVerifyPKCS1v15 [7] cryptoSHA256 hashed sig = none :=
    fun _ hashed hl => ⟨[7] ++ hashed, by simp [exampleLibrary, hl], by simp [exampleLibrary]⟩
  have hECC : ∀ (rnd : Unit) (hashed : List Byte), hashed.length = 32 →
      ∃ sig : List Byte,
        exampleLibrary.ecdsaSignASN1 rnd [8] hashed = (sig, none) ∧
          exampleLibrary.ecdsaVerifyASN1 [8] hashed sig = true :=
    fun _ hashed _ => ⟨[8] ++ hashed, rfl, by simp [exampleLibrary]⟩
  ⟨Sign_verifies exampleLibrary [7] [7] [8] [8] hSum hRSA hECC () [],
    Sign_verifies exampleLibrary [7] [7] [8] [8] hSum hRSA hECC ()
      (ascii "some-valid-data-to-sign"),
    Sign_verifies exampleLibrary [7] [7] [8] [8] hSum hRSA hECC ()
      (ascii "!#$%&()*+,-./:;<=>?^_~")⟩

end Gosign
